import Mathlib

/-!
# Painel de Frotas: ingestion, reconciliation and aggregation core of `server.js`

A shallow embedding of the parts of `server.js` that keep the in-memory store
(`db`) up to date and derive the fleet view from it, followed by theorems about
them.

Conventions of the embedding

* A value read from a record produced by the XML parser (`xml2js` with
  `explicitArray: false`, `trim: true`, `emptyTag: null`) is a `JsVal`: the
  field is absent (`undefined`), the element is empty (`null`), or it is text.
  Elements with attributes or nested children are outside the model.
* A JavaScript object used as a table is an association list of its own
  properties in insertion order; inherited properties of `Object.prototype`
  are outside the model.
* A Number produced by `parseInt` is `NaN` or a double with an integer value
  or an infinity. Such a double is held as the integer (`Int`) it equals,
  `Infinity` as `2 ^ 1024` and `-Infinity` as `-2 ^ 1024`; `parseInt` rounds
  the integer it reads to the nearest double. `NaN` is a separate constructor,
  and `-0` is not told apart from `0` (no expression of the source does). The
  label of a moving vehicle prints the speed in decimal, where the source
  switches to exponent notation from `10 ^ 21` on.
* Results of `parseFloat` are kept as the text handed to `parseFloat`.
* The clock (`new Date().toISOString()`), the outcome of a protocol call, the
  collation used by `localeCompare` and the upper-casing done by
  `toUpperCase` are inputs of the functions that use them. So are the XML
  parser, the archive reader, the gzip decompressor and the decoding of bytes
  as text in the protocol client.
* The cache file is identified with the value `JSON.parse` gives for it, and
  that value holds tables of the records `salvarCache` writes. What
  `JSON.stringify` changes on the way is modelled: a table comes back in
  enumeration order, and `NaN` and the infinities come back as `null`. A
  coordinate or an equipment code that is not a finite number is outside the
  model of the cache.
-/

namespace PainelFrotas

/-! ## JavaScript values and built-ins -/

/-- A field of a parsed record: absent, an empty element, or text. -/
inductive JsVal where
  | undefined
  | null
  | str (s : String)
deriving DecidableEq, Repr

/-- A parsed record: the fields present in it, by name. -/
abbrev Registro := List (String × JsVal)

/-- Property read `r[k]` on a parsed record. -/
def Registro.get : Registro → String → JsVal
  | [], _ => .undefined
  | (k', v) :: r, k => if k' = k then v else Registro.get r k

/-- Truthiness of a field value. -/
def JsVal.truthy : JsVal → Bool
  | .str s => s ≠ ""
  | _ => false

/-- The expression `v || ''`. -/
def JsVal.ouVazio : JsVal → String
  | .str s => s
  | _ => ""

/-- The expression `v || null`. -/
def JsVal.ouNull : JsVal → Option String
  | .str s => if s = "" then none else some s
  | _ => none

/-- The key a value denotes when it is used as a property name. -/
def JsVal.chave : JsVal → String
  | .undefined => "undefined"
  | .null => "null"
  | .str s => s

/-- The characters skipped as white space by `parseInt`, `BigInt` and the
string-to-number conversion (WhiteSpace and LineTerminator). -/
def ehEspaco (c : Char) : Bool :=
  let n := c.toNat
  n = 0x09 || n = 0x0A || n = 0x0B || n = 0x0C || n = 0x0D || n = 0x20 ||
  n = 0xA0 || n = 0x1680 || (0x2000 ≤ n && n ≤ 0x200A) || n = 0x2028 ||
  n = 0x2029 || n = 0x202F || n = 0x205F || n = 0x3000 || n = 0xFEFF

/-- White space removed at both ends. -/
def aparar (cs : List Char) : List Char :=
  ((cs.dropWhile ehEspaco).reverse.dropWhile ehEspaco).reverse

/-- A decimal digit, `0` to `9`. -/
def ehDecimal (c : Char) : Bool :=
  48 ≤ c.toNat && c.toNat ≤ 57

/-- Value of a character as a digit in bases up to 36. -/
def valorDigito (c : Char) : Option Nat :=
  let n := c.toNat
  if 48 ≤ n ∧ n ≤ 57 then some (n - 48)
  else if 97 ≤ n ∧ n ≤ 122 then some (n - 87)
  else if 65 ≤ n ∧ n ≤ 90 then some (n - 55)
  else none

/-- Whether a character is a digit of the given base. -/
def ehDigito (base : Nat) (c : Char) : Bool :=
  match valorDigito c with
  | some d => d < base
  | none => false

/-- Value of a run of digits of the given base, most significant first. -/
def valorDigitos (base : Nat) (cs : List Char) : Nat :=
  cs.foldl (fun acc c => acc * base + (valorDigito c).getD 0) 0

/-- The longest leading run of digits of the given base. -/
def prefixoDigitos (base : Nat) (cs : List Char) : List Char :=
  cs.takeWhile (ehDigito base)

/-- An optional leading sign: `true` when it is a minus, and the rest. -/
def lerSinal : List Char → Bool × List Char
  | '-' :: r => (true, r)
  | '+' :: r => (false, r)
  | cs => (false, cs)

/-- The double nearest to a natural number, ties going to the even
significand, as the natural number it equals; `2 ^ 1024` stands for
`Infinity`. A number below `2 ^ 53` is a double. Otherwise `e` is the least
shift that leaves a significand `q` of 53 bits, and the remainder `r` decides
the rounding. -/
def paraDouble (m : Nat) : Nat :=
  if m < 2 ^ 53 then m
  else
    match (List.range 972).find? (fun e => decide (m / 2 ^ e < 2 ^ 53)) with
    | none => 2 ^ 1024
    | some e =>
      let q := m / 2 ^ e
      let r := m % 2 ^ e
      let q1 := if 2 * r > 2 ^ e ∨ (2 * r = 2 ^ e ∧ q % 2 = 1) then q + 1 else q
      if q1 * 2 ^ e ≥ 2 ^ 1024 then 2 ^ 1024 else q1 * 2 ^ e

/-- The built-in `parseInt(v)` with no radix argument; `none` is `NaN`.
A value that is not text is first converted to the text `undefined` or
`null`, which has no leading digit. The integer read is rounded to the
nearest double. -/
def parseInt : JsVal → Option Int
  | .str s =>
    let (neg, r) := lerSinal (s.toList.dropWhile ehEspaco)
    let (base, r) :=
      match r with
      | '0' :: 'x' :: t => (16, t)
      | '0' :: 'X' :: t => (16, t)
      | _ => (10, r)
    let ds := prefixoDigitos base r
    if ds = [] then none
    else if neg then some (-(paraDouble (valorDigitos base ds) : Int))
    else some (paraDouble (valorDigitos base ds) : Int)
  | _ => none

/-- A literal made of a two-character base mark and digits of that base. -/
def literalBase (base : Nat) (t : List Char) : Option Int :=
  if t ≠ [] ∧ t.all (ehDigito base) then some (valorDigitos base t : Int) else none

/-- The built-in `BigInt(v)`; `none` stands for the exception it throws
(on `undefined`, `null` and on text that is not an integer literal). -/
def BigInt : JsVal → Option Int
  | .str s =>
    match aparar s.toList with
    | [] => some 0
    | '0' :: 'x' :: t => literalBase 16 t
    | '0' :: 'X' :: t => literalBase 16 t
    | '0' :: 'o' :: t => literalBase 8 t
    | '0' :: 'O' :: t => literalBase 8 t
    | '0' :: 'b' :: t => literalBase 2 t
    | '0' :: 'B' :: t => literalBase 2 t
    | '-' :: t => (literalBase 10 t).map (fun n => -n)
    | '+' :: t => literalBase 10 t
    | t => literalBase 10 t
  | _ => none

/-- How a Number compares with zero. -/
inductive Sinal where
  | nan
  | negativo
  | zero
  | positivo
deriving DecidableEq, Repr

/-- Sign of a literal in base 16, 8 or 2 (these carry no sign of their own). -/
def sinalBase (base : Nat) (t : List Char) : Sinal :=
  if t ≠ [] ∧ t.all (ehDigito base) then
    (if valorDigitos base t = 0 then .zero else .positivo)
  else .nan

/-- The exponent part of a decimal literal: `none` when malformed, otherwise
its value (zero when there is no exponent part). -/
def lerExpoente : List Char → Option Int
  | [] => some 0
  | c :: r =>
    if c = 'e' ∨ c = 'E' then
      let (neg, ds) := lerSinal r
      if ds ≠ [] ∧ ds.all (ehDigito 10) then
        some (if neg then -(valorDigitos 10 ds : Int) else (valorDigitos 10 ds : Int))
      else none
    else none

/-- Whether the positive decimal `m * 10 ^ e` rounds to zero as a double:
it does when it is at most `2 ^ (-1075)`, half of the least positive double. -/
def arredondaParaZero (m : Nat) (e : Int) : Bool :=
  e < 0 && m * 2 ^ 1075 ≤ 10 ^ e.natAbs

/-- Sign of an unsigned decimal literal (`Infinity`, digits with an optional
fraction and exponent). -/
def sinalDecimalSemSinal (cs : List Char) : Sinal :=
  if cs = "Infinity".toList then .positivo
  else
    let inteira := prefixoDigitos 10 cs
    let r := cs.drop inteira.length
    let (fracao, r, temPonto) :=
      match r with
      | '.' :: t => (prefixoDigitos 10 t, t.drop (prefixoDigitos 10 t).length, true)
      | _ => ([], r, false)
    if inteira = [] ∧ (¬ temPonto ∨ fracao = []) then .nan
    else
      match lerExpoente r with
      | none => .nan
      | some e =>
        let m := valorDigitos 10 (inteira ++ fracao)
        if m = 0 then .zero
        else if arredondaParaZero m (e - fracao.length) then .zero
        else .positivo

/-- How `Number(s)` compares with zero, for text `s` (the string-to-number
conversion applied by the relational operators to a text operand when the
other operand is not text). -/
def sinalNumero (s : String) : Sinal :=
  match aparar s.toList with
  | [] => .zero
  | '0' :: 'x' :: t => sinalBase 16 t
  | '0' :: 'X' :: t => sinalBase 16 t
  | '0' :: 'o' :: t => sinalBase 8 t
  | '0' :: 'O' :: t => sinalBase 8 t
  | '0' :: 'b' :: t => sinalBase 2 t
  | '0' :: 'B' :: t => sinalBase 2 t
  | '-' :: t =>
    match sinalDecimalSemSinal t with
    | .positivo => .negativo
    | s => s
  | '+' :: t => sinalDecimalSemSinal t
  | t => sinalDecimalSemSinal t

/-- UTF-16 code units of a character. -/
def unidadesChar (c : Char) : List Nat :=
  if c.toNat < 0x10000 then [c.toNat]
  else [0xD800 + (c.toNat - 0x10000) / 0x400, 0xDC00 + (c.toNat - 0x10000) % 0x400]

/-- UTF-16 code units of a string, the sequence JavaScript compares. -/
def unidades (s : String) : List Nat :=
  s.toList.flatMap unidadesChar

/-- Strict lexicographic order on code-unit sequences. -/
def menorUnidades : List Nat → List Nat → Bool
  | _, [] => false
  | [], _ :: _ => true
  | a :: r, b :: t => a < b || (a = b && menorUnidades r t)

/-- The comparison `a < b` of two strings. -/
def strMenor (a b : String) : Bool :=
  menorUnidades (unidades a) (unidades b)

/-- The expression `v >= t` for a field value `v` and a string `t`: code-unit
order when `v` is text, numeric comparison of `0` with `Number(t)` when `v` is
`null`, and false when `v` is `undefined` (it converts to `NaN`). -/
def jsMaiorIgual (v : JsVal) (t : String) : Bool :=
  match v with
  | .str s => !strMenor s t
  | .null => sinalNumero t = .negativo || sinalNumero t = .zero
  | .undefined => false

/-- The expression `v < t` for a field value `v` and a string `t`. -/
def jsMenor (v : JsVal) (t : String) : Bool :=
  match v with
  | .str s => strMenor s t
  | .null => sinalNumero t = .positivo
  | .undefined => false

/-! ## Data model -/

/-- A numeric field built by `parseOpt`: `null` when the raw field is absent,
otherwise what `parseInt` gives, which may be `NaN`. -/
inductive JsNum where
  | null
  | nan
  | int (n : Int)
deriving DecidableEq, Repr

/-- The expression `a ?? b` on numeric fields: only `null` falls back. -/
def JsNum.ouAnterior : JsNum → JsNum → JsNum
  | .null, b => b
  | a, _ => a

/-- The expression `a ?? b` on nullable text fields. -/
def ouAnteriorTexto : Option String → Option String → Option String
  | none, b => b
  | a, _ => a

/-- A Number obtained from `parseFloat`, kept as the text handed to it. -/
structure Flutuante where
  texto : String
deriving DecidableEq, Repr

/-- The built-in `parseFloat`, left symbolic. -/
def parseFloat (s : String) : Flutuante := ⟨s⟩

/-- An entry of the `EVENTOS` reference table. -/
structure InfoEvento where
  descricao : String
  severity : String
  icone : String
deriving DecidableEq, Repr

/-- An active alert attached to a position. -/
structure Evento where
  codigo : String
  descricao : String
  severity : String
  icone : String
deriving DecidableEq, Repr

/-- One line of a reference table: a key and its entry. -/
def entrada (codigo descricao severity icone : String) : String × InfoEvento :=
  (codigo, InfoEvento.mk descricao severity icone)

/-- The `EVENTOS` reference table, in source order. -/
def EVENTOS : List (String × InfoEvento) := [
  entrada "evt5" "Botão de Pânico" "critico" "🆘",
  entrada "evt44" "Possível Jammer" "critico" "📡",
  entrada "evt16" "Bateria Violada" "critico" "🔋",
  entrada "evt110" "Risco Colisão Frontal" "critico" "💥",
  entrada "evt105" "Fadiga Motorista" "critico" "😴",
  entrada "evt31" "Pânico Escondido" "critico" "🆘",
  entrada "evt95" "Pânico / Violação Painel" "critico" "🆘",
  entrada "evt42" "Caixa Violada" "critico" "📦",
  entrada "evt8" "Desengate Carreta 1" "critico" "⚠️",
  entrada "evt27" "Desengate Carreta 2" "critico" "⚠️",
  entrada "evt10" "Trava Baú Destravada" "alto" "🔓",
  entrada "evt14" "Porta Baú Aberta" "alto" "📦",
  entrada "evt17" "Velocímetro Violado" "alto" "⚙️",
  entrada "evt28" "Violação de Painel" "alto" "🛠️",
  entrada "evt109" "Distração Motorista" "alto" "📱",
  entrada "evt114" "Cinto de Segurança" "alto" "🪢",
  entrada "evt34" "Velocidade Máx. GPS" "alto" "🚨",
  entrada "evt72" "Velocidade Excedida Tacógrafo" "alto" "🚨",
  entrada "evt18" "Cabo RS232 Violado" "alto" "🔌",
  entrada "evt45" "Biometria Desconectada" "alto" "🖐️",
  entrada "evt46" "Digital Sinistro s/ Perm." "alto" "🖐️",
  entrada "evt73" "Caixa Travas Violada" "alto" "🔒",
  entrada "evt80" "Porta Baú 1 Violada" "alto" "📦",
  entrada "evt81" "Porta Baú 2 Violada" "alto" "📦",
  entrada "evt82" "Porta Baú 3 Violada" "alto" "📦",
  entrada "evt83" "Porta Baú 4 Violada" "alto" "📦",
  entrada "evt93" "Violação Elétr. 5ª Roda" "alto" "⚡",
  entrada "evt94" "Violação Pino 5ª Roda" "alto" "🔩",
  entrada "evt96" "Tombamento 5ª Roda" "alto" "⚠️",
  entrada "evt98" "Porta Baú Violada" "alto" "📦",
  entrada "evt99" "Perda de Vídeo" "alto" "📹",
  entrada "evt100" "Mov. Indevido Câmera" "alto" "📹",
  entrada "evt101" "Cobertura de Câmera" "alto" "📹",
  entrada "evt104" "Desligamento Ilegal" "alto" "⛔",
  entrada "evt107" "Uso de Celular" "alto" "📱",
  entrada "evt108" "Uso de Cigarro" "alto" "🚬",
  entrada "evt112" "Distância Insegura" "alto" "↔️",
  entrada "evt113" "Bocejo Motorista" "alto" "🥱",
  entrada "evt115" "Porta Motorista Não Autoriz." "alto" "🚪",
  entrada "evt116" "Porta Carona Não Autoriz." "alto" "🚪",
  entrada "evt86" "Movimento s/ GPS Violado" "alto" "📡",
  entrada "evt89" "Desconexão Sirene" "alto" "🔊",
  entrada "evt3" "Veículo Bloqueado" "info" "🔒",
  entrada "evt1" "Alerta de Cabine" "medio" "🔔",
  entrada "evt2" "Sirene Acionada" "medio" "🔊",
  entrada "evt6" "Botão Aviso Cabine" "medio" "🔔",
  entrada "evt9" "Trava 5ª Roda Pressionada" "medio" "🔩",
  entrada "evt11" "Pisca Alerta" "medio" "⚡",
  entrada "evt12" "Porta Carona Aberta" "medio" "🚪",
  entrada "evt13" "Porta Motorista Aberta" "medio" "🚪",
  entrada "evt15" "Trava Baú Pressionada" "medio" "🔒",
  entrada "evt29" "Teclado Desconectado" "medio" "⌨️",
  entrada "evt35" "RPM Máximo" "medio" "🔧",
  entrada "evt43" "Bateria Fraca" "medio" "🪫",
  entrada "evt52" "Saiu Raio de Manobra" "medio" "📐",
  entrada "evt53" "Tempo Manobra Excedido" "medio" "⏱️",
  entrada "evt54" "Tempo Parado Excedido" "medio" "⏱️",
  entrada "evt74" "Tempo Porta Baú 1 Aberta" "medio" "⏱️",
  entrada "evt75" "Tempo Porta Baú 2 Aberta" "medio" "⏱️",
  entrada "evt76" "Tempo Porta Baú 3 Aberta" "medio" "⏱️",
  entrada "evt77" "Tempo Porta Baú 4 Aberta" "medio" "⏱️",
  entrada "evt78" "Porta Cofre Aberta" "medio" "🔐",
  entrada "evt79" "Tempo Porta Cofre Aberta" "medio" "⏱️",
  entrada "evt84" "Abertura de Teclado" "medio" "⌨️",
  entrada "evt85" "Veículo na Chuva" "medio" "🌧️",
  entrada "evt87" "Tempo Porta Motorista" "medio" "⏱️",
  entrada "evt88" "Tempo Porta Carona" "medio" "⏱️",
  entrada "evt90" "Auto-Travamento Baú" "medio" "🔒",
  entrada "evt102" "Armazenamento Anormal" "medio" "💾",
  entrada "evt103" "Baixa Voltagem" "medio" "🪫",
  entrada "evt106" "Motorista Não Detectado" "medio" "👤",
  entrada "evt111" "Inicialização Anormal" "medio" "🔄",
  entrada "evt119" "Fleet Drive Conectado" "medio" "🔗",
  entrada "evt120" "Fleet Drive Desconectado" "medio" "🔌",
  entrada "evt19" "Abertura Baú (EDN1)" "info" "📦",
  entrada "evt20" "Solic. Abertura Baú (EDN2)" "info" "📦",
  entrada "evt21" "Entrada Genérica (EDP1)" "info" "🔌",
  entrada "evt23" "Violação Movimento (EVS1)" "info" "🚛",
  entrada "evt24" "Trava/Destrava (SDP1)" "info" "🔐",
  entrada "evt25" "Saída Genérica (SDP2)" "info" "🔌",
  entrada "evt30" "Contra-Senha c/ Sinistro" "info" "🔑",
  entrada "evt32" "Sensor Janela Motorista" "info" "🪟",
  entrada "evt33" "Sensor Janela Carona" "info" "🪟",
  entrada "evt36" "Tentativas Senha Excedidas" "info" "🔑",
  entrada "evt37" "Falha Sensor Temp. 1" "info" "🌡️",
  entrada "evt38" "Falha Sensor Temp. 2" "info" "🌡️",
  entrada "evt39" "Falha Sensor Temp. 3" "info" "🌡️",
  entrada "evt40" "Entrada Ponto Controle" "info" "📍",
  entrada "evt41" "Saída Ponto Controle" "info" "📍",
  entrada "evt47" "Digital Identificada" "info" "🖐️",
  entrada "evt48" "Digital c/ Sinistro" "info" "🖐️",
  entrada "evt49" "Digital s/ Permissão" "info" "🖐️",
  entrada "evt50" "Digital Não Identificada" "info" "🖐️",
  entrada "evt51" "Tempo Autent. Digital" "info" "⏱️",
  entrada "evt55" "Manut. Emergencial (RP)" "info" "🛤️",
  entrada "evt56" "Manut. Via (RP)" "info" "🛤️",
  entrada "evt57" "Reconhec. Alerta (RP)" "info" "🛤️",
  entrada "evt58" "Manut. Hardware (RP)" "info" "🛤️",
  entrada "evt59" "Senha Identificada" "info" "🔑",
  entrada "evt60" "Senha c/ Sinistro" "info" "🔑",
  entrada "evt61" "Senha Não Identificada" "info" "🔑",
  entrada "evt62" "Senha s/ Permissão" "info" "🔑",
  entrada "evt63" "Senha Sinistro s/ Perm." "info" "🔑",
  entrada "evt64" "Tempo Autent. Senha" "info" "⏱️",
  entrada "evt65" "Digital Manobrista" "info" "🖐️",
  entrada "evt67" "Evento Telemetria" "info" "📊",
  entrada "evt91" "Entrada Ponto Rotograma" "info" "🗺️",
  entrada "evt92" "Saída Ponto Rotograma" "info" "🗺️",
  entrada "evt117" "Vínculo de Carreta" "info" "🔗",
  entrada "evt118" "Desvínculo de Carreta" "info" "🔌",
  entrada "evt121" "Bateria Fleet Drive" "info" "🔋"]

/-- The `ORIGENS` reference table. -/
def ORIGENS : List (Int × String) := [
  (1, "Satélite"), (2, "GSM Híbrido"), (3, "GSM City"),
  (4, "GSM Light"), (5, "GSM Smart"), (6, "Satélite Smart"),
  (7, "LoRa"), (8, "LoRa P2P")]

/-- A vehicle as stored by `buscarVeiculos`. -/
structure Veiculo where
  veiID : JsVal
  placa : String
  eqp : Int
  equipamento : String
  identificacao : String
  motorista : String
  emManutencao : Bool
  versao : Option String
  temSensorTemp1 : Bool
  temSensorTemp2 : Bool
  temSensorTemp3 : Bool
  temTecladoMacro : Bool
  podeEnviarComando : Bool
  temIE : Bool
  ieAtiva : Bool

/-- A driver as stored by `buscarMotoristas`. -/
structure Motorista where
  motID : JsVal
  nome : String
  cpf : String
deriving DecidableEq, Repr

/-- The last known state of a vehicle, as built in `buscarMensagens`. -/
structure Posicao where
  mId : JsVal
  veiID : JsVal
  placa : String
  dataHora : String
  lat : Flutuante
  lon : Flutuante
  municipio : String
  uf : String
  rodovia : String
  rua : String
  velocidade : Option Int
  ignicao : Option Bool
  odometro : JsNum
  rpm : JsNum
  temperatura1 : JsNum
  temperatura2 : JsNum
  temperatura3 : JsNum
  umidade1 : JsNum
  umidade2 : JsNum
  umidade3 : JsNum
  alertaTelemetria : Option String
  eventos : List Evento
  macro_ : Option String
  motorista : Option String
  motoristaID : Option String
  pontoControle : Option String
  pontoRotograma : Option String
  carreta : Option String
  carretaBateria : JsNum
  fleetDriveBateria : JsNum
  origem : Option String
  origemCod : JsNum
  tipoMsg : JsNum
  eventoGerador : JsNum

/-- A JavaScript object used as a table: own properties in insertion order. -/
abbrev Tabela (α : Type) := List (String × α)

/-- Property read `t[k]`; `none` when the table has no such property. -/
def Tabela.obter {α : Type} : Tabela α → String → Option α
  | [], _ => none
  | (k', v) :: r, k => if k' = k then some v else Tabela.obter r k

/-- Property write `t[k] = v`: an existing property keeps its place, a new
one goes last. -/
def Tabela.definir {α : Type} : Tabela α → String → α → Tabela α
  | [], k, v => [(k, v)]
  | (k', v') :: r, k, v =>
    if k' = k then (k, v) :: r else (k', v') :: Tabela.definir r k v

/-- The in-memory store `db`. -/
structure Db where
  veiculos : Tabela Veiculo
  posicoes : Tabela Posicao
  motoristas : Tabela Motorista
  carretas : Tabela String
  ultimoMId : JsVal
  ultimaAtualizacao : Option String
  contadorCiclos : Nat

/-- The store `db` as the source initialises it. -/
def dbInicial : Db where
  veiculos := []
  posicoes := []
  motoristas := []
  carretas := []
  ultimoMId := .str "1"
  ultimaAtualizacao := none
  contadorCiclos := 0

/-- What a protocol call gave a fetch body: `enviarXML` threw, it returned
`null` (upstream error envelope), the parsed response has no container
element, or the container holds these items (after `paraArray`). -/
inductive Resultado (α : Type) where
  | falha
  | nulo
  | semContainer
  | itens (l : List α)

/-! ## `buscarMensagens` -/

/-- The call `s.replace(',', '.')`: the first comma becomes a dot. -/
def trocarVirgula : List Char → List Char
  | [] => []
  | c :: r => if c = ',' then '.' :: r else c :: trocarVirgula r

/-- Coordinates: `parseFloat(String(v || '0').replace(',', '.'))`. -/
def coordenada (v : JsVal) : Flutuante :=
  parseFloat (String.mk (trocarVirgula (if v.truthy then v.ouVazio else "0").toList))

/-- Speed: `parseInt`, with `NaN` and `-1` turned into `null`. -/
def normalizarVelocidade (v : JsVal) : Option Int :=
  match parseInt v with
  | none => none
  | some n => if n = -1 then none else some n

/-- Ignition from `evt4`: `1` is on, `0` is off, anything else unknown. -/
def normalizarIgnicao (v : JsVal) : Option Bool :=
  match v with
  | .undefined => none
  | _ =>
    match parseInt v with
    | some 1 => some true
    | some 0 => some false
    | _ => none

/-- The local helper `parseOpt`. -/
def parseOpt (v : JsVal) : JsNum :=
  match v with
  | .undefined => .null
  | _ =>
    match parseInt v with
    | some n => .int n
    | none => .nan

/-- The alerts of a message: one per `EVENTOS` key whose flag is `'true'` or
`'1'`, in table order. -/
def eventosDe (msg : Registro) : List Evento :=
  EVENTOS.filterMap (fun e =>
    if msg.get e.1 = .str "true" ∨ msg.get e.1 = .str "1" then
      some ⟨e.1, e.2.descricao, e.2.severity, e.2.icone⟩
    else none)

/-- The expression `ORIGENS[origemCod] || null`. -/
def origemDe : JsNum → Option String
  | .int n => (ORIGENS.find? (fun e => e.1 = n)).map (fun e => e.2)
  | _ => none

/-- The position record built from one message (`Monta posição`). -/
def montarPosicao (msg : Registro) : Posicao where
  mId := msg.get "mId"
  veiID := msg.get "veiID"
  placa := (msg.get "placa").ouVazio
  dataHora := (msg.get "dt").ouVazio
  lat := coordenada (msg.get "lat")
  lon := coordenada (msg.get "lon")
  municipio := (msg.get "mun").ouVazio
  uf := (msg.get "uf").ouVazio
  rodovia := (msg.get "rod").ouVazio
  rua := (msg.get "rua").ouVazio
  velocidade := normalizarVelocidade (msg.get "vel")
  ignicao := normalizarIgnicao (msg.get "evt4")
  odometro := parseOpt (msg.get "odm")
  rpm := parseOpt (msg.get "rpm")
  temperatura1 := parseOpt (msg.get "st1")
  temperatura2 := parseOpt (msg.get "st2")
  temperatura3 := parseOpt (msg.get "st3")
  umidade1 := parseOpt (msg.get "umd1")
  umidade2 := parseOpt (msg.get "umd2")
  umidade3 := parseOpt (msg.get "umd3")
  alertaTelemetria := (msg.get "alrtTelem").ouNull
  eventos := eventosDe msg
  macro_ := (msg.get "dMac").ouNull
  motorista := (msg.get "mot").ouNull
  motoristaID := (msg.get "motID").ouNull
  pontoControle := (msg.get "pcNome").ouNull
  pontoRotograma := (msg.get "prNome").ouNull
  carreta := (msg.get "carreta").ouNull
  carretaBateria := parseOpt (msg.get "carretaBateria")
  fleetDriveBateria := parseOpt (msg.get "fleetDriveBateria")
  origem := origemDe (parseOpt (msg.get "ori"))
  origemCod := parseOpt (msg.get "ori")
  tipoMsg := parseOpt (msg.get "tpMsg")
  eventoGerador := parseOpt (msg.get "evtG")

/-- The loop over `preservar`: each listed field of the new record takes the
previous record's value when its own is `null`. -/
def preservar (posicao existente : Posicao) : Posicao :=
  { posicao with
    odometro := posicao.odometro.ouAnterior existente.odometro
    rpm := posicao.rpm.ouAnterior existente.rpm
    temperatura1 := posicao.temperatura1.ouAnterior existente.temperatura1
    temperatura2 := posicao.temperatura2.ouAnterior existente.temperatura2
    temperatura3 := posicao.temperatura3.ouAnterior existente.temperatura3
    umidade1 := posicao.umidade1.ouAnterior existente.umidade1
    umidade2 := posicao.umidade2.ouAnterior existente.umidade2
    umidade3 := posicao.umidade3.ouAnterior existente.umidade3
    carretaBateria := posicao.carretaBateria.ouAnterior existente.carretaBateria
    fleetDriveBateria := posicao.fleetDriveBateria.ouAnterior existente.fleetDriveBateria
    motorista := ouAnteriorTexto posicao.motorista existente.motorista
    motoristaID := ouAnteriorTexto posicao.motoristaID existente.motoristaID
    carreta := ouAnteriorTexto posicao.carreta existente.carreta }

/-- The trailer-link write of one loop iteration: a message that carries a
trailer name sets `db.carretas[msg.veiID]`. -/
def atualizarCarreta (carretas : Tabela String) (msg : Registro) : Tabela String :=
  if (msg.get "carreta").truthy then
    Tabela.definir carretas (msg.get "veiID").chave (msg.get "carreta").ouVazio
  else carretas

/-- The merge of one loop iteration into `db.posicoes`: the record is stored
when the vehicle has none yet or when `msg.dt >= existente.dataHora`. -/
def mesclarPosicao (posicoes : Tabela Posicao) (msg : Registro) : Tabela Posicao :=
  match Tabela.obter posicoes (msg.get "veiID").chave with
  | none => Tabela.definir posicoes (msg.get "veiID").chave (montarPosicao msg)
  | some existente =>
    if jsMaiorIgual (msg.get "dt") existente.dataHora then
      Tabela.definir posicoes (msg.get "veiID").chave (preservar (montarPosicao msg) existente)
    else posicoes

/-- One iteration of the message loop; `none` when `BigInt` throws, which
happens before the iteration writes anything. A `null` array element behaves
as the record with no fields. -/
def processarMensagem (db : Db) (maiorMId : JsVal) (msg : Registro) :
    Option (Db × JsVal) :=
  match BigInt (msg.get "mId"), BigInt maiorMId with
  | some a, some b =>
    some ({ db with
            carretas := atualizarCarreta db.carretas msg
            posicoes := mesclarPosicao db.posicoes msg },
          if a > b then msg.get "mId" else maiorMId)
  | _, _ => none

/-- The message loop. It gives the store as the loop left it and the running
maximum, or `none` in its place when an iteration threw. -/
def lacoMensagens : Db → JsVal → List Registro → Db × Option JsVal
  | db, maiorMId, [] => (db, some maiorMId)
  | db, maiorMId, msg :: resto =>
    match processarMensagem db maiorMId msg with
    | none => (db, none)
    | some (db1, maior1) => lacoMensagens db1 maior1 resto

/-- The fetch body `buscarMensagens`, given the outcome of the protocol call
and the clock reading. Nothing is written when the call fails, returns `null`
or brings no message; an exception inside the loop is caught with the writes
made so far kept and the cursor not assigned. -/
def buscarMensagens (db : Db) (resultado : Resultado Registro) (agora : String) : Db :=
  match resultado with
  | .falha => db
  | .nulo => db
  | .semContainer => db
  | .itens [] => db
  | .itens mensagens =>
    match lacoMensagens db db.ultimoMId mensagens with
    | (db1, some maiorMId) =>
      { db1 with
        ultimoMId := maiorMId
        ultimaAtualizacao := some agora
        contadorCiclos := db1.contadorCiclos + 1 }
    | (db1, none) => db1

/-! ## `buscarCarretas` -/

/-- The array index a property name denotes, when it is the canonical text
of an integer below `2 ^ 32 - 1`; such properties are enumerated first, in
ascending order. -/
def indiceArray (k : String) : Option Nat :=
  if k.toList ≠ [] ∧ k.toList.all (ehDigito 10) = true ∧
      (k.toList = ['0'] ∨ k.toList.head? ≠ some '0') ∧
      valorDigitos 10 k.toList < 4294967295 then
    some (valorDigitos 10 k.toList)
  else none

/-- The order of `Object.entries(t)`: array-index properties ascending, then
the other properties in insertion order. -/
def Tabela.entradas {α : Type} (t : Tabela α) : Tabela α :=
  (t.filter (fun e => (indiceArray e.1).isSome)).insertionSort
      (fun a b => (indiceArray a.1).getD 0 ≤ (indiceArray b.1).getD 0)
    ++ t.filter (fun e => (indiceArray e.1).isNone)

/-- The order of `Object.keys(t)`. -/
def Tabela.chaves {α : Type} (t : Tabela α) : List String :=
  (Tabela.entradas t).map (fun e => e.1)

/-- The call `replace` with the global hyphen pattern and the empty string:
every hyphen removed. -/
def removerHifens (s : String) : String :=
  String.mk (s.toList.filter (fun c => c ≠ '-'))

/-- Plate normalisation: hyphens removed, then `toUpperCase()`, the
built-in upper-casing being an input. -/
def normalizarPlaca (toUpperCase : String → String) (s : String) : String :=
  toUpperCase (removerHifens s)

/-- The index `placaParaVeiID`: each vehicle with a non-empty plate, in
enumeration order, writes its id under its normalised plate. -/
def placaParaVeiID (toUpperCase : String → String) (veiculos : Tabela Veiculo) :
    Tabela String :=
  (Tabela.entradas veiculos).foldl
    (fun indice e =>
      if e.2.placa ≠ "" then Tabela.definir indice (normalizarPlaca toUpperCase e.2.placa) e.1
      else indice)
    []

/-- One iteration of the loop over the roster, on the pair
(`novasCarretas`, `mapeados`). -/
def vincularItem (toUpperCase : String → String) (indice : Tabela String)
    (estado : Tabela String × Nat) (c : Registro) : Tabela String × Nat :=
  if normalizarPlaca toUpperCase (c.get "cavalo").ouVazio = "" ∨ (c.get "carreta").ouVazio = "" then
    estado
  else
    match Tabela.obter indice (normalizarPlaca toUpperCase (c.get "cavalo").ouVazio) with
    | some veiID =>
      if veiID ≠ "" then
        (Tabela.definir estado.1 veiID (c.get "carreta").ouVazio, estado.2 + 1)
      else estado
    | none => estado

/-- The loop over the roster: the links resolved and their count. -/
def vincularCarretas (toUpperCase : String → String) (veiculos : Tabela Veiculo)
    (itens : List Registro) : Tabela String × Nat :=
  itens.foldl (vincularItem toUpperCase (placaParaVeiID toUpperCase veiculos)) ([], 0)

/-- The records of a list of array elements, or `none` when one of them is
`null` (reading a field of it throws). -/
def semNulos : List (Option Registro) → Option (List Registro)
  | [] => some []
  | none :: _ => none
  | some c :: r => (semNulos r).map (fun l => c :: l)

/-- The body of one attempt: `some` with the store to return, or `none` when
the loop goes on to the next attempt (the call threw or returned `null`, the
response has no container, or processing threw on a `null` element). -/
def processarRol (toUpperCase : String → String) (db : Db)
    (resultado : Resultado (Option Registro)) : Option Db :=
  match resultado with
  | .falha => none
  | .nulo => none
  | .semContainer => none
  | .itens [] => some db
  | .itens itens =>
    match semNulos itens with
    | none => none
    | some registros =>
      if (vincularCarretas toUpperCase db.veiculos registros).2 > 0 then
        some { db with carretas := (vincularCarretas toUpperCase db.veiculos registros).1 }
      else some db

/-- The outcomes of the attempts in the order the loops make them: every
attempt of the first request format, then every attempt of the second. -/
def tentativasEmOrdem (tentativas : Nat)
    (respostas : Nat → Nat → Resultado (Option Registro)) :
    List (Resultado (Option Registro)) :=
  (List.range 2).flatMap (fun fmt => (List.range tentativas).map (fun i => respostas fmt i))

/-- The attempts one after the other, until one returns. -/
def lacoCarretas (toUpperCase : String → String) (db : Db) :
    List (Resultado (Option Registro)) → Db
  | [] => db
  | r :: resto =>
    match processarRol toUpperCase db r with
    | some db1 => db1
    | none => lacoCarretas toUpperCase db resto

/-- The fetch body `buscarCarretas(tentativas)`, given the outcome of the
protocol call of each attempt (`respostas fmt i`). -/
def buscarCarretas (toUpperCase : String → String) (db : Db) (tentativas : Nat)
    (respostas : Nat → Nat → Resultado (Option Registro)) : Db :=
  lacoCarretas toUpperCase db (tentativasEmOrdem tentativas respostas)

/-! ## `montarDadosFrota` -/

/-- A vehicle of the fleet view, as pushed by the loop of `montarDadosFrota`. -/
structure VeiculoSaida where
  veiID : String
  placa : String
  identificacao : String
  equipamento : String
  motorista : String
  emManutencao : Bool
  lat : Option Flutuante
  lon : Option Flutuante
  municipio : String
  uf : String
  rodovia : String
  rua : String
  velocidade : Option Int
  odometro : JsNum
  ignicao : Option Bool
  dataHora : Option String
  eventos : List Evento
  alertaCritico : Nat
  alertaAlto : Nat
  macro_ : Option String
  carreta : Option String
  carretaBateria : JsNum
  localResumo : String
  pontoControle : Option String
  pontoRotograma : Option String
  rpm : JsNum
  temperatura1 : JsNum
  temperatura2 : JsNum
  temperatura3 : JsNum
  umidade1 : JsNum
  umidade2 : JsNum
  umidade3 : JsNum
  fleetDriveBateria : JsNum
  alertaTelemetria : Option String
  origem : Option String
  status : String
  statusTexto : String
  statusCor : String

/-- The summary statistics of the fleet view. -/
structure Estatisticas where
  total : Nat
  emMovimento : Nat
  ignicaoLigada : Nat
  parado : Nat
  semSinal : Nat
  alertas : Nat
  alertasCriticos : Nat
  alertasAltos : Nat
deriving DecidableEq, Repr

/-- The value returned by `montarDadosFrota`. -/
structure DadosFrota where
  veiculos : List VeiculoSaida
  estatisticas : Estatisticas
  ultimaAtualizacao : Option String

/-- The counter a branch of the status chain increments. -/
inductive Contador where
  | emMovimento
  | ignicaoLigada
  | parado
  | semSinal
deriving DecidableEq, Repr

/-- What the status chain assigns for one vehicle. -/
structure Situacao where
  status : String
  statusTexto : String
  statusCor : String
  contador : Contador
deriving DecidableEq, Repr

/-- The branches of the status chain below the speed test, by ignition. -/
def situacaoPorIgnicao : Option Bool → Situacao
  | some true => ⟨"ign-ligada", "Parado — Ignição Ligada", "#f59e0b", .ignicaoLigada⟩
  | some false => ⟨"parado", "Parado", "#1436a6", .parado⟩
  | none => ⟨"indeterminado", "Indeterminado", "#8b5cf6", .semSinal⟩

/-- The status chain: the defaults stand unless `pos && pos.dataHora`; then
speed above zero comes first, then ignition on, off, unknown. The speed is
printed in the label as an integer. -/
def situacaoDe (pos : Option Posicao) : Situacao :=
  match pos with
  | some p =>
    if p.dataHora ≠ "" then
      match p.velocidade with
      | some vel =>
        if vel > 0 then
          ⟨"em-movimento", "Em Movimento (" ++ toString vel ++ " km/h)", "#10b981", .emMovimento⟩
        else situacaoPorIgnicao p.ignicao
      | none => situacaoPorIgnicao p.ignicao
    else ⟨"sem-sinal", "Sem Sinal", "#6b7280", .semSinal⟩
  | none => ⟨"sem-sinal", "Sem Sinal", "#6b7280", .semSinal⟩

/-- The expression `a || b` on nullable text: the first non-empty one. -/
def textoOu (a b : Option String) : Option String :=
  match a with
  | some s => if s = "" then b else some s
  | none => b

/-- The test of the pattern `^\d+$`: one or more characters, all of them
digits `0` to `9`. -/
def soDigitos (s : String) : Bool :=
  s.toList ≠ [] && s.toList.all ehDecimal

/-- The alerts shown for a position: its events other than `evt26`. -/
def alertasDe (pos : Option Posicao) : List Evento :=
  ((pos.map (fun p => p.eventos)).getD []).filter (fun a => a.codigo ≠ "evt26")

/-- The expression `[pos?.municipio, pos?.uf].filter(Boolean).join('/')`. -/
def localResumoDe (pos : Option Posicao) : String :=
  "/".intercalate
    ([(pos.map (fun p => p.municipio)).getD "", (pos.map (fun p => p.uf)).getD ""].filter
      (fun s => s ≠ ""))

/-- The plate shown: the vehicle's plate, else the position's, blanked when
it is all digits. -/
def placaLimpaDe (veiculo : Option Veiculo) (pos : Option Posicao) : String :=
  let placa :=
    ((textoOu (textoOu (veiculo.map (fun v => v.placa)) (pos.map (fun p => p.placa)))
      (some "")).getD "")
  if soDigitos placa then "" else placa

/-- The record pushed for one vehicle id. -/
def registroDe (db : Db) (veiID : String) : VeiculoSaida :=
  let veiculo := Tabela.obter db.veiculos veiID
  let pos := Tabela.obter db.posicoes veiID
  let alertas := alertasDe pos
  { veiID := veiID
    placa := placaLimpaDe veiculo pos
    identificacao := (veiculo.map (fun v => v.identificacao)).getD ""
    equipamento := (veiculo.map (fun v => v.equipamento)).getD ""
    motorista :=
      (textoOu (textoOu (pos.bind (fun p => p.motorista)) (veiculo.map (fun v => v.motorista)))
        (some "")).getD ""
    emManutencao := (veiculo.map (fun v => v.emManutencao)).getD false
    lat := pos.map (fun p => p.lat)
    lon := pos.map (fun p => p.lon)
    municipio := (pos.map (fun p => p.municipio)).getD ""
    uf := (pos.map (fun p => p.uf)).getD ""
    rodovia := (pos.map (fun p => p.rodovia)).getD ""
    rua := (pos.map (fun p => p.rua)).getD ""
    velocidade := pos.bind (fun p => p.velocidade)
    odometro := (pos.map (fun p => p.odometro)).getD .null
    ignicao := pos.bind (fun p => p.ignicao)
    dataHora := textoOu (pos.map (fun p => p.dataHora)) none
    eventos := alertas
    alertaCritico := (alertas.filter (fun a => a.severity = "critico")).length
    alertaAlto := (alertas.filter (fun a => a.severity = "alto")).length
    macro_ := textoOu (pos.bind (fun p => p.macro_)) none
    carreta := textoOu (textoOu (pos.bind (fun p => p.carreta)) (Tabela.obter db.carretas veiID)) none
    carretaBateria := (pos.map (fun p => p.carretaBateria)).getD .null
    localResumo := localResumoDe pos
    pontoControle := textoOu (pos.bind (fun p => p.pontoControle)) none
    pontoRotograma := textoOu (pos.bind (fun p => p.pontoRotograma)) none
    rpm := (pos.map (fun p => p.rpm)).getD .null
    temperatura1 := (pos.map (fun p => p.temperatura1)).getD .null
    temperatura2 := (pos.map (fun p => p.temperatura2)).getD .null
    temperatura3 := (pos.map (fun p => p.temperatura3)).getD .null
    umidade1 := (pos.map (fun p => p.umidade1)).getD .null
    umidade2 := (pos.map (fun p => p.umidade2)).getD .null
    umidade3 := (pos.map (fun p => p.umidade3)).getD .null
    fleetDriveBateria := (pos.map (fun p => p.fleetDriveBateria)).getD .null
    alertaTelemetria := textoOu (pos.bind (fun p => p.alertaTelemetria)) none
    origem := textoOu (pos.bind (fun p => p.origem)) none
    status := (situacaoDe pos).status
    statusTexto := (situacaoDe pos).statusTexto
    statusCor := (situacaoDe pos).statusCor }

/-- The variables the loop of `montarDadosFrota` updates. -/
structure Acumulado where
  veiculos : List VeiculoSaida
  emMovimento : Nat
  ignicaoLigadaCount : Nat
  paradoCount : Nat
  semSinalCount : Nat
  totalAlertas : Nat

/-- The counter increment of the branch taken by the status chain. -/
def contar (ac : Acumulado) : Contador → Acumulado
  | .emMovimento => { ac with emMovimento := ac.emMovimento + 1 }
  | .ignicaoLigada => { ac with ignicaoLigadaCount := ac.ignicaoLigadaCount + 1 }
  | .parado => { ac with paradoCount := ac.paradoCount + 1 }
  | .semSinal => { ac with semSinalCount := ac.semSinalCount + 1 }

/-- One iteration of the loop over `todosIDs`. -/
def passoFrota (db : Db) (ac : Acumulado) (veiID : String) : Acumulado :=
  let ac1 := contar ac (situacaoDe (Tabela.obter db.posicoes veiID)).contador
  { ac1 with
    totalAlertas := ac1.totalAlertas +
      ((alertasDe (Tabela.obter db.posicoes veiID)).filter (fun a => a.severity ≠ "info")).length
    veiculos := ac1.veiculos ++ [registroDe db veiID] }

/-- The elements of `new Set(l)` in iteration order: first occurrences. -/
def semRepetidos : List String → List String
  | [] => []
  | k :: r => k :: (semRepetidos r).filter (fun j => j ≠ k)

/-- The set `todosIDs`: keys of `db.veiculos`, then keys of `db.posicoes`. -/
def todosIDs (db : Db) : List String :=
  semRepetidos (Tabela.chaves db.veiculos ++ Tabela.chaves db.posicoes)

/-- The comparator handed to `sort`, over the collation `localeCompare`. -/
def compararPlacas (localeCompare : String → String → Int) (a b : VeiculoSaida) : Int :=
  if a.placa = "" ∧ b.placa = "" then 0
  else if a.placa = "" then 1
  else if b.placa = "" then -1
  else localeCompare a.placa b.placa

/-- The call `veiculos.sort(...)`: for a consistent comparator, the stable
arrangement in which no element is followed by one it compares above. -/
def ordenarVeiculos (localeCompare : String → String → Int) (l : List VeiculoSaida) :
    List VeiculoSaida :=
  l.insertionSort (fun a b => compararPlacas localeCompare a b ≤ 0)

/-- The function `montarDadosFrota`, over the collation `localeCompare`. -/
def montarDadosFrota (localeCompare : String → String → Int) (db : Db) : DadosFrota :=
  let ac := (todosIDs db).foldl (passoFrota db) ⟨[], 0, 0, 0, 0, 0⟩
  let veiculos := ordenarVeiculos localeCompare ac.veiculos
  { veiculos := veiculos
    estatisticas :=
      { total := veiculos.length
        emMovimento := ac.emMovimento
        ignicaoLigada := ac.ignicaoLigadaCount
        parado := ac.paradoCount
        semSinal := ac.semSinalCount
        alertas := ac.totalAlertas
        alertasCriticos := veiculos.foldl (fun n v => n + v.alertaCritico) 0
        alertasAltos := veiculos.foldl (fun n v => n + v.alertaAlto) 0 }
    ultimaAtualizacao := db.ultimaAtualizacao }

/-! ## Specification-side definitions -/

/-- The sparse-field rule of the merge on a numeric field, in the words of
the specification: a `null` incoming value keeps the prior one, any other
incoming value replaces it. -/
def EsparsoNum (novo recebido anterior : JsNum) : Prop :=
  (recebido = .null → novo = anterior) ∧ (recebido ≠ .null → novo = recebido)

/-- The sparse-field rule of the merge on a nullable text field. -/
def EsparsoTexto (novo recebido anterior : Option String) : Prop :=
  (recebido = none → novo = anterior) ∧ (recebido ≠ none → novo = recebido)

/-- An attempt of `buscarCarretas` that fails: the protocol call threw or
returned `null`, the response has no container, or an element of the roster
is `null`. -/
def TentativaFalha (r : Resultado (Option Registro)) : Prop :=
  r = .falha ∨ r = .nulo ∨ r = .semContainer ∨ ∃ itens, r = .itens itens ∧ none ∈ itens

/-- The link a roster pair resolves to against a plate index, if any: the
vehicle id the index holds for the pair's normalised plate and the trailer
name, when plate and name are non-empty and the id is truthy. -/
def vinculoDe (toUpperCase : String → String) (indice : Tabela String) (c : Registro) :
    Option (String × String) :=
  if normalizarPlaca toUpperCase (c.get "cavalo").ouVazio = "" ∨ (c.get "carreta").ouVazio = "" then
    none
  else
    match Tabela.obter indice (normalizarPlaca toUpperCase (c.get "cavalo").ouVazio) with
    | some veiID => if veiID ≠ "" then some (veiID, (c.get "carreta").ouVazio) else none
    | none => none

/-- An optional write `t[k] = v`. -/
def atribuir {α : Type} (t : Tabela α) : Option (String × α) → Tabela α
  | none => t
  | some p => Tabela.definir t p.1 p.2

/-- The write a vehicle makes into the plate index, if any. -/
def escritaNoIndice (toUpperCase : String → String) (e : String × Veiculo) :
    Option (String × String) :=
  if e.2.placa ≠ "" then some (normalizarPlaca toUpperCase e.2.placa, e.1) else none

/-- The trailer-linker rule read plate by plate: the roster pair `c` has a
non-empty normalised tractor plate and a non-empty trailer name, and its
normalised plate equals the normalised plate of the known vehicle `id`. -/
def ParCasa (toUpperCase : String → String) (veiculos : Tabela Veiculo) (c : Registro)
    (id : String) : Prop :=
  normalizarPlaca toUpperCase (c.get "cavalo").ouVazio ≠ "" ∧
  (c.get "carreta").ouVazio ≠ "" ∧
  ∃ v, Tabela.obter veiculos id = some v ∧
    normalizarPlaca toUpperCase v.placa = normalizarPlaca toUpperCase (c.get "cavalo").ouVazio

/-- The trailer-linker rule read through the plate index: the roster pair `c`
has a non-empty normalised tractor plate and a non-empty trailer name, and
`id` is a non-empty vehicle id, that of the last vehicle in enumeration order
among the known vehicles whose non-empty plate normalises to the pair's
normalised plate. -/
def ParResolve (toUpperCase : String → String) (veiculos : Tabela Veiculo) (c : Registro)
    (id : String) : Prop :=
  normalizarPlaca toUpperCase (c.get "cavalo").ouVazio ≠ "" ∧
  (c.get "carreta").ouVazio ≠ "" ∧
  id ≠ "" ∧
  ∃ antes e depois, Tabela.entradas veiculos = antes ++ e :: depois ∧
    e.1 = id ∧ e.2.placa ≠ "" ∧
    normalizarPlaca toUpperCase e.2.placa
      = normalizarPlaca toUpperCase (c.get "cavalo").ouVazio ∧
    ∀ e1 ∈ depois, ¬ (e1.2.placa ≠ "" ∧
      normalizarPlaca toUpperCase e1.2.placa
        = normalizarPlaca toUpperCase (c.get "cavalo").ouVazio)

/-! ## Example inputs -/

/-- A store holding one position, of vehicle 7, reported at 10:00 on 2 May
with odometer 100 and driver Ana. -/
def dbComPosicao : Db :=
  { dbInicial with
    posicoes := [("7", montarPosicao [("mId", .str "5"), ("veiID", .str "7"),
      ("dt", .str "2024-05-02 10:00:00"), ("odm", .str "100"), ("mot", .str "Ana")])] }

/-- A message for vehicle 7 dated the day before the stored position. -/
def msgAntiga : Registro :=
  [("mId", .str "9"), ("veiID", .str "7"), ("dt", .str "2024-05-01 09:00:00"),
   ("vel", .str "80"), ("odm", .str "120")]

/-- A message for vehicle 7 dated after the stored position, with a speed and
a rpm reading but no odometer and no driver. -/
def msgNova : Registro :=
  [("mId", .str "9"), ("veiID", .str "7"), ("dt", .str "2024-05-02 10:05:00"),
   ("vel", .str "80"), ("rpm", .str "1500")]

/-- A batch with two ids above `2 ^ 53` that differ by one, the larger first. -/
def loteGrande : List Registro :=
  [[("mId", .str "9007199254740993"), ("veiID", .str "7"), ("dt", .str "2024-05-02 10:00:00")],
   [("mId", .str "9007199254740992"), ("veiID", .str "8"), ("dt", .str "2024-05-02 10:00:01")]]

/-- A message for vehicle 7 whose `dt` element holds the text `0`. -/
def msgDtZero : Registro :=
  [("mId", .str "2"), ("veiID", .str "7"), ("dt", .str "0"), ("vel", .str "10")]

/-- A message for vehicle 7 whose `dt` element is empty, so that the parser
gives `null` for it. -/
def msgDtVazio : Registro :=
  [("mId", .str "3"), ("veiID", .str "7"), ("dt", .null), ("vel", .str "20")]

/-- A message for vehicle 7 whose `dt` element holds the text `!`, which sorts
before `0` and is not a number. -/
def msgDtExclamacao : Registro :=
  [("mId", .str "2"), ("veiID", .str "7"), ("dt", .str "!"), ("vel", .str "30")]

/-- The store after a first fetch that brought `msgDtZero` alone. -/
def dbDtZero : Db :=
  buscarMensagens dbInicial (.itens [msgDtZero]) "2024-05-02T10:00:00.000Z"

/-- Upper-casing of the letters `a` to `z`, an instance of the built-in on
text without other cased letters. -/
def maiusculas (s : String) : String :=
  String.mk (s.toList.map Char.toUpper)

/-- A vehicle record with the given id and plate and no other data. -/
def veiculoDe (id placa : String) : Veiculo where
  veiID := .str id
  placa := placa
  eqp := 0
  equipamento := "Tipo undefined"
  identificacao := ""
  motorista := ""
  emManutencao := false
  versao := none
  temSensorTemp1 := false
  temSensorTemp2 := false
  temSensorTemp3 := false
  temTecladoMacro := false
  podeEnviarComando := false
  temIE := false
  ieAtiva := false

/-- A store with two vehicles whose plates differ only by the hyphen, and a
trailer link left by an earlier cycle. -/
def dbPlacasIguais : Db :=
  { dbInicial with
    veiculos := [("1", veiculoDe "1" "ABC-1234"), ("2", veiculoDe "2" "ABC1234")]
    carretas := [("9", "ANTIGA")] }

/-- A roster with one pair, for the plate shared by the two vehicles. -/
def rolUmPar : List Registro :=
  [[("cavalo", .str "abc-1234"), ("carreta", .str "T1")]]

/-- Attempt outcomes: every attempt of the first format throws, every attempt
of the second brings `rolUmPar`. -/
def respostasSegundoFormato (fmt : Nat) (_i : Nat) : Resultado (Option Registro) :=
  if fmt = 0 then .falha else .itens (rolUmPar.map some)

/-- A comparator that orders strings by length, a consistent comparator
standing in for a collation. -/
def porComprimento (a b : String) : Int :=
  (a.length : Int) - (b.length : Int)

/-- A store after one fetch of three messages: vehicle 7 at speed 45 with the
ignition on, vehicle 8 with no speed and the ignition on, vehicle 9 at speed
0 with the ignition off. -/
def dbTresVeiculos : Db :=
  buscarMensagens dbInicial
    (.itens
      [[("mId", .str "2"), ("veiID", .str "7"), ("dt", .str "2024-05-02 10:00:00"),
        ("vel", .str "45"), ("evt4", .str "1"), ("placa", .str "ABC1D23")],
       [("mId", .str "3"), ("veiID", .str "8"), ("dt", .str "2024-05-02 10:00:01"),
        ("evt4", .str "1")],
       [("mId", .str "4"), ("veiID", .str "9"), ("dt", .str "2024-05-02 10:00:02"),
        ("vel", .str "0"), ("evt4", .str "0"), ("placa", .str "XY")]])
    "2024-05-02T10:00:05.000Z"

/-- A message for vehicle 7 with no `dt` field. -/
def msgSemDt : Registro :=
  [("mId", .str "2"), ("veiID", .str "7"), ("vel", .str "45"), ("evt4", .str "1")]

/-- The store after a first fetch that brought `msgSemDt` alone. -/
def dbSemDt : Db :=
  buscarMensagens dbInicial (.itens [msgSemDt]) "2024-05-02T10:00:00.000Z"

/-- What one loop iteration does to the position stored for the vehicle of
its message, read as a function of that stored position. -/
def passoPosicao (s : Option Posicao) (msg : Registro) : Option Posicao :=
  match s with
  | none => some (montarPosicao msg)
  | some existente =>
    if jsMaiorIgual (msg.get "dt") existente.dataHora then
      some (preservar (montarPosicao msg) existente)
    else some existente

/-- The sparse fields of `a` and `b` are those of `a0` and `b0` under one
common overlay: field by field, some value `x` with `a = x ?? a0` and
`b = x ?? b0`. -/
def Sobrepostos (a b a0 b0 : Posicao) : Prop :=
  (∃ x, a.odometro = JsNum.ouAnterior x a0.odometro ∧
    b.odometro = JsNum.ouAnterior x b0.odometro) ∧
  (∃ x, a.rpm = JsNum.ouAnterior x a0.rpm ∧ b.rpm = JsNum.ouAnterior x b0.rpm) ∧
  (∃ x, a.temperatura1 = JsNum.ouAnterior x a0.temperatura1 ∧
    b.temperatura1 = JsNum.ouAnterior x b0.temperatura1) ∧
  (∃ x, a.temperatura2 = JsNum.ouAnterior x a0.temperatura2 ∧
    b.temperatura2 = JsNum.ouAnterior x b0.temperatura2) ∧
  (∃ x, a.temperatura3 = JsNum.ouAnterior x a0.temperatura3 ∧
    b.temperatura3 = JsNum.ouAnterior x b0.temperatura3) ∧
  (∃ x, a.umidade1 = JsNum.ouAnterior x a0.umidade1 ∧
    b.umidade1 = JsNum.ouAnterior x b0.umidade1) ∧
  (∃ x, a.umidade2 = JsNum.ouAnterior x a0.umidade2 ∧
    b.umidade2 = JsNum.ouAnterior x b0.umidade2) ∧
  (∃ x, a.umidade3 = JsNum.ouAnterior x a0.umidade3 ∧
    b.umidade3 = JsNum.ouAnterior x b0.umidade3) ∧
  (∃ x, a.carretaBateria = JsNum.ouAnterior x a0.carretaBateria ∧
    b.carretaBateria = JsNum.ouAnterior x b0.carretaBateria) ∧
  (∃ x, a.fleetDriveBateria = JsNum.ouAnterior x a0.fleetDriveBateria ∧
    b.fleetDriveBateria = JsNum.ouAnterior x b0.fleetDriveBateria) ∧
  (∃ x, a.motorista = ouAnteriorTexto x a0.motorista ∧
    b.motorista = ouAnteriorTexto x b0.motorista) ∧
  (∃ x, a.motoristaID = ouAnteriorTexto x a0.motoristaID ∧
    b.motoristaID = ouAnteriorTexto x b0.motoristaID) ∧
  (∃ x, a.carreta = ouAnteriorTexto x a0.carreta ∧
    b.carreta = ouAnteriorTexto x b0.carreta)

/-- The messages a run of the loop processes before it ends: none when the
running maximum does not convert with `BigInt`, otherwise those before the
first message whose `mId` does not convert. -/
def processadas (maior : JsVal) (lote : List Registro) : List Registro :=
  match BigInt maior with
  | none => []
  | some _ => lote.takeWhile (fun m => (BigInt (m.get "mId")).isSome)

/-- A store after one fetch of one message: vehicle 7 at speed 80. -/
def dbVelocidadeOitenta : Db :=
  buscarMensagens dbInicial
    (.itens
      [[("mId", .str "2"), ("veiID", .str "7"), ("dt", .str "2024-05-02 10:00:00"),
        ("vel", .str "80"), ("evt4", .str "1"), ("placa", .str "ABC1D23")]])
    "2024-05-02T10:00:05.000Z"

/-- A message for vehicle 7 whose speed field holds `-1`, the upstream mark
of a speed that was not reported. -/
def msgVelMenosUm : Registro :=
  [("mId", .str "9"), ("veiID", .str "7"), ("dt", .str "2024-05-02 10:05:00"),
   ("vel", .str "-1")]

/-- A message for vehicle 7 whose speed field holds an integer above
`2 ^ 53` that is not a double. -/
def msgVelGrande : Registro :=
  [("mId", .str "9"), ("veiID", .str "7"), ("dt", .str "2024-05-02 10:05:00"),
   ("vel", .str "9007199254740993")]

/-- A message for vehicle 7 whose `evt4` element holds the text `1.5`. -/
def msgIgnicaoFracionada : Registro :=
  [("mId", .str "9"), ("veiID", .str "7"), ("dt", .str "2024-05-02 10:05:00"),
   ("evt4", .str "1.5")]

/-- A message for vehicle 7, dated after the position of `dbComPosicao`,
whose `odm` element is empty, so that the parser gives `null` for it. -/
def msgOdmVazio : Registro :=
  [("mId", .str "9"), ("veiID", .str "7"), ("dt", .str "2024-05-02 10:05:00"),
   ("odm", .null)]

/-- A message for vehicle 8 with no `mId` field: `BigInt(undefined)` throws. -/
def msgSemMId : Registro :=
  [("veiID", .str "8"), ("dt", .str "2024-05-02 10:00:00"), ("vel", .str "10")]

/-- Whether a message gets past the cursor comparison: its `mId` converts
with `BigInt`. -/
def mIdConverte (m : Registro) : Bool :=
  (BigInt (m.get "mId")).isSome

/-- A message whose latitude is written with a decimal comma and whose
longitude is written with a dot. -/
def msgVirgula : Registro :=
  [("mId", .str "9"), ("veiID", .str "7"), ("dt", .str "2024-05-02 10:05:00"),
   ("lat", .str "-19,5"), ("lon", .str "-43.25")]

/-- A message for vehicle 7, dated after the position of `dbComPosicao`, with
the panic button flag set as `1`, the cabin alert flag set as `true` and the
siren flag set as `0`. -/
def msgComEventos : Registro :=
  [("mId", .str "9"), ("veiID", .str "7"), ("dt", .str "2024-05-02 10:05:00"),
   ("evt5", .str "1"), ("evt1", .str "true"), ("evt2", .str "0")]

/-- A message for vehicle 7 dated the day before the position of
`dbComPosicao`, carrying a trailer name. -/
def msgAntigaComCarreta : Registro :=
  [("mId", .str "9"), ("veiID", .str "7"), ("dt", .str "2024-05-01 09:00:00"),
   ("carreta", .str "T9")]

/-! ## The cache: `carregarCache` and `salvarCache` -/

/-- The object `dados` that `JSON.parse` gives for the cache file. A section
is `none` when its key is absent or holds `null`; `ultimoMId` is `undefined`
when its key is absent. -/
structure Snapshot where
  veiculos : Option (Tabela Veiculo)
  posicoes : Option (Tabela Posicao)
  motoristas : Option (Tabela Motorista)
  carretas : Option (Tabela String)
  ultimoMId : JsVal
  salvoEm : Option String

/-- What reading the cache file gives `carregarCache`: there is no file,
reading or parsing it throws, or it parses to `dados`. -/
inductive Leitura where
  | ausente
  | invalida
  | dados (dados : Snapshot)

/-- The rewrite of one `eventos` list in `carregarCache`: the events whose
`codigo` has an entry in `EVENTOS` are kept, then each takes `severity`,
`descricao` and `icone` from that entry. The lookup inside `map` is made on
events that passed the filter, for which it finds an entry. -/
def reclassificar (eventos : List Evento) : List Evento :=
  (eventos.filter (fun evt => (Tabela.obter EVENTOS evt.codigo).isSome)).map
    (fun evt =>
      match Tabela.obter EVENTOS evt.codigo with
      | some ref =>
        { evt with severity := ref.severity, descricao := ref.descricao, icone := ref.icone }
      | none => evt)

/-- The function `carregarCache`: each section found in the file replaces the
one of the store, the cursor is replaced when the file holds a truthy one,
and then the `eventos` list of every position of the store is rewritten. An
exception (no file is not one; a file that cannot be read or parsed is) is
caught with the store as it was. -/
def carregarCache (db : Db) (leitura : Leitura) : Db :=
  match leitura with
  | .ausente => db
  | .invalida => db
  | .dados dados =>
    let db1 : Db :=
      { db with
        veiculos := dados.veiculos.getD db.veiculos
        posicoes := dados.posicoes.getD db.posicoes
        motoristas := dados.motoristas.getD db.motoristas
        carretas := dados.carretas.getD db.carretas
        ultimoMId := if dados.ultimoMId.truthy then dados.ultimoMId else db.ultimoMId }
    { db1 with
      posicoes := db1.posicoes.map
        (fun e => (e.1, { e.2 with eventos := reclassificar e.2.eventos })) }

/-- A numeric field written by `JSON.stringify` and read back: `NaN` and the
infinities are written as `null`. -/
def jsonNum : JsNum → JsNum
  | .nan => .null
  | .null => .null
  | .int n => if n.natAbs ≥ 2 ^ 1024 then .null else .int n

/-- The speed written by `JSON.stringify` and read back: it is `null` or a
double, and an infinity is written as `null`. -/
def jsonVelocidade : Option Int → Option Int
  | none => none
  | some n => if n.natAbs ≥ 2 ^ 1024 then none else some n

/-- A position written by `JSON.stringify` and read back. -/
def jsonPosicao (p : Posicao) : Posicao :=
  { p with
    velocidade := jsonVelocidade p.velocidade
    odometro := jsonNum p.odometro
    rpm := jsonNum p.rpm
    temperatura1 := jsonNum p.temperatura1
    temperatura2 := jsonNum p.temperatura2
    temperatura3 := jsonNum p.temperatura3
    umidade1 := jsonNum p.umidade1
    umidade2 := jsonNum p.umidade2
    umidade3 := jsonNum p.umidade3
    carretaBateria := jsonNum p.carretaBateria
    fleetDriveBateria := jsonNum p.fleetDriveBateria
    origemCod := jsonNum p.origemCod
    tipoMsg := jsonNum p.tipoMsg
    eventoGerador := jsonNum p.eventoGerador }

/-- A table written by `JSON.stringify` and read back: its properties in
enumeration order, each value written and read back. -/
def jsonTabela {α : Type} (valor : α → α) (t : Tabela α) : Tabela α :=
  (Tabela.entradas t).map (fun e => (e.1, valor e.2))

/-- The function `salvarCache`, given the clock reading: the cache file it
writes, as the object `JSON.parse` gives back for it. Vehicles, drivers and
trailer names hold text, booleans and integers, which are read back as
written; an `undefined` cursor is left out of the file and a `null` one is
written as `null`. A failure of the write itself is not modelled. -/
def salvarCache (db : Db) (agora : String) : Snapshot where
  veiculos := some (jsonTabela id db.veiculos)
  posicoes := some (jsonTabela jsonPosicao db.posicoes)
  motoristas := some (jsonTabela id db.motoristas)
  carretas := some (jsonTabela id db.carretas)
  ultimoMId := db.ultimoMId
  salvoEm := some agora

/-- The events of a position table all come from the `EVENTOS` table: each
has a key of the table as `codigo` and the `severity` of that key's entry. -/
def EventosDaTabela (posicoes : Tabela Posicao) : Prop :=
  ∀ e ∈ posicoes, ∀ evt ∈ e.2.eventos,
    ∃ info, (evt.codigo, info) ∈ EVENTOS ∧ evt.severity = info.severity

/-- A cache file written by an earlier version of the table: the position of
vehicle 7 holds `evt26`, which is no longer a key, and `evt5` under an old
description and severity. -/
def cacheAntigo : Snapshot where
  veiculos := none
  posicoes := some [("7",
    { montarPosicao [("mId", .str "5"), ("veiID", .str "7"),
        ("dt", .str "2024-05-02 10:00:00")] with
      eventos := [⟨"evt26", "Valor Temperatura", "info", "🌡️"⟩,
                  ⟨"evt5", "Pânico", "alto", "!"⟩] })]
  motoristas := none
  carretas := none
  ultimoMId := .str "5"
  salvoEm := some "2024-05-02T10:00:05.000Z"

/-- The store after a first fetch that brought `msgOdmVazio` alone. -/
def dbOdmVazio : Db :=
  buscarMensagens dbInicial (.itens [msgOdmVazio]) "2024-05-02T10:05:05.000Z"

/-! ## Protocol client: `descompactar`, `enviarXML`, `paraArray` -/

/-- A value inside a parsed response: absent, an empty element, text, an
element with children (by name), or a list of repeated elements. -/
inductive Valor where
  | undefined
  | null
  | texto (s : String)
  | objeto (campos : List (String × Valor))
  | lista (itens : List Valor)

/-- Truthiness of a parsed value: objects and lists are truthy, also empty
ones. -/
def Valor.truthy : Valor → Bool
  | .undefined => false
  | .null => false
  | .texto s => s ≠ ""
  | .objeto _ => true
  | .lista _ => true

/-- The function `paraArray`: a falsy value gives the empty list, a list is
returned as it is, anything else is wrapped in a one-element list. -/
def paraArray (valor : Valor) : List Valor :=
  if !valor.truthy then []
  else
    match valor with
    | .lista itens => itens
    | v => [v]

/-- Property read `o.k` on a parsed value; `none` stands for the `TypeError`
of reading a property of `undefined` or `null`. Text and lists have no
property of the names used here. -/
def Valor.prop (o : Valor) (k : String) : Option Valor :=
  match o with
  | .undefined => none
  | .null => none
  | .texto _ => some .undefined
  | .lista _ => some .undefined
  | .objeto campos =>
    match campos.find? (fun c => c.1 = k) with
    | some c => some c.2
    | none => some .undefined

/-- The function `descompactar` on the bytes of a response body, over the
archive reader (`new AdmZip(buffer).getEntries()` and the data of each entry),
the gzip decompressor (`zlib.gunzipSync`) and the decoding of bytes as UTF-8
text (`toString('utf-8')`); `none` stands for an exception thrown by one of
the first two. -/
def descompactar (entradasZip : List Nat → Option (List (List Nat)))
    (gunzipSync : List Nat → Option (List Nat)) (utf8 : List Nat → String)
    (buffer : List Nat) : Option String :=
  let resto : Option String :=
    if buffer.length > 2 ∧ buffer.head? = some 0x1F ∧ buffer.tail.head? = some 0x8B then
      (gunzipSync buffer).map utf8
    else some (utf8 buffer)
  if buffer.length > 2 ∧ buffer.head? = some 0x50 ∧ buffer.tail.head? = some 0x4B then
    match entradasZip buffer with
    | none => none
    | some (primeiro :: _) => some (utf8 primeiro)
    | some [] => resto
  else resto

/-- The ways `enviarXML` throws: the request or the reading of the body
fails (network error, timeout), decompression fails, the decoded body does
not start with `<`, the parser rejects it, or the parser gives no object. -/
inductive ErroEnvio where
  | transporte
  | descompactacao
  | respostaInesperada
  | analise
  | semObjeto
deriving DecidableEq, Repr

/-- The function `enviarXML`, given what the request brought (`none` when
`fetch` or the reading of the body throws) and the XML parser
(`parseStringPromise` with the options of the source, `none` when it
rejects). It returns `null` (`ok none`) on a truthy `ErrorRequest`, the parsed
object otherwise. -/
def enviarXML (entradasZip : List Nat → Option (List (List Nat)))
    (gunzipSync : List Nat → Option (List Nat)) (utf8 : List Nat → String)
    (parseStringPromise : String → Option Valor) (resposta : Option (List Nat)) :
    Except ErroEnvio (Option Valor) :=
  match resposta with
  | none => .error .transporte
  | some buffer =>
    match descompactar entradasZip gunzipSync utf8 buffer with
    | none => .error .descompactacao
    | some xmlTexto =>
      if (aparar xmlTexto.toList).head? ≠ some '<' then .error .respostaInesperada
      else
        match parseStringPromise xmlTexto with
        | none => .error .analise
        | some resultado =>
          match resultado.prop "ErrorRequest" with
          | none => .error .semObjeto
          | some erro => if erro.truthy then .ok none else .ok (some resultado)

/-! ## `buscarVeiculos` and `buscarMotoristas` -/

/-- The `EQUIPAMENTOS` reference table. -/
def EQUIPAMENTOS : List (Int × String) := [
  (1, "Satelite System"), (2, "Hybrid System"),
  (3, "Light GSM 1"), (4, "Satelite Sky"),
  (6, "Smart Híbrido"), (7, "SpyTrack"),
  (8, "Smart GSM"), (9, "Slim GSM 1"),
  (10, "Light GSM 2"), (11, "Slim GSM 2"),
  (12, "Trailer GSM"), (13, "Slim GSM 3"),
  (14, "SpyTrack2"), (29, "Rail Patrol"),
  (33, "Slim GSM 4"), (35, "Smart2 Híbrido"),
  (36, "Smart 2 GSM"), (45, "SmartMid Híbrido"),
  (46, "SmartMid GSM"), (54, "Connect Smart GSM"),
  (55, "Connect Smart Híbrido")]

/-- The text a field value becomes inside a template literal. -/
def JsVal.emTexto : JsVal → String
  | .undefined => "undefined"
  | .null => "null"
  | .str s => s

/-- The expression `parseInt(v.eqp) || 0`: `NaN` becomes 0. -/
def codigoEquipamento (v : Registro) : Int :=
  (parseInt (v.get "eqp")).getD 0

/-- The expression that resolves the equipment name: the table entry of the
code when it has a non-empty one, else `Tipo` followed by the raw field. -/
def equipamentoDe (v : Registro) : String :=
  match (EQUIPAMENTOS.find? (fun e => e.1 = codigoEquipamento v)).map (fun e => e.2) with
  | some nome => if nome ≠ "" then nome else "Tipo " ++ (v.get "eqp").emTexto
  | none => "Tipo " ++ (v.get "eqp").emTexto

/-- The vehicle record built from one element of the response. -/
def montarVeiculo (v : Registro) : Veiculo where
  veiID := v.get "veiID"
  placa := (v.get "placa").ouVazio
  eqp := codigoEquipamento v
  equipamento := equipamentoDe v
  identificacao := (v.get "ident").ouVazio
  motorista := (v.get "mot").ouVazio
  emManutencao := v.get "vManut" = .str "1"
  versao := (v.get "vs").ouNull
  temSensorTemp1 := v.get "st1" = .str "1"
  temSensorTemp2 := v.get "st2" = .str "1"
  temSensorTemp3 := v.get "st3" = .str "1"
  temTecladoMacro := v.get "tMac" = .str "1"
  podeEnviarComando := v.get "eCmd" = .str "1"
  temIE := v.get "dIE" = .str "1"
  ieAtiva := v.get "IE" = .str "1"

/-- The loop of `buscarVeiculos` over the elements of the response; a `null`
element throws when its first field is read, which ends the loop with the
writes made so far. The flag tells whether the loop ran to its end. -/
def lacoVeiculos : Tabela Veiculo → List (Option Registro) → Tabela Veiculo × Bool
  | t, [] => (t, true)
  | t, none :: _ => (t, false)
  | t, some v :: r => lacoVeiculos (Tabela.definir t (v.get "veiID").chave (montarVeiculo v)) r

/-- The fetch body `buscarVeiculos`, given the outcome of the protocol call.
Nothing is written when the call fails or returns `null`; a response with no
container is an empty list of vehicles; an exception inside the loop is
caught with the writes made so far kept. -/
def buscarVeiculos (db : Db) (resultado : Resultado (Option Registro)) : Db :=
  match resultado with
  | .falha => db
  | .nulo => db
  | .semContainer => db
  | .itens veiculos => { db with veiculos := (lacoVeiculos db.veiculos veiculos).1 }

/-- The driver record built from one element of the response. -/
def montarMotorista (m : Registro) : Motorista where
  motID := m.get "motID"
  nome := (m.get "mot").ouVazio
  cpf := (m.get "cpf").ouVazio

/-- The loop of `buscarMotoristas`, as `lacoVeiculos`. -/
def lacoMotoristas : Tabela Motorista → List (Option Registro) → Tabela Motorista × Bool
  | t, [] => (t, true)
  | t, none :: _ => (t, false)
  | t, some m :: r =>
    lacoMotoristas (Tabela.definir t (m.get "motID").chave (montarMotorista m)) r

/-- The fetch body `buscarMotoristas`, given the outcome of the protocol
call. -/
def buscarMotoristas (db : Db) (resultado : Resultado (Option Registro)) : Db :=
  match resultado with
  | .falha => db
  | .nulo => db
  | .semContainer => db
  | .itens motoristas => { db with motoristas := (lacoMotoristas db.motoristas motoristas).1 }

/-! ## Example inputs for the protocol client -/

/-- A stand-in for the XML parser that knows three documents: an empty
error envelope, an error envelope with a code and a message, and an empty
vehicle response. With `emptyTag: null` the empty element parses to `null`. -/
def analisadorDeExemplo (s : String) : Option Valor :=
  if s = "<ErrorRequest/>" then some (.objeto [("ErrorRequest", .null)])
  else if s = "<ErrorRequest><codigo>7</codigo><erro>Login</erro></ErrorRequest>" then
    some (.objeto [("ErrorRequest",
      .objeto [("codigo", .texto "7"), ("erro", .texto "Login")])])
  else if s = "<ResponseVeiculo/>" then some (.objeto [("ResponseVeiculo", .null)])
  else none

/-- A stand-in for the decoding of bytes as text, on ASCII bytes. -/
def textoAscii (b : List Nat) : String :=
  String.mk (b.map Char.ofNat)

/-- The bytes of an ASCII text. -/
def bytesDe (s : String) : List Nat :=
  s.toList.map Char.toNat

/-- A stand-in for the archive reader: after the signature, one byte with
the number of entries, and the data of the first entry when there is one. -/
def zipDeExemplo : List Nat → Option (List (List Nat))
  | 0x50 :: 0x4B :: 0 :: _ => some []
  | 0x50 :: 0x4B :: _ :: dados => some [dados]
  | _ => none

/-- A stand-in for the gzip decompressor: the data after the signature and
one more byte. -/
def gunzipDeExemplo : List Nat → Option (List Nat)
  | 0x1F :: 0x8B :: _ :: dados => some dados
  | _ => none

/-- A vehicle element with an equipment code that is not in the table. -/
def veiculoTipoDesconhecido : Registro :=
  [("veiID", .str "7"), ("placa", .str "ABC1D23"), ("eqp", .str "99")]

/-- A message whose origin code is not in the `ORIGENS` table. -/
def msgOrigemDesconhecida : Registro :=
  [("mId", .str "9"), ("veiID", .str "7"), ("dt", .str "2024-05-02 10:05:00"),
   ("ori", .str "9")]

/-! ## The reading of a timestamp in `helpers.js` -/

/-- The call `s.split(sep)` with a one-character separator. -/
def dividir (sep : Char) : List Char → List (List Char)
  | [] => [[]]
  | c :: r =>
    if c = sep then [] :: dividir sep r
    else
      match dividir sep r with
      | p :: ps => (c :: p) :: ps
      | [] => [[c]]

/-- An element of a destructured array inside a template literal: a missing
element prints as `undefined`. -/
def parteOuUndefined (partes : List (List Char)) (i : Nat) : List Char :=
  (partes.get? i).getD "undefined".toList

/-- The text `tempoAtras` hands to `new Date` for a stored `dataHora`: a
text with a slash is read as day, month and year followed by the time and
rewritten as `year-month-dayTtime` (the time `00:00:00` when there is none);
any other text is handed over as it is. -/
def instanteDe (dataHora : String) : String :=
  if '/' ∈ dataHora.toList then
    let partes := dividir ' ' dataHora.toList
    let d := parteOuUndefined partes 0
    let h := (partes.get? 1).getD []
    let dma := dividir '/' d
    String.mk (parteOuUndefined dma 2 ++ '-' :: parteOuUndefined dma 1 ++ '-' ::
      parteOuUndefined dma 0 ++ 'T' :: (if h = [] then "00:00:00".toList else h))
  else dataHora

/-- A timestamp is older than another, in the reading of `helpers.js`: the
date-time text read from it comes first. For texts of the one shape
`year-month-dayTtime` with fields of fixed width, this is the order of the
instants they denote. -/
def maisAntiga (a b : String) : Bool :=
  strMenor (instanteDe a) (instanteDe b)

/-- A store holding one position, of vehicle 7, reported at 14:30 on 5
January 2025 at speed 60, with the timestamp written as `helpers.js`
documents it. -/
def dbDiaMesAno : Db :=
  { dbInicial with
    posicoes := [("7", montarPosicao [("mId", .str "5"), ("veiID", .str "7"),
      ("dt", .str "05/01/2025 14:30:00"), ("vel", .str "60")])] }

/-- A message for vehicle 7 reported at 10:00 on 31 December 2024, five days
before the position of `dbDiaMesAno`. -/
def msgAnoAnterior : Registro :=
  [("mId", .str "9"), ("veiID", .str "7"), ("dt", .str "31/12/2024 10:00:00"),
   ("vel", .str "0")]

/-- A message for vehicle 7 reported at 08:00 on 1 February 2025, after the
position of `dbDiaMesAno`. -/
def msgMesSeguinte : Registro :=
  [("mId", .str "10"), ("veiID", .str "7"), ("dt", .str "01/02/2025 08:00:00"),
   ("vel", .str "30")]

/-! # Theorems -/

/-! ## Tables -/

theorem Tabela.obter_definir_mesma {α : Type} (t : Tabela α) (k : String) (v : α) :
    Tabela.obter (Tabela.definir t k v) k = some v := by
  induction t with
  | nil => simp [Tabela.definir, Tabela.obter]
  | cons e r ih =>
    obtain ⟨k1, v1⟩ := e
    by_cases h : k1 = k
    · simp [Tabela.definir, Tabela.obter, h]
    · simp [Tabela.definir, Tabela.obter, h, ih]

theorem Tabela.obter_definir_outra {α : Type} (t : Tabela α) (k j : String) (v : α)
    (hjk : k ≠ j) : Tabela.obter (Tabela.definir t k v) j = Tabela.obter t j := by
  induction t with
  | nil => simp [Tabela.definir, Tabela.obter, hjk]
  | cons e r ih =>
    obtain ⟨k1, v1⟩ := e
    by_cases h : k1 = k
    · subst h
      simp [Tabela.definir, Tabela.obter, hjk]
    · by_cases h2 : k1 = j
      · subst h2
        simp [Tabela.definir, Tabela.obter, h]
      · simp [Tabela.definir, Tabela.obter, h, h2, ih]

theorem Tabela.obter_atribuir {α : Type} (t : Tabela α) (o : Option (String × α))
    (k : String) :
    Tabela.obter (atribuir t o) k =
      match o with
      | some p => if p.1 = k then some p.2 else Tabela.obter t k
      | none => Tabela.obter t k := by
  cases o with
  | none => rfl
  | some p =>
    by_cases h : p.1 = k
    · subst h
      simp [atribuir, Tabela.obter_definir_mesma]
    · simp [atribuir, h, Tabela.obter_definir_outra _ _ _ _ h]

/-- What a table built by a sequence of optional writes holds under a key:
the value of the last write to that key, or what it held before when no
write went to the key. -/
theorem Tabela.obter_foldl_atribuir {α β : Type} (f : β → Option (String × α))
    (k : String) (v : α) (l : List β) :
    ∀ t0 : Tabela α,
      Tabela.obter (l.foldl (fun t x => atribuir t (f x)) t0) k = some v ↔
        (∃ antes x depois, l = antes ++ x :: depois ∧ f x = some (k, v) ∧
          ∀ y ∈ depois, ∀ w, f y ≠ some (k, w)) ∨
        ((∀ y ∈ l, ∀ w, f y ≠ some (k, w)) ∧ Tabela.obter t0 k = some v) := by
  induction l with
  | nil =>
    intro t0
    simp
  | cons a r ih =>
    intro t0
    rw [List.foldl_cons, ih, Tabela.obter_atribuir]
    constructor
    · rintro (⟨antes, x, depois, hsplit, hx, hdep⟩ | ⟨hnone, hobter⟩)
      · exact Or.inl ⟨a :: antes, x, depois, by rw [hsplit]; rfl, hx, hdep⟩
      · cases hfa : f a with
        | none =>
          rw [hfa] at hobter
          refine Or.inr ⟨?_, hobter⟩
          intro y hy w
          rcases List.mem_cons.mp hy with rfl | hy
          · rw [hfa]; simp
          · exact hnone y hy w
        | some p =>
          rw [hfa] at hobter
          by_cases hk : p.1 = k
          · simp only [hk, if_true] at hobter
            refine Or.inl ⟨[], a, r, rfl, ?_, hnone⟩
            rw [hfa]
            obtain ⟨p1, p2⟩ := p
            simp only at hk hobter
            cases hobter
            rw [hk]
          · simp only [hk, if_false] at hobter
            refine Or.inr ⟨?_, hobter⟩
            intro y hy w
            rcases List.mem_cons.mp hy with rfl | hy
            · rw [hfa]
              intro heq
              cases heq
              exact hk rfl
            · exact hnone y hy w
    · rintro (⟨antes, x, depois, hsplit, hx, hdep⟩ | ⟨hnone, hobter⟩)
      · cases antes with
        | nil =>
          simp only [List.nil_append, List.cons.injEq] at hsplit
          obtain ⟨rfl, rfl⟩ := hsplit
          refine Or.inr ⟨hdep, ?_⟩
          rw [hx]
          simp
        | cons b antes1 =>
          simp only [List.cons_append, List.cons.injEq] at hsplit
          obtain ⟨rfl, rfl⟩ := hsplit
          exact Or.inl ⟨antes1, x, depois, rfl, hx, hdep⟩
      · refine Or.inr ⟨fun y hy w => hnone y (List.mem_cons_of_mem _ hy) w, ?_⟩
        have ha := hnone a (List.mem_cons_self _ _)
        cases hfa : f a with
        | none => simpa using hobter
        | some p =>
          have hk : p.1 ≠ k := by
            intro hk
            exact ha p.2 (by rw [hfa, ← hk])
          simpa [hk] using hobter

/-! ## Properties of `buscarMensagens` -/

theorem esparsoNum_ouAnterior (a b : JsNum) : EsparsoNum (a.ouAnterior b) a b := by
  cases a <;> simp [EsparsoNum, JsNum.ouAnterior]

theorem esparsoTexto_ouAnterior (a b : Option String) :
    EsparsoTexto (ouAnteriorTexto a b) a b := by
  cases a <;> simp [EsparsoTexto, ouAnteriorTexto]

/-- A value that is `<` a string is not `>=` it. -/
theorem jsMaiorIgual_falso_de_jsMenor (v : JsVal) (t : String)
    (h : jsMenor v t = true) : jsMaiorIgual v t = false := by
  cases v with
  | undefined => rfl
  | null =>
    simp only [jsMenor, decide_eq_true_eq] at h
    simp [jsMaiorIgual, h]
  | str s =>
    simp only [jsMenor] at h
    simp [jsMaiorIgual, h]

/-- The store after one iteration of the message loop, thrown or not. -/
theorem lacoMensagens_uma (db : Db) (maior : JsVal) (msg : Registro) :
    (lacoMensagens db maior [msg]).1 =
      match processarMensagem db maior msg with
      | some (db1, _) => db1
      | none => db := by
  unfold lacoMensagens
  cases h : processarMensagem db maior msg with
  | none => rfl
  | some p => obtain ⟨db1, m1⟩ := p; simp [lacoMensagens]

theorem menorUnidades_irreflexiva (a : List Nat) : menorUnidades a a = false := by
  induction a with
  | nil => rfl
  | cons x r ih => simp [menorUnidades, ih]

theorem menorUnidades_nil_falso (b : List Nat) (h : menorUnidades [] b = false) : b = [] := by
  cases b with
  | nil => rfl
  | cons y s => simp [menorUnidades] at h

/-- The order `>=` on code-unit sequences is transitive. -/
theorem naoMenorUnidades_trans (a : List Nat) :
    ∀ b c : List Nat, menorUnidades a b = false → menorUnidades b c = false →
      menorUnidades a c = false := by
  induction a with
  | nil =>
    intro b c hab hbc
    have hb := menorUnidades_nil_falso b hab
    subst hb
    exact hbc
  | cons x r ih =>
    intro b c hab hbc
    cases b with
    | nil =>
      have hc := menorUnidades_nil_falso c hbc
      subst hc
      rfl
    | cons y s =>
      cases c with
      | nil => rfl
      | cons z u =>
        simp only [menorUnidades, Bool.or_eq_false_iff, decide_eq_false_iff_not,
          Bool.and_eq_false_imp, decide_eq_true_eq] at hab hbc ⊢
        refine ⟨by omega, ?_⟩
        intro hxz
        have hxy : x = y := by omega
        have hyz : y = z := by omega
        exact ih s u (hab.2 hxy) (hbc.2 hyz)

theorem naoStrMenor_trans (a b c : String) (hab : strMenor a b = false)
    (hbc : strMenor b c = false) : strMenor a c = false :=
  naoMenorUnidades_trans _ _ _ hab hbc

theorem mesclarPosicao_nao_regride (posicoes : Tabela Posicao) (msg : Registro)
    (hdt : msg.get "dt" ≠ .null) (k : String) (p : Posicao)
    (hp : Tabela.obter posicoes k = some p) :
    ∃ q, Tabela.obter (mesclarPosicao posicoes msg) k = some q ∧
      strMenor q.dataHora p.dataHora = false := by
  have hmesmo : ∃ q, Tabela.obter posicoes k = some q ∧ strMenor q.dataHora p.dataHora = false :=
    ⟨p, hp, menorUnidades_irreflexiva _⟩
  unfold mesclarPosicao
  by_cases hk : (msg.get "veiID").chave = k
  · rw [hk, hp]
    dsimp only
    cases hdtv : msg.get "dt" with
    | null => exact absurd hdtv hdt
    | undefined =>
      simp only [jsMaiorIgual]
      exact hmesmo
    | str s =>
      by_cases hge : jsMaiorIgual (.str s) p.dataHora = true
      · rw [if_pos hge]
        refine ⟨_, Tabela.obter_definir_mesma _ _ _, ?_⟩
        have hdh : (preservar (montarPosicao msg) p).dataHora = s := by
          show (msg.get "dt").ouVazio = s
          rw [hdtv]
          rfl
        rw [hdh]
        simpa [jsMaiorIgual] using hge
      · rw [if_neg hge]
        exact hmesmo
  · cases hex : Tabela.obter posicoes (msg.get "veiID").chave with
    | none =>
      dsimp only
      rw [Tabela.obter_definir_outra _ _ _ _ hk]
      exact hmesmo
    | some e =>
      dsimp only
      split
      · rw [Tabela.obter_definir_outra _ _ _ _ hk]
        exact hmesmo
      · exact hmesmo

/-- Over a batch in which no message has an empty `dt` element, the stored
timestamp of every vehicle that had a position does not decrease, in the
order the guard compares two texts with: the vehicle still has a position
after the loop (completed or thrown), and its `dataHora` is not below the
prior one. -/
theorem dataHora_nao_regride_sem_dt_vazio (lote : List Registro) :
    ∀ (db : Db) (maior : JsVal), (∀ m ∈ lote, m.get "dt" ≠ .null) →
      ∀ (k : String) (p : Posicao), Tabela.obter db.posicoes k = some p →
        ∃ q, Tabela.obter (lacoMensagens db maior lote).1.posicoes k = some q ∧
          strMenor q.dataHora p.dataHora = false := by
  induction lote with
  | nil =>
    intro db maior _ k p hp
    exact ⟨p, hp, menorUnidades_irreflexiva _⟩
  | cons msg resto ih =>
    intro db maior hdt k p hp
    have hresto : ∀ m ∈ resto, m.get "dt" ≠ .null :=
      fun m hm => hdt m (List.mem_cons_of_mem _ hm)
    unfold lacoMensagens
    cases hproc : processarMensagem db maior msg with
    | none => exact ⟨p, hp, menorUnidades_irreflexiva _⟩
    | some r =>
      obtain ⟨db1, maior1⟩ := r
      dsimp only
      have hdb1 : db1.posicoes = mesclarPosicao db.posicoes msg := by
        unfold processarMensagem at hproc
        cases ha : BigInt (msg.get "mId") with
        | none => simp [ha] at hproc
        | some a =>
          cases hb : BigInt maior with
          | none => simp [ha, hb] at hproc
          | some b =>
            simp only [ha, hb, Option.some.injEq, Prod.mk.injEq] at hproc
            rw [← hproc.1]
      obtain ⟨q1, hq1, hle1⟩ :=
        mesclarPosicao_nao_regride db.posicoes msg (hdt msg (List.mem_cons_self _ _)) k p hp
      rw [← hdb1] at hq1
      obtain ⟨q, hq, hle⟩ := ih db1 maior1 hresto k q1 hq1
      exact ⟨q, hq, naoStrMenor_trans _ _ _ hle hle1⟩

/-- C1 (evaluation at the failing input). Vehicle 7 has a stored position
whose `dataHora` is the text `0`; a message for it with an empty `dt` element
passes the guard (`null >= '0'` compares `0 >= 0`) and is stored with
`dataHora` the empty string, which is below `0` in the order in which the
guard compares two strings. -/
theorem dataHora_regride_com_dt_vazio :
    (Tabela.obter dbDtZero.posicoes "7").map (fun p => p.dataHora) = some "0" ∧
    (Tabela.obter (buscarMensagens dbDtZero (.itens [msgDtVazio]) "t").posicoes "7").map
      (fun p => p.dataHora) = some "" ∧
    jsMaiorIgual (.str "") "0" = false ∧ strMenor "" "0" = true := by
  decide

/-- A message whose `dt` is below the timestamp of the position stored for
its vehicle in the order of the source's operators (`dt < dataHora`) leaves
the whole position table, and so the stored record in every field, as it was,
whether the iteration completes or throws. This is the else branch of the
guard; whether the order of the operators is the order of time depends on how
the timestamps are written. -/
theorem mensagem_antiga_preserva_registro (db : Db) (maior : JsVal) (msg : Registro)
    (existente : Posicao)
    (hex : Tabela.obter db.posicoes (msg.get "veiID").chave = some existente)
    (hantiga : jsMenor (msg.get "dt") existente.dataHora = true) :
    (lacoMensagens db maior [msg]).1.posicoes = db.posicoes ∧
    Tabela.obter (lacoMensagens db maior [msg]).1.posicoes (msg.get "veiID").chave
      = some existente := by
  have hpos : (lacoMensagens db maior [msg]).1.posicoes = db.posicoes := by
    rw [lacoMensagens_uma]
    unfold processarMensagem
    cases BigInt (msg.get "mId") with
    | none => rfl
    | some a =>
      cases BigInt maior with
      | none => rfl
      | some b =>
        simp only [mesclarPosicao, hex, jsMaiorIgual_falso_de_jsMenor _ _ hantiga]
        rfl
  exact ⟨hpos, by rw [hpos]; exact hex⟩

/-- An instance of the lemma above: with timestamps written year first, a
message dated the day before the stored position of vehicle 7 leaves the
position table as it was. -/
theorem mensagem_antiga_preserva_registro_witness :
    Tabela.obter dbComPosicao.posicoes (msgAntiga.get "veiID").chave
      = some (montarPosicao [("mId", .str "5"), ("veiID", .str "7"),
          ("dt", .str "2024-05-02 10:00:00"), ("odm", .str "100"), ("mot", .str "Ana")]) ∧
    jsMenor (msgAntiga.get "dt") "2024-05-02 10:00:00" = true ∧
    (lacoMensagens dbComPosicao (.str "5") [msgAntiga]).1.posicoes = dbComPosicao.posicoes :=
  ⟨rfl, by decide,
   (mensagem_antiga_preserva_registro dbComPosicao (.str "5") msgAntiga _ rfl (by decide)).1⟩

/-- C3. When a message reaches the merge (its iteration does not throw), the
vehicle has a stored record and the guard `msg.dt >= existente.dataHora`
holds, the record stored afterwards is the record normalized from the
message, except that each sparse field (odometro, rpm, temperatura1-3,
umidade1-3, carretaBateria, fleetDriveBateria, motorista, motoristaID,
carreta) that is `null` in it takes the prior record's value; a sparse field
that is not `null` and every other field hold the incoming value. -/
theorem mensagem_aceita_mescla_esparsos (db : Db) (maior : JsVal) (msg : Registro)
    (existente : Posicao)
    (hex : Tabela.obter db.posicoes (msg.get "veiID").chave = some existente)
    (haceita : jsMaiorIgual (msg.get "dt") existente.dataHora = true)
    (hmid : ∃ a, BigInt (msg.get "mId") = some a) (hmaior : ∃ b, BigInt maior = some b) :
    ∃ nova : Posicao,
      Tabela.obter (lacoMensagens db maior [msg]).1.posicoes (msg.get "veiID").chave
        = some nova ∧
      EsparsoNum nova.odometro (montarPosicao msg).odometro existente.odometro ∧
      EsparsoNum nova.rpm (montarPosicao msg).rpm existente.rpm ∧
      EsparsoNum nova.temperatura1 (montarPosicao msg).temperatura1 existente.temperatura1 ∧
      EsparsoNum nova.temperatura2 (montarPosicao msg).temperatura2 existente.temperatura2 ∧
      EsparsoNum nova.temperatura3 (montarPosicao msg).temperatura3 existente.temperatura3 ∧
      EsparsoNum nova.umidade1 (montarPosicao msg).umidade1 existente.umidade1 ∧
      EsparsoNum nova.umidade2 (montarPosicao msg).umidade2 existente.umidade2 ∧
      EsparsoNum nova.umidade3 (montarPosicao msg).umidade3 existente.umidade3 ∧
      EsparsoNum nova.carretaBateria (montarPosicao msg).carretaBateria
        existente.carretaBateria ∧
      EsparsoNum nova.fleetDriveBateria (montarPosicao msg).fleetDriveBateria
        existente.fleetDriveBateria ∧
      EsparsoTexto nova.motorista (montarPosicao msg).motorista existente.motorista ∧
      EsparsoTexto nova.motoristaID (montarPosicao msg).motoristaID existente.motoristaID ∧
      EsparsoTexto nova.carreta (montarPosicao msg).carreta existente.carreta ∧
      nova.mId = (montarPosicao msg).mId ∧
      nova.veiID = (montarPosicao msg).veiID ∧
      nova.placa = (montarPosicao msg).placa ∧
      nova.dataHora = (montarPosicao msg).dataHora ∧
      nova.lat = (montarPosicao msg).lat ∧
      nova.lon = (montarPosicao msg).lon ∧
      nova.municipio = (montarPosicao msg).municipio ∧
      nova.uf = (montarPosicao msg).uf ∧
      nova.rodovia = (montarPosicao msg).rodovia ∧
      nova.rua = (montarPosicao msg).rua ∧
      nova.velocidade = (montarPosicao msg).velocidade ∧
      nova.ignicao = (montarPosicao msg).ignicao ∧
      nova.alertaTelemetria = (montarPosicao msg).alertaTelemetria ∧
      nova.eventos = (montarPosicao msg).eventos ∧
      nova.macro_ = (montarPosicao msg).macro_ ∧
      nova.pontoControle = (montarPosicao msg).pontoControle ∧
      nova.pontoRotograma = (montarPosicao msg).pontoRotograma ∧
      nova.origem = (montarPosicao msg).origem ∧
      nova.origemCod = (montarPosicao msg).origemCod ∧
      nova.tipoMsg = (montarPosicao msg).tipoMsg ∧
      nova.eventoGerador = (montarPosicao msg).eventoGerador := by
  obtain ⟨a, ha⟩ := hmid
  obtain ⟨b, hb⟩ := hmaior
  refine ⟨preservar (montarPosicao msg) existente, ?_, ?_⟩
  · rw [lacoMensagens_uma]
    simp only [processarMensagem, ha, hb, mesclarPosicao, hex, haceita, if_true]
    exact Tabela.obter_definir_mesma _ _ _
  · refine ⟨esparsoNum_ouAnterior _ _, esparsoNum_ouAnterior _ _, esparsoNum_ouAnterior _ _,
      esparsoNum_ouAnterior _ _, esparsoNum_ouAnterior _ _, esparsoNum_ouAnterior _ _,
      esparsoNum_ouAnterior _ _, esparsoNum_ouAnterior _ _, esparsoNum_ouAnterior _ _,
      esparsoNum_ouAnterior _ _, esparsoTexto_ouAnterior _ _, esparsoTexto_ouAnterior _ _,
      esparsoTexto_ouAnterior _ _, rfl, rfl, rfl, rfl, rfl, rfl, rfl, rfl, rfl, rfl, rfl, rfl,
      rfl, rfl, rfl, rfl, rfl, rfl, rfl, rfl, rfl⟩

/-- Witness of C3: a newer message with a rpm reading and no odometer keeps
the stored odometer 100 and stores the rpm 1500. -/
theorem mensagem_aceita_mescla_esparsos_witness :
    Tabela.obter dbComPosicao.posicoes (msgNova.get "veiID").chave
      = some (montarPosicao [("mId", .str "5"), ("veiID", .str "7"),
          ("dt", .str "2024-05-02 10:00:00"), ("odm", .str "100"), ("mot", .str "Ana")]) ∧
    jsMaiorIgual (msgNova.get "dt") "2024-05-02 10:00:00" = true ∧
    ∃ nova : Posicao,
      Tabela.obter (lacoMensagens dbComPosicao (.str "5") [msgNova]).1.posicoes
        (msgNova.get "veiID").chave = some nova ∧
      EsparsoNum nova.odometro .null (.int 100) ∧
      EsparsoNum nova.rpm (.int 1500) .null :=
  ⟨rfl, by decide,
   (mensagem_aceita_mescla_esparsos dbComPosicao (.str "5") msgNova _ rfl (by decide)
      ⟨9, by decide⟩ ⟨5, by decide⟩).imp
     (fun _ h => ⟨h.1, h.2.1, h.2.2.1⟩)⟩

theorem ehDecimal_ehDigito (c : Char) (h : ehDecimal c = true) : ehDigito 10 c = true := by
  simp only [ehDecimal, Bool.and_eq_true, decide_eq_true_eq] at h
  simp only [ehDigito, valorDigito]
  rw [if_pos h]
  simp only [decide_eq_true_eq]
  omega

theorem ehDecimal_nao_espaco (c : Char) (h : ehDecimal c = true) : ehEspaco c = false := by
  simp only [ehDecimal, Bool.and_eq_true, decide_eq_true_eq] at h
  simp only [ehEspaco, Bool.or_eq_false_iff, decide_eq_false_iff_not, Bool.and_eq_false_imp,
    decide_eq_true_eq]
  omega

theorem aparar_digitos (cs : List Char) (h : ∀ c ∈ cs, ehDecimal c = true) : aparar cs = cs := by
  unfold aparar
  have h1 : cs.dropWhile ehEspaco = cs := by
    cases cs with
    | nil => rfl
    | cons c t =>
      simp [List.dropWhile, ehDecimal_nao_espaco c (h c (List.mem_cons_self _ _))]
  rw [h1]
  have h2 : cs.reverse.dropWhile ehEspaco = cs.reverse := by
    cases hr : cs.reverse with
    | nil => rfl
    | cons c t =>
      have hc : c ∈ cs := by
        have : c ∈ cs.reverse := by rw [hr]; exact List.mem_cons_self _ _
        exact List.mem_reverse.mp this
      simp [List.dropWhile, ehDecimal_nao_espaco c (h c hc)]
  rw [h2, List.reverse_reverse]

/-- A decimal integer of any length converts with `BigInt`, to its value. -/
theorem BigInt_de_inteiro_decimal (s : String) (h : soDigitos s = true) :
    BigInt (.str s) = some (valorDigitos 10 s.toList : Int) := by
  simp only [soDigitos, Bool.and_eq_true, decide_eq_true_eq, List.all_eq_true] at h
  obtain ⟨hne, hdig⟩ := h
  have hall : s.toList.all (ehDigito 10) = true := by
    rw [List.all_eq_true]
    intro c hc
    exact ehDecimal_ehDigito c (hdig c hc)
  have hlit : literalBase 10 s.toList = some (valorDigitos 10 s.toList : Int) := by
    unfold literalBase
    rw [if_pos ⟨hne, hall⟩]
  unfold BigInt
  simp only [aparar_digitos _ hdig]
  split
  · rename_i heq; exact absurd heq hne
  all_goals first
    | exact hlit
    | (rename_i heq
       exfalso
       rw [heq] at hdig
       first
         | exact absurd (hdig _ (List.mem_cons_of_mem _ (List.mem_cons_self _ _))) (by decide)
         | exact absurd (hdig _ (List.mem_cons_self _ _)) (by decide))

/-- The loop over a batch whose ids all convert with `BigInt`, started from a
running maximum that converts too, completes; the running maximum it ends
with converts to an upper bound of the start and of every id of the batch,
and it is either the start itself or the id of a message that is strictly
larger than the start. -/
theorem lacoMensagens_maior (lote : List Registro) :
    ∀ (db : Db) (maior : JsVal) (c : Int), BigInt maior = some c →
      (∀ m ∈ lote, ∃ n, BigInt (m.get "mId") = some n) →
      ∃ (db1 : Db) (maior1 : JsVal) (v : Int),
        lacoMensagens db maior lote = (db1, some maior1) ∧
        BigInt maior1 = some v ∧ c ≤ v ∧
        (∀ m ∈ lote, ∀ n, BigInt (m.get "mId") = some n → n ≤ v) ∧
        ((maior1 = maior ∧ v = c) ∨
          ∃ m ∈ lote, maior1 = m.get "mId" ∧ BigInt (m.get "mId") = some v ∧ c < v) := by
  induction lote with
  | nil =>
    intro db maior c hc _
    exact ⟨db, maior, c, rfl, hc, le_refl c, by simp, Or.inl ⟨rfl, rfl⟩⟩
  | cons msg resto ih =>
    intro db maior c hc hids
    obtain ⟨a, ha⟩ := hids msg (List.mem_cons_self _ _)
    have hresto : ∀ m ∈ resto, ∃ n, BigInt (m.get "mId") = some n :=
      fun m hm => hids m (List.mem_cons_of_mem _ hm)
    by_cases hgt : a > c
    · obtain ⟨db1, maior1, v, hl, hv, hcv, hub, hat⟩ :=
        ih { db with
             carretas := atualizarCarreta db.carretas msg
             posicoes := mesclarPosicao db.posicoes msg } (msg.get "mId") a ha hresto
      refine ⟨db1, maior1, v, ?_, hv, by omega, ?_, ?_⟩
      · simp only [lacoMensagens, processarMensagem, ha, hc, hgt, if_true]
        exact hl
      · intro m hm n hn
        rcases List.mem_cons.mp hm with rfl | hm
        · rw [ha] at hn
          cases hn
          exact hcv
        · exact hub m hm n hn
      · rcases hat with ⟨h1, h2⟩ | ⟨m, hm, h1, h2, h3⟩
        · exact Or.inr ⟨msg, List.mem_cons_self _ _, h1, by rw [ha, h2], by omega⟩
        · exact Or.inr ⟨m, List.mem_cons_of_mem _ hm, h1, h2, by omega⟩
    · obtain ⟨db1, maior1, v, hl, hv, hcv, hub, hat⟩ :=
        ih { db with
             carretas := atualizarCarreta db.carretas msg
             posicoes := mesclarPosicao db.posicoes msg } maior c hc hresto
      refine ⟨db1, maior1, v, ?_, hv, hcv, ?_, ?_⟩
      · simp only [lacoMensagens, processarMensagem, ha, hc, hgt, if_false]
        exact hl
      · intro m hm n hn
        rcases List.mem_cons.mp hm with rfl | hm
        · rw [ha] at hn
          cases hn
          omega
        · exact hub m hm n hn
      · rcases hat with ⟨h1, h2⟩ | ⟨m, hm, h1, h2, h3⟩
        · exact Or.inl ⟨h1, h2⟩
        · exact Or.inr ⟨m, List.mem_cons_of_mem _ hm, h1, h2, h3⟩

/-- C4. For a prior cursor that is an integer literal and a batch whose `mId`
values are integer literals of any size (everything `BigInt` converts, which
includes every decimal integer by `BigInt_de_inteiro_decimal`), the
cursor after `buscarMensagens` converts to the maximum, as exact integers, of
the prior cursor and the ids of the batch: it bounds them all from above and
is the prior cursor or one of the ids. So the cursor never decreases; it is
left as it was unless the batch holds an id strictly larger than the prior
cursor, and then it is such an id; and an empty batch leaves the whole store,
the cursor included, unchanged. -/
theorem cursor_e_o_maximo (db : Db) (lote : List Registro) (agora : String) (c : Int)
    (hcursor : BigInt db.ultimoMId = some c)
    (hids : ∀ m ∈ lote, ∃ n, BigInt (m.get "mId") = some n) :
    (∃ v : Int,
      BigInt (buscarMensagens db (.itens lote) agora).ultimoMId = some v ∧
      c ≤ v ∧
      (∀ m ∈ lote, ∀ n, BigInt (m.get "mId") = some n → n ≤ v) ∧
      (v = c ∨ ∃ m ∈ lote, BigInt (m.get "mId") = some v)) ∧
    ((buscarMensagens db (.itens lote) agora).ultimoMId = db.ultimoMId ∨
      ∃ m ∈ lote, ∃ n, (buscarMensagens db (.itens lote) agora).ultimoMId = m.get "mId" ∧
        BigInt (m.get "mId") = some n ∧ c < n) ∧
    (lote = [] → buscarMensagens db (.itens lote) agora = db) := by
  cases lote with
  | nil =>
    refine ⟨⟨c, hcursor, le_refl c, by simp, Or.inl rfl⟩, Or.inl rfl, fun _ => rfl⟩
  | cons msg resto =>
    obtain ⟨db1, maior1, v, hl, hv, hcv, hub, hat⟩ :=
      lacoMensagens_maior (msg :: resto) db db.ultimoMId c hcursor hids
    have hres : (buscarMensagens db (.itens (msg :: resto)) agora).ultimoMId = maior1 := by
      simp only [buscarMensagens, hl]
    rw [hres]
    refine ⟨⟨v, hv, hcv, hub, ?_⟩, ?_, by simp⟩
    · rcases hat with ⟨_, h2⟩ | ⟨m, hm, _, h2, _⟩
      · exact Or.inl h2
      · exact Or.inr ⟨m, hm, h2⟩
    · rcases hat with ⟨h1, _⟩ | ⟨m, hm, h1, h2, h3⟩
      · exact Or.inl h1
      · exact Or.inr ⟨m, hm, v, h1, h2, h3⟩

/-- Witness of C4: from the cursor 1, a batch with the ids 9007199254740993
and 9007199254740992, which differ only beyond 53 bits. -/
theorem cursor_e_o_maximo_witness :
    BigInt dbInicial.ultimoMId = some 1 ∧
    (∀ m ∈ loteGrande, ∃ n, BigInt (m.get "mId") = some n) ∧
    ∃ v : Int,
      BigInt (buscarMensagens dbInicial (.itens loteGrande) "t").ultimoMId = some v ∧
      1 ≤ v ∧
      (∀ m ∈ loteGrande, ∀ n, BigInt (m.get "mId") = some n → n ≤ v) ∧
      (v = 1 ∨ ∃ m ∈ loteGrande, BigInt (m.get "mId") = some v) :=
  have hids : ∀ m ∈ loteGrande, ∃ n, BigInt (m.get "mId") = some n := by
    intro m hm
    simp only [loteGrande, List.mem_cons, List.mem_singleton, List.not_mem_nil, or_false] at hm
    rcases hm with rfl | rfl
    · exact ⟨_, BigInt_de_inteiro_decimal "9007199254740993" (by decide)⟩
    · exact ⟨_, BigInt_de_inteiro_decimal "9007199254740992" (by decide)⟩
  ⟨by decide, hids, (cursor_e_o_maximo dbInicial loteGrande "t" 1 (by decide) hids).1⟩

/-- C5 (evaluation at the failing input). From the store whose position of
vehicle 7 has `dataHora` equal to `0`, the batch of `msgDtExclamacao` followed
by `msgDtVazio` leaves, processed once, the record of the second message
(`dataHora` empty, `mId` 3, speed 20), and processed a second time the record
of the first message (`dataHora` equal to `!`, `mId` 2, speed 30); the cursor
is 3 after both passes. -/
theorem replay_altera_registro :
    (Tabela.obter
        (buscarMensagens dbDtZero (.itens [msgDtExclamacao, msgDtVazio]) "t").posicoes
        "7").map (fun p => (p.dataHora, p.mId, p.velocidade))
      = some ("", .str "3", some 20) ∧
    (Tabela.obter
        (buscarMensagens
          (buscarMensagens dbDtZero (.itens [msgDtExclamacao, msgDtVazio]) "t")
          (.itens [msgDtExclamacao, msgDtVazio]) "t").posicoes
        "7").map (fun p => (p.dataHora, p.mId, p.velocidade))
      = some ("!", .str "2", some 30) ∧
    (buscarMensagens dbDtZero (.itens [msgDtExclamacao, msgDtVazio]) "t").ultimoMId
      = .str "3" ∧
    (buscarMensagens
        (buscarMensagens dbDtZero (.itens [msgDtExclamacao, msgDtVazio]) "t")
        (.itens [msgDtExclamacao, msgDtVazio]) "t").ultimoMId = .str "3" := by
  decide

/-! ## Replay of a batch without empty `dt` elements -/

theorem menorUnidades_assimetrica (a : List Nat) :
    ∀ b : List Nat, menorUnidades a b = true → menorUnidades b a = false := by
  induction a with
  | nil => intro b _; cases b <;> rfl
  | cons x r ih =>
    intro b h
    cases b with
    | nil => simp [menorUnidades] at h
    | cons y s =>
      simp only [menorUnidades, Bool.or_eq_true, decide_eq_true_eq, Bool.and_eq_true] at h
      simp only [menorUnidades, Bool.or_eq_false_iff, decide_eq_false_iff_not,
        Bool.and_eq_false_imp, decide_eq_true_eq]
      rcases h with h | ⟨h1, h2⟩
      · exact ⟨by omega, fun hyx => by omega⟩
      · exact ⟨by omega, fun _ => ih s h2⟩

theorem JsNum.ouAnterior_assoc (a b c : JsNum) :
    (a.ouAnterior b).ouAnterior c = a.ouAnterior (b.ouAnterior c) := by
  cases a <;> rfl

theorem ouAnteriorTexto_assoc (a b c : Option String) :
    ouAnteriorTexto (ouAnteriorTexto a b) c = ouAnteriorTexto a (ouAnteriorTexto b c) := by
  cases a <;> rfl

theorem JsNum.ouAnterior_absorve (m x e : JsNum) (h : e = x.ouAnterior e) :
    m.ouAnterior (x.ouAnterior (m.ouAnterior e)) = m.ouAnterior e := by
  cases m with
  | null => simpa [JsNum.ouAnterior] using h.symm
  | nan => rfl
  | int n => rfl

theorem ouAnteriorTexto_absorve (m x e : Option String) (h : e = ouAnteriorTexto x e) :
    ouAnteriorTexto m (ouAnteriorTexto x (ouAnteriorTexto m e)) = ouAnteriorTexto m e := by
  cases m with
  | none => simpa [ouAnteriorTexto] using h.symm
  | some s => rfl

theorem JsNum.ouAnterior_mesmo (a : JsNum) : a.ouAnterior a = a := by
  cases a <;> rfl

theorem ouAnteriorTexto_mesmo (a : Option String) : ouAnteriorTexto a a = a := by
  cases a <;> rfl

theorem preservar_mesmo (p : Posicao) : preservar p p = p := by
  cases p
  simp [preservar, JsNum.ouAnterior_mesmo, ouAnteriorTexto_mesmo]

theorem preservar_dataHora (p e : Posicao) : (preservar p e).dataHora = p.dataHora := rfl

/-- Two merges of the same incoming record agree when their sparse fields
agree. -/
theorem preservar_congr (p e1 e2 : Posicao)
    (h1 : p.odometro.ouAnterior e1.odometro = p.odometro.ouAnterior e2.odometro)
    (h2 : p.rpm.ouAnterior e1.rpm = p.rpm.ouAnterior e2.rpm)
    (h3 : p.temperatura1.ouAnterior e1.temperatura1 = p.temperatura1.ouAnterior e2.temperatura1)
    (h4 : p.temperatura2.ouAnterior e1.temperatura2 = p.temperatura2.ouAnterior e2.temperatura2)
    (h5 : p.temperatura3.ouAnterior e1.temperatura3 = p.temperatura3.ouAnterior e2.temperatura3)
    (h6 : p.umidade1.ouAnterior e1.umidade1 = p.umidade1.ouAnterior e2.umidade1)
    (h7 : p.umidade2.ouAnterior e1.umidade2 = p.umidade2.ouAnterior e2.umidade2)
    (h8 : p.umidade3.ouAnterior e1.umidade3 = p.umidade3.ouAnterior e2.umidade3)
    (h9 : p.carretaBateria.ouAnterior e1.carretaBateria
      = p.carretaBateria.ouAnterior e2.carretaBateria)
    (h10 : p.fleetDriveBateria.ouAnterior e1.fleetDriveBateria
      = p.fleetDriveBateria.ouAnterior e2.fleetDriveBateria)
    (h11 : ouAnteriorTexto p.motorista e1.motorista = ouAnteriorTexto p.motorista e2.motorista)
    (h12 : ouAnteriorTexto p.motoristaID e1.motoristaID
      = ouAnteriorTexto p.motoristaID e2.motoristaID)
    (h13 : ouAnteriorTexto p.carreta e1.carreta = ouAnteriorTexto p.carreta e2.carreta) :
    preservar p e1 = preservar p e2 := by
  unfold preservar
  rw [h1, h2, h3, h4, h5, h6, h7, h8, h9, h10, h11, h12, h13]

theorem sobrepostos_inicio (a b : Posicao) : Sobrepostos a b a b :=
  ⟨⟨.null, rfl, rfl⟩, ⟨.null, rfl, rfl⟩, ⟨.null, rfl, rfl⟩, ⟨.null, rfl, rfl⟩,
   ⟨.null, rfl, rfl⟩, ⟨.null, rfl, rfl⟩, ⟨.null, rfl, rfl⟩, ⟨.null, rfl, rfl⟩,
   ⟨.null, rfl, rfl⟩, ⟨.null, rfl, rfl⟩, ⟨none, rfl, rfl⟩, ⟨none, rfl, rfl⟩,
   ⟨none, rfl, rfl⟩⟩

theorem passoNum (p x a0 b0 a b : JsNum) (ha : a = x.ouAnterior a0)
    (hb : b = x.ouAnterior b0) :
    ∃ y, p.ouAnterior a = JsNum.ouAnterior y a0 ∧ p.ouAnterior b = JsNum.ouAnterior y b0 :=
  ⟨p.ouAnterior x, by rw [ha, JsNum.ouAnterior_assoc], by rw [hb, JsNum.ouAnterior_assoc]⟩

theorem passoTexto (p x a0 b0 a b : Option String) (ha : a = ouAnteriorTexto x a0)
    (hb : b = ouAnteriorTexto x b0) :
    ∃ y, ouAnteriorTexto p a = ouAnteriorTexto y a0 ∧
      ouAnteriorTexto p b = ouAnteriorTexto y b0 :=
  ⟨ouAnteriorTexto p x, by rw [ha, ouAnteriorTexto_assoc], by rw [hb, ouAnteriorTexto_assoc]⟩

theorem sobrepostos_passo (p a b a0 b0 : Posicao) (h : Sobrepostos a b a0 b0) :
    Sobrepostos (preservar p a) (preservar p b) a0 b0 := by
  obtain ⟨⟨x1, a1, b1⟩, ⟨x2, a2, b2⟩, ⟨x3, a3, b3⟩, ⟨x4, a4, b4⟩, ⟨x5, a5, b5⟩,
    ⟨x6, a6, b6⟩, ⟨x7, a7, b7⟩, ⟨x8, a8, b8⟩, ⟨x9, a9, b9⟩, ⟨x10, a10, b10⟩,
    ⟨x11, a11, b11⟩, ⟨x12, a12, b12⟩, ⟨x13, a13, b13⟩⟩ := h
  exact ⟨passoNum _ _ _ _ _ _ a1 b1, passoNum _ _ _ _ _ _ a2 b2, passoNum _ _ _ _ _ _ a3 b3,
    passoNum _ _ _ _ _ _ a4 b4, passoNum _ _ _ _ _ _ a5 b5, passoNum _ _ _ _ _ _ a6 b6,
    passoNum _ _ _ _ _ _ a7 b7, passoNum _ _ _ _ _ _ a8 b8, passoNum _ _ _ _ _ _ a9 b9,
    passoNum _ _ _ _ _ _ a10 b10, passoTexto _ _ _ _ _ _ a11 b11,
    passoTexto _ _ _ _ _ _ a12 b12, passoTexto _ _ _ _ _ _ a13 b13⟩

theorem jsMaiorIgual_mesma_classe (v : JsVal) (hv : v ≠ .null) (ta tb : String)
    (hab : strMenor ta tb = false) (hba : strMenor tb ta = false) :
    jsMaiorIgual v ta = jsMaiorIgual v tb := by
  cases v with
  | null => exact absurd rfl hv
  | undefined => rfl
  | str s =>
    simp only [jsMaiorIgual]
    cases h1 : strMenor s ta with
    | false =>
      rw [naoStrMenor_trans s ta tb h1 hab]
    | true =>
      cases h2 : strMenor s tb with
      | true => rfl
      | false =>
        rw [naoStrMenor_trans s tb ta h2 hba] at h1
        cases h1

theorem passoPosicao_some (e : Posicao) (m : Registro) (hdt : m.get "dt" ≠ .null) :
    ∃ e1, passoPosicao (some e) m = some e1 ∧ strMenor e1.dataHora e.dataHora = false ∧
      ∀ s, m.get "dt" = .str s → strMenor e1.dataHora s = false := by
  unfold passoPosicao
  dsimp only
  cases hv : m.get "dt" with
  | null => exact absurd hv hdt
  | undefined =>
    refine ⟨e, by simp [jsMaiorIgual], menorUnidades_irreflexiva _, ?_⟩
    intro s hs
    cases hs
  | str t =>
    by_cases hge : jsMaiorIgual (.str t) e.dataHora = true
    · rw [if_pos hge]
      have hdh : (preservar (montarPosicao m) e).dataHora = t := by
        show (m.get "dt").ouVazio = t
        rw [hv]
        rfl
      refine ⟨_, rfl, ?_, ?_⟩
      · rw [hdh]
        simpa [jsMaiorIgual] using hge
      · intro s hs
        cases hs
        rw [hdh]
        exact menorUnidades_irreflexiva _
    · rw [if_neg hge]
      refine ⟨e, rfl, menorUnidades_irreflexiva _, ?_⟩
      intro s hs
      cases hs
      have hlt : strMenor t e.dataHora = true := by
        simpa [jsMaiorIgual] using hge
      exact menorUnidades_assimetrica _ _ hlt

/-- A run of iterations from a stored position ends in a stored position whose
timestamp is not below the starting one nor below any text `dt` of the run. -/
theorem corrida_limite (M : List Registro) :
    ∀ e : Posicao, (∀ m ∈ M, m.get "dt" ≠ .null) →
      ∃ e1, M.foldl passoPosicao (some e) = some e1 ∧
        strMenor e1.dataHora e.dataHora = false ∧
        ∀ m ∈ M, ∀ s, m.get "dt" = .str s → strMenor e1.dataHora s = false := by
  induction M with
  | nil =>
    intro e _
    exact ⟨e, rfl, menorUnidades_irreflexiva _, by simp⟩
  | cons m r ih =>
    intro e hdt
    obtain ⟨e1, h1, hge1, hb1⟩ := passoPosicao_some e m (hdt m (List.mem_cons_self _ _))
    obtain ⟨e2, h2, hge2, hb2⟩ := ih e1 (fun x hx => hdt x (List.mem_cons_of_mem _ hx))
    refine ⟨e2, by rw [List.foldl_cons, h1, h2], naoStrMenor_trans _ _ _ hge2 hge1, ?_⟩
    intro x hx s hs
    rcases List.mem_cons.mp hx with rfl | hx
    · exact naoStrMenor_trans _ _ _ hge2 (hb1 s hs)
    · exact hb2 x hx s hs

/-- A stored position that every message of a run fails the guard against is
left as it is by the run. -/
theorem corrida_rejeitada (M : List Registro) (R : Posicao)
    (h : ∀ m ∈ M, jsMaiorIgual (m.get "dt") R.dataHora = false) :
    M.foldl passoPosicao (some R) = some R := by
  induction M with
  | nil => rfl
  | cons m r ih =>
    rw [List.foldl_cons]
    have hm : passoPosicao (some R) m = some R := by
      simp [passoPosicao, h m (List.mem_cons_self _ _)]
    rw [hm]
    exact ih (fun x hx => h x (List.mem_cons_of_mem _ hx))

/-- Two runs of the same messages, from stored positions whose timestamps
are in the same class of the order, accept the same messages: they end in
positions with timestamps in the same class, whose sparse fields are those
of the starting positions under one common overlay. -/
theorem corrida_paralela (M : List Registro) :
    ∀ a b a0 b0 : Posicao, (∀ m ∈ M, m.get "dt" ≠ .null) →
      strMenor a.dataHora b.dataHora = false → strMenor b.dataHora a.dataHora = false →
      Sobrepostos a b a0 b0 →
      ∃ a1 b1, M.foldl passoPosicao (some a) = some a1 ∧
        M.foldl passoPosicao (some b) = some b1 ∧
        strMenor a1.dataHora b1.dataHora = false ∧
        strMenor b1.dataHora a1.dataHora = false ∧
        Sobrepostos a1 b1 a0 b0 := by
  induction M with
  | nil =>
    intro a b a0 b0 _ hab hba hs
    exact ⟨a, b, rfl, rfl, hab, hba, hs⟩
  | cons m r ih =>
    intro a b a0 b0 hdt hab hba hs
    have hresto : ∀ x ∈ r, x.get "dt" ≠ .null :=
      fun x hx => hdt x (List.mem_cons_of_mem _ hx)
    have hig := jsMaiorIgual_mesma_classe (m.get "dt") (hdt m (List.mem_cons_self _ _))
      a.dataHora b.dataHora hab hba
    rw [List.foldl_cons, List.foldl_cons]
    by_cases hge : jsMaiorIgual (m.get "dt") a.dataHora = true
    · have hgb : jsMaiorIgual (m.get "dt") b.dataHora = true := by rw [← hig]; exact hge
      have ha1 : passoPosicao (some a) m = some (preservar (montarPosicao m) a) := by
        simp [passoPosicao, hge]
      have hb1 : passoPosicao (some b) m = some (preservar (montarPosicao m) b) := by
        simp [passoPosicao, hgb]
      rw [ha1, hb1]
      exact ih _ _ a0 b0 hresto (menorUnidades_irreflexiva _) (menorUnidades_irreflexiva _)
        (sobrepostos_passo _ _ _ _ _ hs)
    · have hgb : ¬ jsMaiorIgual (m.get "dt") b.dataHora = true := by rw [← hig]; exact hge
      have ha1 : passoPosicao (some a) m = some a := by
        simp [passoPosicao, hge]
      have hb1 : passoPosicao (some b) m = some b := by
        simp [passoPosicao, hgb]
      rw [ha1, hb1]
      exact ih a b a0 b0 hresto hab hba hs

theorem JsNum.ouAnterior_repetido (a b : JsNum) :
    a.ouAnterior (a.ouAnterior b) = a.ouAnterior b := by
  cases a <;> rfl

theorem ouAnteriorTexto_repetido (a b : Option String) :
    ouAnteriorTexto a (ouAnteriorTexto a b) = ouAnteriorTexto a b := by
  cases a <;> rfl

theorem preservar_repetido (p e : Posicao) : preservar p (preservar p e) = preservar p e :=
  preservar_congr p (preservar p e) e
    (JsNum.ouAnterior_repetido _ _) (JsNum.ouAnterior_repetido _ _)
    (JsNum.ouAnterior_repetido _ _) (JsNum.ouAnterior_repetido _ _)
    (JsNum.ouAnterior_repetido _ _) (JsNum.ouAnterior_repetido _ _)
    (JsNum.ouAnterior_repetido _ _) (JsNum.ouAnterior_repetido _ _)
    (JsNum.ouAnterior_repetido _ _) (JsNum.ouAnterior_repetido _ _)
    (ouAnteriorTexto_repetido _ _) (ouAnteriorTexto_repetido _ _)
    (ouAnteriorTexto_repetido _ _)

theorem preservar_sobreposto (p a1 e : Posicao) (h : Sobrepostos a1 e (preservar p e) e) :
    preservar p a1 = preservar p e := by
  obtain ⟨⟨x1, a1h, b1⟩, ⟨x2, a2, b2⟩, ⟨x3, a3, b3⟩, ⟨x4, a4, b4⟩, ⟨x5, a5, b5⟩,
    ⟨x6, a6, b6⟩, ⟨x7, a7, b7⟩, ⟨x8, a8, b8⟩, ⟨x9, a9, b9⟩, ⟨x10, a10, b10⟩,
    ⟨x11, a11, b11⟩, ⟨x12, a12, b12⟩, ⟨x13, a13, b13⟩⟩ := h
  apply preservar_congr
  · rw [a1h]; exact JsNum.ouAnterior_absorve _ _ _ b1
  · rw [a2]; exact JsNum.ouAnterior_absorve _ _ _ b2
  · rw [a3]; exact JsNum.ouAnterior_absorve _ _ _ b3
  · rw [a4]; exact JsNum.ouAnterior_absorve _ _ _ b4
  · rw [a5]; exact JsNum.ouAnterior_absorve _ _ _ b5
  · rw [a6]; exact JsNum.ouAnterior_absorve _ _ _ b6
  · rw [a7]; exact JsNum.ouAnterior_absorve _ _ _ b7
  · rw [a8]; exact JsNum.ouAnterior_absorve _ _ _ b8
  · rw [a9]; exact JsNum.ouAnterior_absorve _ _ _ b9
  · rw [a10]; exact JsNum.ouAnterior_absorve _ _ _ b10
  · rw [a11]; exact ouAnteriorTexto_absorve _ _ _ b11
  · rw [a12]; exact ouAnteriorTexto_absorve _ _ _ b12
  · rw [a13]; exact ouAnteriorTexto_absorve _ _ _ b13

theorem corrida_none (M : List Registro) (s0 : Option Posicao)
    (h : M.foldl passoPosicao s0 = none) : M = [] := by
  induction M using List.reverseRecOn with
  | nil => rfl
  | append_singleton l m _ =>
    rw [List.foldl_append, List.foldl_cons, List.foldl_nil] at h
    cases hs : l.foldl passoPosicao s0 with
    | none => rw [hs] at h; simp [passoPosicao] at h
    | some e =>
      rw [hs] at h
      unfold passoPosicao at h
      dsimp only at h
      split at h <;> cases h

/-- Running the iterations of a batch a second time, from the position the
first run left, ends in that same position, when no message of the batch has
an empty `dt` element. -/
theorem corrida_idempotente (M : List Registro) :
    (∀ m ∈ M, m.get "dt" ≠ .null) →
      ∀ s0 : Option Posicao,
        M.foldl passoPosicao (M.foldl passoPosicao s0) = M.foldl passoPosicao s0 := by
  induction M using List.reverseRecOn with
  | nil => intro _ s0; rfl
  | append_singleton l m ih =>
    intro hdt s0
    have hl : ∀ x ∈ l, x.get "dt" ≠ .null :=
      fun x hx => hdt x (List.mem_append_left _ hx)
    have hm : m.get "dt" ≠ .null := hdt m (by simp)
    have ihl := ih hl s0
    simp only [List.foldl_append, List.foldl_cons, List.foldl_nil]
    cases hs : l.foldl passoPosicao s0 with
    | none =>
      have hnil := corrida_none l s0 hs
      subst hnil
      simp only [List.foldl_nil]
      show passoPosicao (some (montarPosicao m)) m = some (montarPosicao m)
      unfold passoPosicao
      dsimp only
      split
      · rw [preservar_mesmo]
      · rfl
    | some e =>
      rw [hs] at ihl
      by_cases hacc : jsMaiorIgual (m.get "dt") e.dataHora = true
      · have hpasso : passoPosicao (some e) m = some (preservar (montarPosicao m) e) := by
          simp [passoPosicao, hacc]
        rw [hpasso]
        cases hv : m.get "dt" with
        | null => exact absurd hv hm
        | undefined => rw [hv] at hacc; simp [jsMaiorIgual] at hacc
        | str s =>
          rw [hv] at hacc
          have hse : strMenor s e.dataHora = false := by simpa [jsMaiorIgual] using hacc
          have hR : (preservar (montarPosicao m) e).dataHora = s := by
            show (m.get "dt").ouVazio = s
            rw [hv]
            rfl
          obtain ⟨e1, he1, _, hlim⟩ := corrida_limite l e hl
          rw [ihl] at he1
          cases he1
          cases hcls : strMenor e.dataHora s with
          | false =>
            obtain ⟨a1, b1, ha1, hb1, hab, hba, hsob⟩ :=
              corrida_paralela l (preservar (montarPosicao m) e) e
                (preservar (montarPosicao m) e) e hl (by rw [hR]; exact hse)
                (by rw [hR]; exact hcls) (sobrepostos_inicio _ _)
            rw [ihl] at hb1
            cases hb1
            rw [ha1]
            have hsa : strMenor s a1.dataHora = false := naoStrMenor_trans _ _ _ hse hba
            have hpa : passoPosicao (some a1) m = some (preservar (montarPosicao m) a1) := by
              simp [passoPosicao, hv, jsMaiorIgual, hsa]
            rw [hpa, preservar_sobreposto _ _ _ hsob]
          | true =>
            have hrej : ∀ x ∈ l,
                jsMaiorIgual (x.get "dt") (preservar (montarPosicao m) e).dataHora = false := by
              intro x hx
              rw [hR]
              cases hxv : x.get "dt" with
              | null => exact absurd hxv (hl x hx)
              | undefined => rfl
              | str t =>
                simp only [jsMaiorIgual, Bool.not_eq_false']
                cases hts : strMenor t s with
                | true => rfl
                | false =>
                  have := naoStrMenor_trans _ _ _ (hlim x hx t hxv) hts
                  rw [this] at hcls
                  cases hcls
            rw [corrida_rejeitada l _ hrej]
            have hss : jsMaiorIgual (m.get "dt") (preservar (montarPosicao m) e).dataHora
                = true := by
              rw [hv, hR]
              simp [jsMaiorIgual, strMenor, menorUnidades_irreflexiva]
            simp only [passoPosicao, hss, if_true]
            rw [preservar_repetido]
      · have hpasso : passoPosicao (some e) m = some e := by
          simp [passoPosicao, hacc]
        rw [hpasso, ihl, hpasso]

theorem mesclarPosicao_obter (P : Tabela Posicao) (m : Registro) (k : String) :
    Tabela.obter (mesclarPosicao P m) k =
      if (m.get "veiID").chave = k then passoPosicao (Tabela.obter P k) m
      else Tabela.obter P k := by
  unfold mesclarPosicao
  by_cases hk : (m.get "veiID").chave = k
  · rw [if_pos hk, hk]
    cases hex : Tabela.obter P k with
    | none =>
      dsimp only
      rw [Tabela.obter_definir_mesma]
      rfl
    | some e =>
      dsimp only
      unfold passoPosicao
      dsimp only
      split
      · rw [Tabela.obter_definir_mesma]
      · exact hex
  · rw [if_neg hk]
    cases hex : Tabela.obter P (m.get "veiID").chave with
    | none =>
      dsimp only
      exact Tabela.obter_definir_outra _ _ _ _ hk
    | some e =>
      dsimp only
      split
      · exact Tabela.obter_definir_outra _ _ _ _ hk
      · rfl

theorem foldl_mesclarPosicao_obter (L : List Registro) (k : String) :
    ∀ P : Tabela Posicao,
      Tabela.obter (L.foldl mesclarPosicao P) k =
        (L.filter (fun m => (m.get "veiID").chave = k)).foldl passoPosicao
          (Tabela.obter P k) := by
  induction L with
  | nil => intro P; rfl
  | cons m r ih =>
    intro P
    rw [List.foldl_cons, ih, mesclarPosicao_obter]
    by_cases hk : (m.get "veiID").chave = k
    · simp [hk]
    · simp [hk]

theorem Tabela.chaves_definir {α : Type} (t : Tabela α) (k : String) (v : α) :
    (Tabela.definir t k v).map (fun e => e.1) =
      if (Tabela.obter t k).isSome then t.map (fun e => e.1)
      else t.map (fun e => e.1) ++ [k] := by
  induction t with
  | nil => simp [Tabela.definir, Tabela.obter]
  | cons e r ih =>
    obtain ⟨k1, v1⟩ := e
    by_cases h : k1 = k
    · simp [Tabela.definir, Tabela.obter, h]
    · simp only [Tabela.definir, Tabela.obter, h, if_false, List.map_cons, ih]
      split <;> simp

theorem mesclarPosicao_chaves (P : Tabela Posicao) (m : Registro)
    (h : (Tabela.obter P (m.get "veiID").chave).isSome = true) :
    (mesclarPosicao P m).map (fun e => e.1) = P.map (fun e => e.1) := by
  unfold mesclarPosicao
  cases hex : Tabela.obter P (m.get "veiID").chave with
  | none => rw [hex] at h; cases h
  | some e =>
    dsimp only
    split
    · rw [Tabela.chaves_definir, hex]
      rfl
    · rfl

theorem passoPosicao_isSome (s : Option Posicao) (m : Registro) :
    (passoPosicao s m).isSome = true := by
  unfold passoPosicao
  cases s with
  | none => rfl
  | some e =>
    dsimp only
    split <;> rfl

theorem mesclarPosicao_mantem (P : Tabela Posicao) (m : Registro) (k : String)
    (h : (Tabela.obter P k).isSome = true) :
    (Tabela.obter (mesclarPosicao P m) k).isSome = true := by
  rw [mesclarPosicao_obter]
  split
  · exact passoPosicao_isSome _ _
  · exact h

/-- A run over messages whose vehicles all have a position adds no key. -/
theorem foldl_mesclarPosicao_chaves (L : List Registro) :
    ∀ P : Tabela Posicao,
      (∀ m ∈ L, (Tabela.obter P (m.get "veiID").chave).isSome = true) →
      (L.foldl mesclarPosicao P).map (fun e => e.1) = P.map (fun e => e.1) := by
  induction L with
  | nil => intro P _; rfl
  | cons m r ih =>
    intro P h
    rw [List.foldl_cons, ih, mesclarPosicao_chaves P m (h m (List.mem_cons_self _ _))]
    intro x hx
    exact mesclarPosicao_mantem P m _ (h x (List.mem_cons_of_mem _ hx))

/-- After a run, the vehicle of every message of the run has a position. -/
theorem foldl_mesclarPosicao_presentes (L : List Registro) (P : Tabela Posicao) :
    ∀ m ∈ L, (Tabela.obter (L.foldl mesclarPosicao P) (m.get "veiID").chave).isSome = true := by
  intro m hm
  rw [foldl_mesclarPosicao_obter]
  cases hs : (L.filter (fun x => (x.get "veiID").chave = (m.get "veiID").chave)).foldl
      passoPosicao (Tabela.obter P (m.get "veiID").chave) with
  | some e => rfl
  | none =>
    have hnil := corrida_none _ _ hs
    have hmem : m ∈ L.filter (fun x => (x.get "veiID").chave = (m.get "veiID").chave) :=
      List.mem_filter.mpr ⟨hm, by simp⟩
    rw [hnil] at hmem
    cases hmem

/-- The position table a run of the loop leaves: the merge of the processed
messages, in order. -/
theorem lacoMensagens_posicoes (lote : List Registro) :
    ∀ (db : Db) (maior : JsVal),
      (lacoMensagens db maior lote).1.posicoes =
        (processadas maior lote).foldl mesclarPosicao db.posicoes := by
  induction lote with
  | nil =>
    intro db maior
    unfold processadas
    cases BigInt maior <;> rfl
  | cons m r ih =>
    intro db maior
    unfold lacoMensagens processarMensagem processadas
    cases hb : BigInt maior with
    | none =>
      cases ha : BigInt (m.get "mId") <;> rfl
    | some b =>
      cases ha : BigInt (m.get "mId") with
      | none =>
        simp [List.takeWhile, ha]
      | some a =>
        dsimp only
        rw [ih]
        have hmaior : ∃ c, BigInt (if a > b then m.get "mId" else maior) = some c := by
          by_cases hgt : a > b
          · exact ⟨a, by rw [if_pos hgt]; exact ha⟩
          · exact ⟨b, by rw [if_neg hgt]; exact hb⟩
        obtain ⟨c, hc⟩ := hmaior
        simp [processadas, hc, List.takeWhile, ha]

theorem lacoMensagens_ultimoMId (lote : List Registro) :
    ∀ (db : Db) (maior : JsVal), (lacoMensagens db maior lote).1.ultimoMId = db.ultimoMId := by
  induction lote with
  | nil => intro db maior; rfl
  | cons m r ih =>
    intro db maior
    unfold lacoMensagens processarMensagem
    cases BigInt (m.get "mId") with
    | none => rfl
    | some a =>
      cases BigInt maior with
      | none => rfl
      | some b =>
        dsimp only
        rw [ih]

theorem lacoMensagens_sem_cursor (lote : List Registro) (db : Db) (maior : JsVal)
    (h : BigInt maior = none) : (lacoMensagens db maior lote).2.getD maior = maior := by
  cases lote with
  | nil => rfl
  | cons m r =>
    unfold lacoMensagens processarMensagem
    cases BigInt (m.get "mId") <;> simp [h]

theorem lacoMensagens_interrompido (lote : List Registro) :
    ∀ (db : Db) (maior : JsVal) (c : Int), BigInt maior = some c →
      (∃ m ∈ lote, BigInt (m.get "mId") = none) → (lacoMensagens db maior lote).2 = none := by
  induction lote with
  | nil =>
    intro db maior c _ h
    obtain ⟨m, hm, _⟩ := h
    cases hm
  | cons m r ih =>
    intro db maior c hc h
    unfold lacoMensagens processarMensagem
    cases ha : BigInt (m.get "mId") with
    | none => simp
    | some a =>
      simp only [hc]
      have hr : ∃ x ∈ r, BigInt (x.get "mId") = none := by
        obtain ⟨x, hx, hxn⟩ := h
        rcases List.mem_cons.mp hx with rfl | hx
        · rw [ha] at hxn; cases hxn
        · exact ⟨x, hx, hxn⟩
      by_cases hgt : a > c
      · rw [if_pos hgt]
        exact ih _ _ a ha hr
      · rw [if_neg hgt]
        exact ih _ _ c hc hr

theorem buscarMensagens_posicoes (db : Db) (lote : List Registro) (agora : String) :
    (buscarMensagens db (.itens lote) agora).posicoes =
      (processadas db.ultimoMId lote).foldl mesclarPosicao db.posicoes := by
  rw [← lacoMensagens_posicoes]
  cases lote with
  | nil => rfl
  | cons m r =>
    simp only [buscarMensagens]
    cases h : lacoMensagens db db.ultimoMId (m :: r) with
    | mk d o =>
      cases o <;> rfl

theorem buscarMensagens_ultimoMId (db : Db) (lote : List Registro) (agora : String) :
    (buscarMensagens db (.itens lote) agora).ultimoMId =
      (lacoMensagens db db.ultimoMId lote).2.getD db.ultimoMId := by
  cases lote with
  | nil => rfl
  | cons m r =>
    have hu := lacoMensagens_ultimoMId (m :: r) db db.ultimoMId
    simp only [buscarMensagens]
    cases h : lacoMensagens db db.ultimoMId (m :: r) with
    | mk d o =>
      rw [h] at hu
      cases o with
      | none => exact hu
      | some x => rfl

/-- The cursor after `buscarMensagens`, whatever the batch: when the prior
cursor does not convert with `BigInt` or some `mId` of the batch does not,
the cursor is left as it was; otherwise it converts to an upper bound of the
prior cursor and of the ids of the batch. -/
theorem buscarMensagens_cursor (db : Db) (lote : List Registro) (agora : String) :
    (BigInt db.ultimoMId = none ∧
      (buscarMensagens db (.itens lote) agora).ultimoMId = db.ultimoMId) ∨
    (∃ c, BigInt db.ultimoMId = some c ∧ (∃ m ∈ lote, BigInt (m.get "mId") = none) ∧
      (buscarMensagens db (.itens lote) agora).ultimoMId = db.ultimoMId) ∨
    (∃ c v, BigInt db.ultimoMId = some c ∧
      (∀ m ∈ lote, ∃ n, BigInt (m.get "mId") = some n) ∧
      BigInt (buscarMensagens db (.itens lote) agora).ultimoMId = some v ∧ c ≤ v ∧
      ∀ m ∈ lote, ∀ n, BigInt (m.get "mId") = some n → n ≤ v) := by
  rw [buscarMensagens_ultimoMId]
  cases hc : BigInt db.ultimoMId with
  | none => exact Or.inl ⟨rfl, lacoMensagens_sem_cursor lote db db.ultimoMId hc⟩
  | some c =>
    by_cases hall : ∀ m ∈ lote, ∃ n, BigInt (m.get "mId") = some n
    · obtain ⟨db1, maior1, v, hl, hv, hcv, hub, _⟩ :=
        lacoMensagens_maior lote db db.ultimoMId c hc hall
      right; right
      refine ⟨c, v, rfl, hall, ?_, hcv, hub⟩
      rw [hl]
      exact hv
    · have hbad : ∃ m ∈ lote, BigInt (m.get "mId") = none := by
        by_contra hno
        apply hall
        intro m hm
        cases hm1 : BigInt (m.get "mId") with
        | none => exact absurd ⟨m, hm, hm1⟩ hno
        | some n => exact ⟨n, rfl⟩
      right; left
      refine ⟨c, rfl, hbad, ?_⟩
      rw [lacoMensagens_interrompido lote db db.ultimoMId c hc hbad]
      rfl

theorem processadas_congr (a b : JsVal) (lote : List Registro)
    (h : (BigInt a).isSome = (BigInt b).isSome) : processadas a lote = processadas b lote := by
  unfold processadas
  cases ha : BigInt a with
  | none =>
    cases hb : BigInt b with
    | none => rfl
    | some y => rw [ha, hb] at h; cases h
  | some x =>
    cases hb : BigInt b with
    | none => rw [ha, hb] at h; cases h
    | some y => rfl

/-- Replaying a batch leaves the cursor where the first pass put it, and the
second pass processes the same messages as the first. -/
theorem replay_cursor (db : Db) (lote : List Registro) (t1 t2 : String) :
    (buscarMensagens (buscarMensagens db (.itens lote) t1) (.itens lote) t2).ultimoMId
      = (buscarMensagens db (.itens lote) t1).ultimoMId ∧
    processadas (buscarMensagens db (.itens lote) t1).ultimoMId lote
      = processadas db.ultimoMId lote := by
  rcases buscarMensagens_cursor db lote t1 with
    ⟨hc, h1⟩ | ⟨c, hc, hbad, h1⟩ | ⟨c, v, hc, hall, hv, _, hub⟩
  · refine ⟨?_, by rw [h1]⟩
    rcases buscarMensagens_cursor (buscarMensagens db (.itens lote) t1) lote t2 with
      ⟨_, h2⟩ | ⟨_, _, _, h2⟩ | ⟨c2, _, hc2, _⟩
    · exact h2
    · exact h2
    · rw [h1, hc] at hc2
      cases hc2
  · refine ⟨?_, by rw [h1]⟩
    rcases buscarMensagens_cursor (buscarMensagens db (.itens lote) t1) lote t2 with
      ⟨_, h2⟩ | ⟨_, _, _, h2⟩ | ⟨_, _, _, hall2, _⟩
    · exact h2
    · exact h2
    · obtain ⟨m, hm, hmn⟩ := hbad
      obtain ⟨n, hn⟩ := hall2 m hm
      rw [hmn] at hn
      cases hn
  · refine ⟨?_, processadas_congr _ _ _ (by rw [hv, hc]; rfl)⟩
    rw [buscarMensagens_ultimoMId (buscarMensagens db (.itens lote) t1) lote t2]
    obtain ⟨db2, maior2, v2, hl2, _, _, _, hat⟩ :=
      lacoMensagens_maior lote (buscarMensagens db (.itens lote) t1)
        (buscarMensagens db (.itens lote) t1).ultimoMId v hv hall
    rw [hl2]
    rcases hat with ⟨h, _⟩ | ⟨m, hm, _, hmv, hlt⟩
    · exact h
    · have := hub m hm v2 hmv
      omega

/-- Replay of a batch in which no message has an empty `dt` element is
idempotent: processing the batch a second time leaves the cursor, the set of
vehicle ids of the position table (in order) and the record stored under
every id as the first pass left them. -/
theorem replay_idempotente_sem_dt_vazio (db : Db) (lote : List Registro) (t1 t2 : String)
    (hdt : ∀ m ∈ lote, m.get "dt" ≠ .null) :
    (buscarMensagens (buscarMensagens db (.itens lote) t1) (.itens lote) t2).ultimoMId
      = (buscarMensagens db (.itens lote) t1).ultimoMId ∧
    (buscarMensagens (buscarMensagens db (.itens lote) t1) (.itens lote) t2).posicoes.map
        (fun e => e.1)
      = (buscarMensagens db (.itens lote) t1).posicoes.map (fun e => e.1) ∧
    ∀ k,
      Tabela.obter
          (buscarMensagens (buscarMensagens db (.itens lote) t1) (.itens lote) t2).posicoes k
        = Tabela.obter (buscarMensagens db (.itens lote) t1).posicoes k := by
  obtain ⟨hcur, hproc⟩ := replay_cursor db lote t1 t2
  have hsub : ∀ m ∈ processadas db.ultimoMId lote, m.get "dt" ≠ .null := by
    intro m hm
    apply hdt m
    unfold processadas at hm
    cases hb : BigInt db.ultimoMId with
    | none => rw [hb] at hm; cases hm
    | some b =>
      rw [hb] at hm
      exact (List.takeWhile_sublist _).subset hm
  have h2 : (buscarMensagens (buscarMensagens db (.itens lote) t1) (.itens lote) t2).posicoes
      = (processadas db.ultimoMId lote).foldl mesclarPosicao
          ((processadas db.ultimoMId lote).foldl mesclarPosicao db.posicoes) := by
    rw [buscarMensagens_posicoes, hproc, buscarMensagens_posicoes]
  refine ⟨hcur, ?_, ?_⟩
  · rw [h2, buscarMensagens_posicoes]
    exact foldl_mesclarPosicao_chaves _ _ (foldl_mesclarPosicao_presentes _ _)
  · intro k
    rw [h2, buscarMensagens_posicoes, foldl_mesclarPosicao_obter, foldl_mesclarPosicao_obter]
    exact corrida_idempotente _
      (fun m hm => hsub m (List.mem_filter.mp hm).1) _

/-! ## Properties of `buscarCarretas` -/

theorem vincularItem_vinculoDe (up : String → String) (indice : Tabela String)
    (estado : Tabela String × Nat) (c : Registro) :
    vincularItem up indice estado c =
      match vinculoDe up indice c with
      | some l => (Tabela.definir estado.1 l.1 l.2, estado.2 + 1)
      | none => estado := by
  unfold vincularItem vinculoDe
  split
  · rfl
  · cases Tabela.obter indice (normalizarPlaca up (c.get "cavalo").ouVazio) with
    | none => rfl
    | some veiID =>
      by_cases h : veiID ≠ ""
      · simp [h]
      · simp [h]

theorem vincular_contagem (up : String → String) (indice : Tabela String)
    (itens : List Registro) :
    ∀ estado : Tabela String × Nat,
      (itens.foldl (vincularItem up indice) estado).2 =
        estado.2 + (itens.filter (fun c => (vinculoDe up indice c).isSome)).length := by
  induction itens with
  | nil => intro estado; simp
  | cons c r ih =>
    intro estado
    rw [List.foldl_cons, ih, vincularItem_vinculoDe]
    cases h : vinculoDe up indice c with
    | none => simp [h]
    | some l => simp [h]; omega

/-- The count `mapeados` is the number of roster pairs that resolve. -/
theorem mapeados_conta_resolvidos (up : String → String) (veiculos : Tabela Veiculo)
    (itens : List Registro) :
    (vincularCarretas up veiculos itens).2 =
      (itens.filter (fun c => (vinculoDe up (placaParaVeiID up veiculos) c).isSome)).length := by
  unfold vincularCarretas
  rw [vincular_contagem]
  simp

theorem vincular_foldl (up : String → String) (indice : Tabela String)
    (itens : List Registro) :
    ∀ estado : Tabela String × Nat,
      (itens.foldl (vincularItem up indice) estado).1 =
        itens.foldl (fun t c => atribuir t (vinculoDe up indice c)) estado.1 := by
  induction itens with
  | nil => intro estado; rfl
  | cons c r ih =>
    intro estado
    rw [List.foldl_cons, List.foldl_cons, ih, vincularItem_vinculoDe]
    cases vinculoDe up indice c with
    | none => rfl
    | some l => rfl

theorem semNulos_none_de_membro (itens : List (Option Registro)) (h : none ∈ itens) :
    semNulos itens = none := by
  induction itens with
  | nil => simp at h
  | cons x r ih =>
    cases x with
    | none => rfl
    | some c =>
      have hr : none ∈ r := by simpa using h
      simp [semNulos, ih hr]

theorem semNulos_map_some (registros : List Registro) :
    semNulos (registros.map some) = some registros := by
  induction registros with
  | nil => rfl
  | cons c r ih => simp [semNulos, ih]

theorem processarRol_falha (up : String → String) (db : Db)
    (r : Resultado (Option Registro)) (h : TentativaFalha r) : processarRol up db r = none := by
  rcases h with rfl | rfl | rfl | ⟨itens, rfl, hmem⟩
  · rfl
  · rfl
  · rfl
  · cases itens with
    | nil => simp at hmem
    | cons x t => simp [processarRol, semNulos_none_de_membro _ hmem]

theorem lacoCarretas_apos_falhas (up : String → String) (db : Db)
    (antes resto : List (Resultado (Option Registro)))
    (h : ∀ r ∈ antes, TentativaFalha r) :
    lacoCarretas up db (antes ++ resto) = lacoCarretas up db resto := by
  induction antes with
  | nil => rfl
  | cons r t ih =>
    have hr := processarRol_falha up db r (h r (List.mem_cons_self _ _))
    simp only [List.cons_append, lacoCarretas, hr]
    exact ih (fun x hx => h x (List.mem_cons_of_mem _ hx))

/-- C6. For every prior store and every outcome of the roster requests: when
every attempt fails, `buscarCarretas` leaves the store, and so `db.carretas`,
unchanged; and when the first attempt that does not fail brings the roster
`registros`, then if no pair of it resolves to a known vehicle the store is
again unchanged, and if at least one pair resolves, `db.carretas` is replaced
by exactly the map of the links resolved from that roster (the rest of the
store is untouched): every entry of the new map is the link of a pair of the
roster, so no prior entry survives unless the roster resolves it again. -/
theorem buscarCarretas_preserva_ou_substitui (up : String → String) (db : Db)
    (tentativas : Nat) (respostas : Nat → Nat → Resultado (Option Registro)) :
    ((∀ r ∈ tentativasEmOrdem tentativas respostas, TentativaFalha r) →
      buscarCarretas up db tentativas respostas = db) ∧
    (∀ (antes depois : List (Resultado (Option Registro))) (registros : List Registro),
      tentativasEmOrdem tentativas respostas
        = antes ++ Resultado.itens (registros.map some) :: depois →
      (∀ r ∈ antes, TentativaFalha r) →
      ((∀ c ∈ registros, vinculoDe up (placaParaVeiID up db.veiculos) c = none) →
        buscarCarretas up db tentativas respostas = db) ∧
      ((∃ c ∈ registros, (vinculoDe up (placaParaVeiID up db.veiculos) c).isSome) →
        buscarCarretas up db tentativas respostas
          = { db with carretas := (vincularCarretas up db.veiculos registros).1 } ∧
        ∀ id nome, Tabela.obter (vincularCarretas up db.veiculos registros).1 id = some nome →
          ∃ c ∈ registros, vinculoDe up (placaParaVeiID up db.veiculos) c = some (id, nome))) := by
  refine ⟨?_, ?_⟩
  · intro h
    have := lacoCarretas_apos_falhas up db (tentativasEmOrdem tentativas respostas) [] h
    simpa [buscarCarretas, lacoCarretas] using this
  · intro antes depois registros hsplit hantes
    have hlaco : buscarCarretas up db tentativas respostas
        = lacoCarretas up db (Resultado.itens (registros.map some) :: depois) := by
      unfold buscarCarretas
      rw [hsplit]
      exact lacoCarretas_apos_falhas up db antes _ hantes
    have hcount := mapeados_conta_resolvidos up db.veiculos registros
    refine ⟨?_, ?_⟩
    · intro hnone
      have hz : (vincularCarretas up db.veiculos registros).2 = 0 := by
        rw [hcount, List.length_eq_zero, List.filter_eq_nil_iff]
        intro c hc
        simp [hnone c hc]
      rw [hlaco]
      cases registros with
      | nil => rfl
      | cons c t =>
        simp only [lacoCarretas, processarRol, List.map_cons]
        rw [← List.map_cons, semNulos_map_some]
        simp [hz]
    · rintro ⟨c, hc, hsome⟩
      have hpos : (vincularCarretas up db.veiculos registros).2 > 0 := by
        rw [hcount]
        exact List.length_pos_of_mem (List.mem_filter.mpr ⟨hc, hsome⟩)
      refine ⟨?_, ?_⟩
      · rw [hlaco]
        cases registros with
        | nil => simp at hc
        | cons c0 t =>
          simp only [lacoCarretas, processarRol, List.map_cons]
          rw [← List.map_cons, semNulos_map_some]
          simp [hpos]
      · intro id nome hobter
        unfold vincularCarretas at hobter
        rw [vincular_foldl, Tabela.obter_foldl_atribuir] at hobter
        rcases hobter with ⟨antes1, x, depois1, hsplit1, hx, _⟩ | ⟨_, hvazio⟩
        · exact ⟨x, by rw [hsplit1]; simp, hx⟩
        · have hn : (none : Option String) = some nome := hvazio
          cases hn

/-- Witness of C6: the single attempt of the first format throws, the
attempt of the second brings a roster with one resolvable pair, and the
prior link of vehicle 9 is gone from the new map. -/
theorem buscarCarretas_preserva_ou_substitui_witness :
    tentativasEmOrdem 1 respostasSegundoFormato
      = [Resultado.falha] ++ Resultado.itens (rolUmPar.map some) :: [] ∧
    (∃ c ∈ rolUmPar, (vinculoDe maiusculas (placaParaVeiID maiusculas dbPlacasIguais.veiculos) c).isSome) ∧
    buscarCarretas maiusculas dbPlacasIguais 1 respostasSegundoFormato
      = { dbPlacasIguais with
          carretas := (vincularCarretas maiusculas dbPlacasIguais.veiculos rolUmPar).1 } ∧
    (vincularCarretas maiusculas dbPlacasIguais.veiculos rolUmPar).1 = [("2", "T1")] :=
  have hres : ∃ c ∈ rolUmPar,
      (vinculoDe maiusculas (placaParaVeiID maiusculas dbPlacasIguais.veiculos) c).isSome :=
    ⟨[("cavalo", .str "abc-1234"), ("carreta", .str "T1")], by simp [rolUmPar], by decide⟩
  ⟨rfl, hres,
   (((buscarCarretas_preserva_ou_substitui maiusculas dbPlacasIguais 1
      respostasSegundoFormato).2 [Resultado.falha] [] rolUmPar rfl
      (by intro r hr; simp at hr; subst hr; exact Or.inl rfl)).2 hres).1,
   by decide⟩

theorem placaParaVeiID_foldl (up : String → String) (veiculos : Tabela Veiculo) :
    placaParaVeiID up veiculos =
      (Tabela.entradas veiculos).foldl (fun t e => atribuir t (escritaNoIndice up e)) [] := by
  unfold placaParaVeiID
  congr 1
  funext t e
  unfold escritaNoIndice
  by_cases h : e.2.placa ≠ ""
  · simp [h, atribuir]
  · simp [h, atribuir]

/-- What the plate index holds under a plate: the id of the last vehicle in
enumeration order whose non-empty plate normalises to it. -/
theorem placaParaVeiID_obter (up : String → String) (veiculos : Tabela Veiculo)
    (p id : String) :
    Tabela.obter (placaParaVeiID up veiculos) p = some id ↔
      ∃ antes e depois, Tabela.entradas veiculos = antes ++ e :: depois ∧
        e.1 = id ∧ e.2.placa ≠ "" ∧ normalizarPlaca up e.2.placa = p ∧
        ∀ e1 ∈ depois, ¬ (e1.2.placa ≠ "" ∧ normalizarPlaca up e1.2.placa = p) := by
  rw [placaParaVeiID_foldl, Tabela.obter_foldl_atribuir]
  have hesc : ∀ (e : String × Veiculo) (w : String),
      escritaNoIndice up e = some (p, w) ↔
        (e.1 = w ∧ e.2.placa ≠ "" ∧ normalizarPlaca up e.2.placa = p) := by
    intro e w
    unfold escritaNoIndice
    by_cases h : e.2.placa ≠ ""
    · rw [if_pos h]
      simp only [Option.some.injEq, Prod.mk.injEq]
      constructor
      · rintro ⟨h1, h2⟩
        exact ⟨h2, h, h1⟩
      · rintro ⟨h1, _, h2⟩
        exact ⟨h2, h1⟩
    · rw [if_neg h]
      constructor
      · intro hc; cases hc
      · rintro ⟨_, h2, _⟩
        exact absurd h2 h
  constructor
  · rintro (⟨antes, e, depois, hsplit, he, hdep⟩ | ⟨_, hvazio⟩)
    · obtain ⟨h1, h2, h3⟩ := (hesc e id).mp he
      refine ⟨antes, e, depois, hsplit, h1, h2, h3, ?_⟩
      intro e1 he1 hcontra
      exact hdep e1 he1 e1.1 ((hesc e1 e1.1).mpr ⟨rfl, hcontra.1, hcontra.2⟩)
    · have hn : (none : Option String) = some id := hvazio
      cases hn
  · rintro ⟨antes, e, depois, hsplit, h1, h2, h3, hdep⟩
    refine Or.inl ⟨antes, e, depois, hsplit, (hesc e id).mpr ⟨h1, h2, h3⟩, ?_⟩
    intro e1 he1 w hw
    obtain ⟨_, h5, h6⟩ := (hesc e1 w).mp hw
    exact hdep e1 he1 ⟨h5, h6⟩

/-- A roster pair yields the link `(id, nome)` exactly when it resolves to
`id` through the plate index and `nome` is its trailer name. -/
theorem vinculoDe_resolve (up : String → String) (veiculos : Tabela Veiculo)
    (c : Registro) (id nome : String) :
    vinculoDe up (placaParaVeiID up veiculos) c = some (id, nome) ↔
      ParResolve up veiculos c id ∧ nome = (c.get "carreta").ouVazio := by
  unfold vinculoDe ParResolve
  by_cases hvaz : normalizarPlaca up (c.get "cavalo").ouVazio = "" ∨ (c.get "carreta").ouVazio = ""
  · simp only [hvaz, if_true]
    constructor
    · intro h; cases h
    · rintro ⟨⟨h1, h2, _⟩, _⟩
      rcases hvaz with h | h
      · exact absurd h h1
      · exact absurd h h2
  · simp only [hvaz, if_false]
    have hne := not_or.mp hvaz
    cases hidx : Tabela.obter (placaParaVeiID up veiculos)
        (normalizarPlaca up (c.get "cavalo").ouVazio) with
    | none =>
      constructor
      · intro h; cases h
      · rintro ⟨⟨_, _, _, hex⟩, _⟩
        have := (placaParaVeiID_obter up veiculos _ id).mpr hex
        rw [hidx] at this
        cases this
    | some veiID =>
      have hiff := placaParaVeiID_obter up veiculos
        (normalizarPlaca up (c.get "cavalo").ouVazio) veiID
      by_cases hid : veiID ≠ ""
      · dsimp only
        rw [if_pos hid]
        simp only [Option.some.injEq, Prod.mk.injEq]
        constructor
        · rintro ⟨rfl, rfl⟩
          exact ⟨⟨hne.1, hne.2, hid, hiff.mp hidx⟩, rfl⟩
        · rintro ⟨⟨_, _, _, hex⟩, rfl⟩
          have := (placaParaVeiID_obter up veiculos _ id).mpr hex
          rw [hidx] at this
          cases this
          exact ⟨rfl, rfl⟩
      · dsimp only
        rw [if_neg hid]
        constructor
        · intro h; cases h
        · rintro ⟨⟨_, _, hidne, hex⟩, _⟩
          have := (placaParaVeiID_obter up veiculos _ id).mpr hex
          rw [hidx] at this
          cases this
          exact absurd hidne hid

/-- C7 (amended). The map of resolved links holds `id -> nome` exactly when
some roster pair with non-empty normalised tractor plate and non-empty
trailer name resolves to `id` through the plate index (`id` is non-empty and
is the last vehicle enumerated among the known vehicles whose non-empty plate,
stripped of hyphens and upper-cased, equals the pair's plate normalised
likewise), `nome` is that pair's trailer name, and no later pair of the
roster resolves to `id`: pairs that resolve to no vehicle contribute nothing
and the last pair in roster order wins. -/
theorem vinculos_resolvidos (up : String → String) (veiculos : Tabela Veiculo)
    (registros : List Registro) (id nome : String) :
    Tabela.obter (vincularCarretas up veiculos registros).1 id = some nome ↔
      ∃ antes c depois, registros = antes ++ c :: depois ∧
        ParResolve up veiculos c id ∧ nome = (c.get "carreta").ouVazio ∧
        ∀ c1 ∈ depois, ¬ ParResolve up veiculos c1 id := by
  unfold vincularCarretas
  rw [vincular_foldl, Tabela.obter_foldl_atribuir]
  constructor
  · rintro (⟨antes, c, depois, hsplit, hc, hdep⟩ | ⟨_, hvazio⟩)
    · obtain ⟨h1, h2⟩ := (vinculoDe_resolve up veiculos c id nome).mp hc
      refine ⟨antes, c, depois, hsplit, h1, h2, ?_⟩
      intro c1 hc1 hres
      exact hdep c1 hc1 _ ((vinculoDe_resolve up veiculos c1 id _).mpr ⟨hres, rfl⟩)
    · have hn : (none : Option String) = some nome := hvazio
      cases hn
  · rintro ⟨antes, c, depois, hsplit, h1, h2, hdep⟩
    refine Or.inl ⟨antes, c, depois, hsplit,
      (vinculoDe_resolve up veiculos c id nome).mpr ⟨h1, h2⟩, ?_⟩
    intro c1 hc1 w hw
    exact hdep c1 hc1 ((vinculoDe_resolve up veiculos c1 id w).mp hw).1

/-- C7 (counterexample, the rule read plate by plate). Two known vehicles,
1 and 2, have plates that normalise to the same text, and the roster has one
pair for that plate: the pair matches vehicle 1, yet the resolved map has
no link for vehicle 1 (the index holds vehicle 2 for the plate). -/
theorem vinculos_placa_repetida :
    ¬ (∀ (up : String → String) (veiculos : Tabela Veiculo) (registros : List Registro)
        (id nome : String),
        Tabela.obter (vincularCarretas up veiculos registros).1 id = some nome ↔
          ∃ antes c depois, registros = antes ++ c :: depois ∧
            ParCasa up veiculos c id ∧ nome = (c.get "carreta").ouVazio ∧
            ∀ c1 ∈ depois, ¬ ParCasa up veiculos c1 id) := by
  intro h
  have hcasa : ∃ antes c depois, rolUmPar = antes ++ c :: depois ∧
      ParCasa maiusculas dbPlacasIguais.veiculos c "1" ∧ "T1" = (c.get "carreta").ouVazio ∧
      ∀ c1 ∈ depois, ¬ ParCasa maiusculas dbPlacasIguais.veiculos c1 "1" :=
    ⟨[], [("cavalo", .str "abc-1234"), ("carreta", .str "T1")], [], rfl,
      ⟨by decide, by decide, veiculoDe "1" "ABC-1234", rfl, by decide⟩, rfl, by simp⟩
  have hmapa := (h maiusculas dbPlacasIguais.veiculos rolUmPar "1" "T1").mpr hcasa
  revert hmapa
  decide

/-! ## Properties of `montarDadosFrota` -/

theorem contar_veiculos (ac : Acumulado) (c : Contador) : (contar ac c).veiculos = ac.veiculos := by
  cases c <;> rfl

theorem foldl_passoFrota_veiculos (db : Db) (ids : List String) :
    ∀ ac : Acumulado,
      (ids.foldl (passoFrota db) ac).veiculos = ac.veiculos ++ ids.map (registroDe db) := by
  induction ids with
  | nil => intro ac; simp
  | cons k r ih =>
    intro ac
    rw [List.foldl_cons, ih]
    simp [passoFrota, contar_veiculos]

/-- The vehicles of the fleet view are the records pushed for the ids of
`todosIDs`, rearranged by the sort. -/
theorem veiculos_perm (lc : String → String → Int) (db : Db) :
    ((montarDadosFrota lc db).veiculos).Perm ((todosIDs db).map (registroDe db)) := by
  have h := foldl_passoFrota_veiculos db (todosIDs db) ⟨[], 0, 0, 0, 0, 0⟩
  simp only [List.nil_append] at h
  unfold montarDadosFrota ordenarVeiculos
  simp only [h]
  exact List.perm_insertionSort _ _

theorem veiculo_da_saida (lc : String → String → Int) (db : Db) (v : VeiculoSaida)
    (hv : v ∈ (montarDadosFrota lc db).veiculos) : v = registroDe db v.veiID := by
  have hmem := (veiculos_perm lc db).mem_iff.mp hv
  obtain ⟨id, _, rfl⟩ := List.mem_map.mp hmem
  rfl

theorem status_da_saida (lc : String → String → Int) (db : Db) (v : VeiculoSaida)
    (hv : v ∈ (montarDadosFrota lc db).veiculos) :
    v.status = (situacaoDe (Tabela.obter db.posicoes v.veiID)).status := by
  rw [veiculo_da_saida lc db v hv]
  rfl

/-- The status chain on a position with a timestamp. -/
theorem situacaoDe_precedencia (pos : Posicao) (hdt : pos.dataHora ≠ "") :
    ((∃ vel, pos.velocidade = some vel ∧ vel > 0) →
      (situacaoDe (some pos)).status = "em-movimento") ∧
    (¬ (∃ vel, pos.velocidade = some vel ∧ vel > 0) →
      (pos.ignicao = some true → (situacaoDe (some pos)).status = "ign-ligada") ∧
      (pos.ignicao = some false → (situacaoDe (some pos)).status = "parado") ∧
      (pos.ignicao = none → (situacaoDe (some pos)).status = "indeterminado")) := by
  unfold situacaoDe
  simp only [hdt, ne_eq, not_false_eq_true, if_true]
  refine ⟨?_, ?_⟩
  · rintro ⟨vel, hvel, hgt⟩
    simp [hvel, hgt]
  · intro hnot
    have hign : (match pos.velocidade with
        | some vel =>
          if vel > 0 then
            (⟨"em-movimento", "Em Movimento (" ++ toString vel ++ " km/h)", "#10b981",
              .emMovimento⟩ : Situacao)
          else situacaoPorIgnicao pos.ignicao
        | none => situacaoPorIgnicao pos.ignicao) = situacaoPorIgnicao pos.ignicao := by
      cases hvel : pos.velocidade with
      | none => rfl
      | some vel =>
        have : ¬ vel > 0 := fun hgt => hnot ⟨vel, hvel, hgt⟩
        simp [this]
    rw [hign]
    refine ⟨?_, ?_, ?_⟩ <;> intro h <;> rw [h] <;> rfl

/-- C8. For every vehicle of the fleet view that has a position with a
(non-empty) timestamp, the status follows the precedence: `em-movimento` when
the speed is not null and above zero; otherwise `ign-ligada` when the ignition
is true; otherwise `parado` when it is false; otherwise `indeterminado`. -/
theorem status_segue_precedencia (lc : String → String → Int) (db : Db) (v : VeiculoSaida)
    (pos : Posicao)
    (hv : v ∈ (montarDadosFrota lc db).veiculos)
    (hpos : Tabela.obter db.posicoes v.veiID = some pos)
    (hdt : pos.dataHora ≠ "") :
    ((∃ vel, pos.velocidade = some vel ∧ vel > 0) → v.status = "em-movimento") ∧
    (¬ (∃ vel, pos.velocidade = some vel ∧ vel > 0) →
      (pos.ignicao = some true → v.status = "ign-ligada") ∧
      (pos.ignicao = some false → v.status = "parado") ∧
      (pos.ignicao = none → v.status = "indeterminado")) := by
  rw [status_da_saida lc db v hv, hpos]
  exact situacaoDe_precedencia pos hdt

/-- Witness of C8: speed 45 with ignition on is `em-movimento`, no speed with
ignition on is `ign-ligada`, speed 0 with ignition off is `parado`. -/
theorem status_segue_precedencia_witness :
    registroDe dbTresVeiculos "7" ∈ (montarDadosFrota porComprimento dbTresVeiculos).veiculos ∧
    (registroDe dbTresVeiculos "7").status = "em-movimento" ∧
    (registroDe dbTresVeiculos "8").status = "ign-ligada" ∧
    (registroDe dbTresVeiculos "9").status = "parado" :=
  have h7 : registroDe dbTresVeiculos "7"
      ∈ (montarDadosFrota porComprimento dbTresVeiculos).veiculos :=
    (veiculos_perm porComprimento dbTresVeiculos).mem_iff.mpr
      (List.mem_map.mpr ⟨"7", by decide, rfl⟩)
  have h8 : registroDe dbTresVeiculos "8"
      ∈ (montarDadosFrota porComprimento dbTresVeiculos).veiculos :=
    (veiculos_perm porComprimento dbTresVeiculos).mem_iff.mpr
      (List.mem_map.mpr ⟨"8", by decide, rfl⟩)
  have h9 : registroDe dbTresVeiculos "9"
      ∈ (montarDadosFrota porComprimento dbTresVeiculos).veiculos :=
    (veiculos_perm porComprimento dbTresVeiculos).mem_iff.mpr
      (List.mem_map.mpr ⟨"9", by decide, rfl⟩)
  ⟨h7,
   (status_segue_precedencia porComprimento dbTresVeiculos _
      (montarPosicao [("mId", .str "2"), ("veiID", .str "7"), ("dt", .str "2024-05-02 10:00:00"),
        ("vel", .str "45"), ("evt4", .str "1"), ("placa", .str "ABC1D23")])
      h7 rfl (by decide)).1 ⟨45, by decide, by decide⟩,
   ((status_segue_precedencia porComprimento dbTresVeiculos _
      (montarPosicao [("mId", .str "3"), ("veiID", .str "8"), ("dt", .str "2024-05-02 10:00:01"),
        ("evt4", .str "1")])
      h8 rfl (by decide)).2
      (by
        rintro ⟨vel, hvel, _⟩
        have h0 : (montarPosicao [("mId", .str "3"), ("veiID", .str "8"),
            ("dt", .str "2024-05-02 10:00:01"), ("evt4", .str "1")]).velocidade = none := by
          decide
        rw [h0] at hvel
        cases hvel)).1 (by decide),
   ((status_segue_precedencia porComprimento dbTresVeiculos _
      (montarPosicao [("mId", .str "4"), ("veiID", .str "9"), ("dt", .str "2024-05-02 10:00:02"),
        ("vel", .str "0"), ("evt4", .str "0"), ("placa", .str "XY")])
      h9 rfl (by decide)).2
      (by
        rintro ⟨vel, hvel, hgt⟩
        have h0 : (montarPosicao [("mId", .str "4"), ("veiID", .str "9"),
            ("dt", .str "2024-05-02 10:00:02"), ("vel", .str "0"), ("evt4", .str "0"),
            ("placa", .str "XY")]).velocidade = some 0 := by decide
        rw [h0] at hvel
        cases hvel
        exact absurd hgt (by decide))).2.1 (by decide)⟩

theorem situacaoPorIgnicao_nao_sem_sinal (ign : Option Bool) :
    (situacaoPorIgnicao ign).status ≠ "sem-sinal" := by
  cases ign with
  | none => decide
  | some b => cases b <;> decide

theorem situacaoDe_sem_sinal (pos : Option Posicao) :
    (situacaoDe pos).status = "sem-sinal" ↔
      (pos = none ∨ ∃ p, pos = some p ∧ p.dataHora = "") := by
  cases pos with
  | none => simp [situacaoDe]
  | some p =>
    by_cases hdt : p.dataHora = ""
    · simp [situacaoDe, hdt]
    · have hne : (situacaoDe (some p)).status ≠ "sem-sinal" := by
        unfold situacaoDe
        simp only [ne_eq, hdt, not_false_eq_true, if_true]
        cases p.velocidade with
        | none => exact situacaoPorIgnicao_nao_sem_sinal _
        | some vel =>
          by_cases hgt : vel > 0
          · simp only [hgt, if_true]
            decide
          · simp only [hgt, if_false]
            exact situacaoPorIgnicao_nao_sem_sinal _
      simp [hne, hdt]

/-- C9 (counterexample). After a fetch that brought one message with no `dt`
field, vehicle 7 has a position record (with an empty `dataHora`) and its
status in the fleet view is `sem-sinal`: the status `sem-sinal` is not
confined to vehicles without a position record. -/
theorem sem_sinal_com_registro_de_posicao :
    ¬ (∀ (lc : String → String → Int) (db : Db) (v : VeiculoSaida),
        v ∈ (montarDadosFrota lc db).veiculos →
        (v.status = "sem-sinal" ↔ Tabela.obter db.posicoes v.veiID = none)) := by
  intro h
  have hv : registroDe dbSemDt "7" ∈ (montarDadosFrota porComprimento dbSemDt).veiculos :=
    (veiculos_perm porComprimento dbSemDt).mem_iff.mpr
      (List.mem_map.mpr ⟨"7", by decide, rfl⟩)
  have hnone := (h porComprimento dbSemDt _ hv).mp (by decide)
  have hsome : (Tabela.obter dbSemDt.posicoes "7").isSome = true := by decide
  rw [show (registroDe dbSemDt "7").veiID = "7" from rfl] at hnone
  rw [hnone] at hsome
  cases hsome

/-- C9 (amended). A vehicle of the fleet view has status `sem-sinal` exactly
when it has no position record or its position record has an empty
`dataHora`; a vehicle whose position record has a timestamp, unknown ignition
and no speed above zero has status `indeterminado`. -/
theorem sem_sinal_sse_sem_posicao_datada (lc : String → String → Int) (db : Db)
    (v : VeiculoSaida) (hv : v ∈ (montarDadosFrota lc db).veiculos) :
    (v.status = "sem-sinal" ↔
      (Tabela.obter db.posicoes v.veiID = none ∨
        ∃ pos, Tabela.obter db.posicoes v.veiID = some pos ∧ pos.dataHora = "")) ∧
    (∀ pos, Tabela.obter db.posicoes v.veiID = some pos → pos.dataHora ≠ "" →
      pos.ignicao = none → ¬ (∃ vel, pos.velocidade = some vel ∧ vel > 0) →
      v.status = "indeterminado") := by
  have hst := status_da_saida lc db v hv
  refine ⟨?_, ?_⟩
  · rw [hst]
    exact situacaoDe_sem_sinal _
  · intro pos hpos hdt hign hvel
    rw [hst, hpos]
    exact ((situacaoDe_precedencia pos hdt).2 hvel).2.2 hign

/-- Witness of C9 (amended): vehicle 7, whose position has an empty
`dataHora`, has status `sem-sinal`. -/
theorem sem_sinal_sse_sem_posicao_datada_witness :
    registroDe dbSemDt "7" ∈ (montarDadosFrota porComprimento dbSemDt).veiculos ∧
    ((registroDe dbSemDt "7").status = "sem-sinal" ↔
      (Tabela.obter dbSemDt.posicoes "7" = none ∨
        ∃ pos, Tabela.obter dbSemDt.posicoes "7" = some pos ∧ pos.dataHora = "")) ∧
    (registroDe dbSemDt "7").status = "sem-sinal" :=
  have hv : registroDe dbSemDt "7" ∈ (montarDadosFrota porComprimento dbSemDt).veiculos :=
    (veiculos_perm porComprimento dbSemDt).mem_iff.mpr
      (List.mem_map.mpr ⟨"7", by decide, rfl⟩)
  ⟨hv, (sem_sinal_sse_sem_posicao_datada porComprimento dbSemDt _ hv).1, by decide⟩

theorem compararPlacas_total (lc : String → String → Int)
    (htotal : ∀ a b, lc a b ≤ 0 ∨ lc b a ≤ 0) (a b : VeiculoSaida) :
    compararPlacas lc a b ≤ 0 ∨ compararPlacas lc b a ≤ 0 := by
  unfold compararPlacas
  by_cases ha : a.placa = "" <;> by_cases hb : b.placa = "" <;> simp [ha, hb]
  exact htotal _ _

theorem compararPlacas_trans (lc : String → String → Int)
    (htrans : ∀ a b c, lc a b ≤ 0 → lc b c ≤ 0 → lc a c ≤ 0) (a b c : VeiculoSaida)
    (hab : compararPlacas lc a b ≤ 0) (hbc : compararPlacas lc b c ≤ 0) :
    compararPlacas lc a c ≤ 0 := by
  unfold compararPlacas at *
  by_cases ha : a.placa = "" <;> by_cases hb : b.placa = "" <;> by_cases hc : c.placa = "" <;>
    simp [ha, hb, hc] at hab hbc ⊢
  exact htrans _ _ _ hab hbc

/-- C10. For a collation `localeCompare` that is a consistent comparator
(any two strings are comparable and the order is transitive) and every store,
the vehicles of the fleet view are sorted by plate ascending with the
plateless last: a vehicle with an empty plate is followed only by vehicles
with an empty plate, and of any two vehicles with non-empty plates the
earlier one does not compare above the later one (in particular for adjacent
vehicles). -/
theorem veiculos_ordenados_por_placa (lc : String → String → Int) (db : Db)
    (htotal : ∀ a b, lc a b ≤ 0 ∨ lc b a ≤ 0)
    (htrans : ∀ a b c, lc a b ≤ 0 → lc b c ≤ 0 → lc a c ≤ 0) :
    List.Pairwise (fun a b => a.placa = "" → b.placa = "")
      (montarDadosFrota lc db).veiculos ∧
    List.Pairwise (fun a b => a.placa ≠ "" → b.placa ≠ "" → lc a.placa b.placa ≤ 0)
      (montarDadosFrota lc db).veiculos ∧
    List.Chain' (fun a b => a.placa ≠ "" → b.placa ≠ "" → lc a.placa b.placa ≤ 0)
      (montarDadosFrota lc db).veiculos := by
  haveI : IsTotal VeiculoSaida (fun a b => compararPlacas lc a b ≤ 0) :=
    ⟨compararPlacas_total lc htotal⟩
  haveI : IsTrans VeiculoSaida (fun a b => compararPlacas lc a b ≤ 0) :=
    ⟨compararPlacas_trans lc htrans⟩
  have hsorted : List.Pairwise (fun a b => compararPlacas lc a b ≤ 0)
      (montarDadosFrota lc db).veiculos := by
    unfold montarDadosFrota ordenarVeiculos
    exact List.sorted_insertionSort (fun a b => compararPlacas lc a b ≤ 0) _
  have h1 : List.Pairwise (fun a b => a.placa = "" → b.placa = "")
      (montarDadosFrota lc db).veiculos := by
    refine hsorted.imp ?_
    intro a b hab ha
    by_contra hb
    simp [compararPlacas, ha, hb] at hab
  have h2 : List.Pairwise (fun a b => a.placa ≠ "" → b.placa ≠ "" → lc a.placa b.placa ≤ 0)
      (montarDadosFrota lc db).veiculos := by
    refine hsorted.imp ?_
    intro a b hab ha hb
    simpa [compararPlacas, ha, hb] using hab
  exact ⟨h1, h2, h2.chain'⟩

/-- Witness of C10: with strings compared by length, the three vehicles come
out with the shorter plate first and the plateless vehicle last. -/
theorem veiculos_ordenados_por_placa_witness :
    (∀ a b, porComprimento a b ≤ 0 ∨ porComprimento b a ≤ 0) ∧
    (∀ a b c, porComprimento a b ≤ 0 → porComprimento b c ≤ 0 → porComprimento a c ≤ 0) ∧
    List.Pairwise (fun a b => a.placa = "" → b.placa = "")
      (montarDadosFrota porComprimento dbTresVeiculos).veiculos ∧
    (montarDadosFrota porComprimento dbTresVeiculos).veiculos.map (fun v => (v.veiID, v.placa))
      = [("9", "XY"), ("7", "ABC1D23"), ("8", "")] :=
  have htotal : ∀ a b, porComprimento a b ≤ 0 ∨ porComprimento b a ≤ 0 := by
    intro a b
    unfold porComprimento
    omega
  have htrans : ∀ a b c, porComprimento a b ≤ 0 → porComprimento b c ≤ 0 →
      porComprimento a c ≤ 0 := by
    intro a b c
    unfold porComprimento
    omega
  ⟨htotal, htrans,
   (veiculos_ordenados_por_placa porComprimento dbTresVeiculos htotal htrans).1, by decide⟩

/-! ## Totals and counters of the fleet view -/

theorem Tabela.entradas_perm {α : Type} (t : Tabela α) : (Tabela.entradas t).Perm t := by
  unfold Tabela.entradas
  have h1 := List.perm_insertionSort
    (fun a b : String × α => (indiceArray a.1).getD 0 ≤ (indiceArray b.1).getD 0)
    (t.filter (fun e => (indiceArray e.1).isSome))
  have h2 : (t.filter (fun e => (indiceArray e.1).isNone)) =
      t.filter (fun e => ! (indiceArray e.1).isSome) := by
    congr 1
    funext e
    cases indiceArray e.1 <;> rfl
  rw [h2]
  exact (h1.append_right _).trans (List.filter_append_perm _ t)

theorem Tabela.chaves_perm {α : Type} (t : Tabela α) :
    (Tabela.chaves t).Perm (t.map (fun e => e.1)) :=
  (Tabela.entradas_perm t).map _

theorem Tabela.mem_map_sse_obter {α : Type} (t : Tabela α) (k : String) :
    k ∈ t.map (fun e => e.1) ↔ (Tabela.obter t k).isSome = true := by
  induction t with
  | nil => simp [Tabela.obter]
  | cons e r ih =>
    obtain ⟨k1, v1⟩ := e
    by_cases h : k1 = k
    · simp [Tabela.obter, h]
    · have h2 : ¬ k = k1 := fun x => h x.symm
      simp [Tabela.obter, h, h2, ih]

theorem Tabela.mem_chaves {α : Type} (t : Tabela α) (k : String) :
    k ∈ Tabela.chaves t ↔ (Tabela.obter t k).isSome = true := by
  rw [(Tabela.chaves_perm t).mem_iff, Tabela.mem_map_sse_obter]

theorem mem_semRepetidos (l : List String) (x : String) : x ∈ semRepetidos l ↔ x ∈ l := by
  induction l with
  | nil => simp [semRepetidos]
  | cons k r ih =>
    by_cases h : x = k
    · simp [semRepetidos, h]
    · simp [semRepetidos, h, ih]

theorem nodup_semRepetidos (l : List String) : (semRepetidos l).Nodup := by
  induction l with
  | nil => simp [semRepetidos]
  | cons k r ih =>
    simp only [semRepetidos, List.nodup_cons]
    refine ⟨?_, ih.filter _⟩
    simp

theorem length_semRepetidos (l : List String) : (semRepetidos l).length = l.toFinset.card := by
  rw [← List.toFinset_card_of_nodup (nodup_semRepetidos l)]
  congr 1
  ext x
  simp [mem_semRepetidos]
/-- C11. The fleet view has exactly one entry for each id in the union of the
keys of `db.veiculos` and of `db.posicoes`, and no other entry: the ids of
its entries are pairwise distinct, an id occurs among them exactly when it is
a key of one of the two tables, the entry of an id is the record built for
that id, and `estatisticas.total` is the size of the union of the two key
sets. -/
theorem veiculos_um_por_id (lc : String → String → Int) (db : Db) :
    ((montarDadosFrota lc db).veiculos.map (fun v => v.veiID)).Nodup ∧
    (∀ id, id ∈ (montarDadosFrota lc db).veiculos.map (fun v => v.veiID) ↔
      (id ∈ db.veiculos.map (fun e => e.1) ∨ id ∈ db.posicoes.map (fun e => e.1))) ∧
    (∀ v ∈ (montarDadosFrota lc db).veiculos, v = registroDe db v.veiID) ∧
    (montarDadosFrota lc db).estatisticas.total =
      ((db.veiculos.map (fun e => e.1)).toFinset ∪
        (db.posicoes.map (fun e => e.1)).toFinset).card := by
  have hperm := veiculos_perm lc db
  have hids : ((montarDadosFrota lc db).veiculos.map (fun v => v.veiID)).Perm (todosIDs db) := by
    have h := hperm.map (fun v => v.veiID)
    rw [List.map_map] at h
    have hid : ((fun v : VeiculoSaida => v.veiID) ∘ registroDe db) = id := by
      funext k
      rfl
    rw [hid, List.map_id] at h
    exact h
  have hmem : ∀ id, id ∈ todosIDs db ↔
      (id ∈ db.veiculos.map (fun e => e.1) ∨ id ∈ db.posicoes.map (fun e => e.1)) := by
    intro id
    unfold todosIDs
    rw [mem_semRepetidos, List.mem_append, (Tabela.chaves_perm db.veiculos).mem_iff,
      (Tabela.chaves_perm db.posicoes).mem_iff]
  refine ⟨hids.nodup_iff.mpr (nodup_semRepetidos _), ?_, ?_, ?_⟩
  · intro id
    rw [hids.mem_iff, hmem]
  · intro v hv
    exact veiculo_da_saida lc db v hv
  · have htot : (montarDadosFrota lc db).estatisticas.total
        = (montarDadosFrota lc db).veiculos.length := rfl
    rw [htot, hperm.length_eq, List.length_map]
    unfold todosIDs
    rw [length_semRepetidos]
    congr 1
    ext x
    simp only [List.mem_toFinset, List.mem_append, Finset.mem_union,
      (Tabela.chaves_perm db.veiculos).mem_iff, (Tabela.chaves_perm db.posicoes).mem_iff]

theorem contar_totalAlertas (ac : Acumulado) (c : Contador) :
    (contar ac c).totalAlertas = ac.totalAlertas := by
  cases c <;> rfl

theorem foldl_passoFrota_totalAlertas (db : Db) (ids : List String) :
    ∀ ac : Acumulado,
      (ids.foldl (passoFrota db) ac).totalAlertas = ac.totalAlertas +
        (ids.map (fun id => ((registroDe db id).eventos.filter
          (fun a => a.severity ≠ "info")).length)).sum := by
  induction ids with
  | nil => intro ac; simp
  | cons k r ih =>
    intro ac
    rw [List.foldl_cons, ih]
    simp only [passoFrota, contar_totalAlertas, List.map_cons, List.sum_cons]
    rw [Nat.add_assoc]
    rfl

theorem foldl_soma {α : Type} (f : α → Nat) (l : List α) :
    ∀ n : Nat, l.foldl (fun n v => n + f v) n = n + (l.map f).sum := by
  induction l with
  | nil => intro n; simp
  | cons a r ih =>
    intro n
    rw [List.foldl_cons, ih]
    simp [Nat.add_assoc]

theorem soma_congr {α : Type} (f g : α → Nat) (l : List α) (h : ∀ x ∈ l, f x = g x) :
    (l.map f).sum = (l.map g).sum := by
  rw [List.map_congr_left h]

/-- C12. In the fleet view, `estatisticas.alertas` is the number of events
whose severity is not `info`, summed over the vehicles of the output, and
`estatisticas.alertasCriticos` and `estatisticas.alertasAltos` are the numbers
of events of severity `critico` and `alto`, summed over the same vehicles. -/
theorem alertas_somam_sobre_a_frota (lc : String → String → Int) (db : Db) :
    (montarDadosFrota lc db).estatisticas.alertas =
      ((montarDadosFrota lc db).veiculos.map
        (fun v => (v.eventos.filter (fun a => a.severity ≠ "info")).length)).sum ∧
    (montarDadosFrota lc db).estatisticas.alertasCriticos =
      ((montarDadosFrota lc db).veiculos.map
        (fun v => (v.eventos.filter (fun a => a.severity = "critico")).length)).sum ∧
    (montarDadosFrota lc db).estatisticas.alertasAltos =
      ((montarDadosFrota lc db).veiculos.map
        (fun v => (v.eventos.filter (fun a => a.severity = "alto")).length)).sum := by
  have hperm := veiculos_perm lc db
  refine ⟨?_, ?_, ?_⟩
  · have h1 : (montarDadosFrota lc db).estatisticas.alertas =
        ((todosIDs db).foldl (passoFrota db) ⟨[], 0, 0, 0, 0, 0⟩).totalAlertas := rfl
    rw [h1, foldl_passoFrota_totalAlertas, (hperm.map _).sum_eq, List.map_map]
    simp only [Nat.zero_add]
    rfl
  · have h1 : (montarDadosFrota lc db).estatisticas.alertasCriticos =
        (montarDadosFrota lc db).veiculos.foldl (fun n v => n + v.alertaCritico) 0 := rfl
    rw [h1, foldl_soma, Nat.zero_add]
    apply soma_congr
    intro v hv
    rw [veiculo_da_saida lc db v hv]
    rfl
  · have h1 : (montarDadosFrota lc db).estatisticas.alertasAltos =
        (montarDadosFrota lc db).veiculos.foldl (fun n v => n + v.alertaAlto) 0 := rfl
    rw [h1, foldl_soma, Nat.zero_add]
    apply soma_congr
    intro v hv
    rw [veiculo_da_saida lc db v hv]
    rfl

/-- The counter a vehicle increments, read off its status. -/
theorem situacaoDe_contador (pos : Option Posicao) :
    ((situacaoDe pos).contador = .emMovimento ↔ (situacaoDe pos).status = "em-movimento") ∧
    ((situacaoDe pos).contador = .ignicaoLigada ↔ (situacaoDe pos).status = "ign-ligada") ∧
    ((situacaoDe pos).contador = .parado ↔ (situacaoDe pos).status = "parado") ∧
    ((situacaoDe pos).contador = .semSinal ↔
      ((situacaoDe pos).status = "sem-sinal" ∨ (situacaoDe pos).status = "indeterminado")) := by
  unfold situacaoDe
  cases pos with
  | none => decide
  | some p =>
    dsimp only
    split
    · cases p.velocidade with
      | none =>
        dsimp only
        cases p.ignicao with
        | none => decide
        | some b => cases b <;> decide
      | some vel =>
        dsimp only
        split
        · simp
        · cases p.ignicao with
          | none => decide
          | some b => cases b <;> decide
    · decide

theorem foldl_passoFrota_contadores (db : Db) (ids : List String) :
    ∀ ac : Acumulado,
      (ids.foldl (passoFrota db) ac).emMovimento = ac.emMovimento +
        ids.countP (fun id => (situacaoDe (Tabela.obter db.posicoes id)).contador = .emMovimento) ∧
      (ids.foldl (passoFrota db) ac).ignicaoLigadaCount = ac.ignicaoLigadaCount +
        ids.countP (fun id => (situacaoDe (Tabela.obter db.posicoes id)).contador = .ignicaoLigada) ∧
      (ids.foldl (passoFrota db) ac).paradoCount = ac.paradoCount +
        ids.countP (fun id => (situacaoDe (Tabela.obter db.posicoes id)).contador = .parado) ∧
      (ids.foldl (passoFrota db) ac).semSinalCount = ac.semSinalCount +
        ids.countP (fun id => (situacaoDe (Tabela.obter db.posicoes id)).contador = .semSinal) := by
  induction ids with
  | nil => intro ac; simp
  | cons k r ih =>
    intro ac
    rw [List.foldl_cons]
    obtain ⟨h1, h2, h3, h4⟩ := ih (passoFrota db ac k)
    rw [h1, h2, h3, h4]
    simp only [List.countP_cons, passoFrota]
    cases hc : (situacaoDe (Tabela.obter db.posicoes k)).contador <;>
      simp [contar] <;> omega

theorem countP_status (lc : String → String → Int) (db : Db) (p : String → Bool) :
    ((montarDadosFrota lc db).veiculos.filter (fun v => p v.status)).length =
      (todosIDs db).countP (fun id => p (situacaoDe (Tabela.obter db.posicoes id)).status) := by
  rw [← List.countP_eq_length_filter, (veiculos_perm lc db).countP_eq, List.countP_map]
  rfl

theorem countP_congr_sse {α : Type} (l : List α) (p q : α → Bool) (h : ∀ x, p x = q x) :
    l.countP p = l.countP q := by
  have : p = q := funext h
  rw [this]

theorem countP_particao (ids : List String) (f : String → Contador) :
    ids.countP (fun id => f id = .emMovimento) + ids.countP (fun id => f id = .ignicaoLigada) +
      ids.countP (fun id => f id = .parado) + ids.countP (fun id => f id = .semSinal)
      = ids.length := by
  induction ids with
  | nil => rfl
  | cons k r ih =>
    simp only [List.countP_cons, List.length_cons]
    cases hf : f k <;> simp <;> omega

/-- C30. The four status counters of the fleet view partition the fleet:
they add up to `total`; `emMovimento`, `ignicaoLigada` and `parado` are the
numbers of output vehicles with status `em-movimento`, `ign-ligada` and
`parado`; and `semSinal` is the number with status `sem-sinal` plus the number
with status `indeterminado`. -/
theorem contadores_particionam_a_frota (lc : String → String → Int) (db : Db) :
    (montarDadosFrota lc db).estatisticas.emMovimento +
      (montarDadosFrota lc db).estatisticas.ignicaoLigada +
      (montarDadosFrota lc db).estatisticas.parado +
      (montarDadosFrota lc db).estatisticas.semSinal =
        (montarDadosFrota lc db).estatisticas.total ∧
    (montarDadosFrota lc db).estatisticas.emMovimento =
      ((montarDadosFrota lc db).veiculos.filter (fun v => v.status = "em-movimento")).length ∧
    (montarDadosFrota lc db).estatisticas.ignicaoLigada =
      ((montarDadosFrota lc db).veiculos.filter (fun v => v.status = "ign-ligada")).length ∧
    (montarDadosFrota lc db).estatisticas.parado =
      ((montarDadosFrota lc db).veiculos.filter (fun v => v.status = "parado")).length ∧
    (montarDadosFrota lc db).estatisticas.semSinal =
      ((montarDadosFrota lc db).veiculos.filter (fun v => v.status = "sem-sinal")).length +
      ((montarDadosFrota lc db).veiculos.filter (fun v => v.status = "indeterminado")).length := by
  obtain ⟨h1, h2, h3, h4⟩ := foldl_passoFrota_contadores db (todosIDs db) ⟨[], 0, 0, 0, 0, 0⟩
  simp only [Nat.zero_add] at h1 h2 h3 h4
  have e1 : (montarDadosFrota lc db).estatisticas.emMovimento =
      ((todosIDs db).foldl (passoFrota db) ⟨[], 0, 0, 0, 0, 0⟩).emMovimento := rfl
  have e2 : (montarDadosFrota lc db).estatisticas.ignicaoLigada =
      ((todosIDs db).foldl (passoFrota db) ⟨[], 0, 0, 0, 0, 0⟩).ignicaoLigadaCount := rfl
  have e3 : (montarDadosFrota lc db).estatisticas.parado =
      ((todosIDs db).foldl (passoFrota db) ⟨[], 0, 0, 0, 0, 0⟩).paradoCount := rfl
  have e4 : (montarDadosFrota lc db).estatisticas.semSinal =
      ((todosIDs db).foldl (passoFrota db) ⟨[], 0, 0, 0, 0, 0⟩).semSinalCount := rfl
  have e5 : (montarDadosFrota lc db).estatisticas.total =
      (montarDadosFrota lc db).veiculos.length := rfl
  rw [e1, e2, e3, e4, e5, h1, h2, h3, h4]
  refine ⟨?_, ?_, ?_, ?_, ?_⟩
  · rw [(veiculos_perm lc db).length_eq, List.length_map]
    exact countP_particao _ _
  · rw [countP_status lc db (fun s => s = "em-movimento")]
    apply countP_congr_sse
    intro id
    simpa using (situacaoDe_contador (Tabela.obter db.posicoes id)).1
  · rw [countP_status lc db (fun s => s = "ign-ligada")]
    apply countP_congr_sse
    intro id
    simpa using (situacaoDe_contador (Tabela.obter db.posicoes id)).2.1
  · rw [countP_status lc db (fun s => s = "parado")]
    apply countP_congr_sse
    intro id
    simpa using (situacaoDe_contador (Tabela.obter db.posicoes id)).2.2.1
  · rw [countP_status lc db (fun s => s = "sem-sinal"),
      countP_status lc db (fun s => s = "indeterminado")]
    have hdisj : ∀ l : List String,
        l.countP (fun id => (situacaoDe (Tabela.obter db.posicoes id)).contador = .semSinal) =
        l.countP (fun id => decide ((situacaoDe (Tabela.obter db.posicoes id)).status = "sem-sinal")) +
        l.countP (fun id => decide ((situacaoDe (Tabela.obter db.posicoes id)).status
          = "indeterminado")) := by
      intro l
      induction l with
      | nil => rfl
      | cons k r ih =>
        simp only [List.countP_cons, ih]
        have hk := (situacaoDe_contador (Tabela.obter db.posicoes k)).2.2.2
        by_cases hs : (situacaoDe (Tabela.obter db.posicoes k)).status = "sem-sinal"
        · have hi : ¬ (situacaoDe (Tabela.obter db.posicoes k)).status = "indeterminado" := by
            rw [hs]; decide
          have hc := hk.mpr (Or.inl hs)
          simp [hs, hc]
          omega
        · by_cases hi : (situacaoDe (Tabela.obter db.posicoes k)).status = "indeterminado"
          · have hc := hk.mpr (Or.inr hi)
            simp [hi, hc]
            omega
          · have hc : ¬ (situacaoDe (Tabela.obter db.posicoes k)).contador = .semSinal := by
              intro h
              rcases hk.mp h with h | h
              · exact hs h
              · exact hi h
            simp [hs, hi, hc]
    exact hdisj _

/-- The five outcomes of the status chain. -/
theorem situacaoDe_casos (pos : Option Posicao) :
    ((situacaoDe pos).status = "em-movimento" ∧ (situacaoDe pos).statusCor = "#10b981" ∧
      ∃ vel, pos.bind (fun p => p.velocidade) = some vel ∧ vel > 0 ∧
        (situacaoDe pos).statusTexto = "Em Movimento (" ++ toString vel ++ " km/h)") ∨
    ((situacaoDe pos).status = "ign-ligada" ∧ (situacaoDe pos).statusCor = "#f59e0b" ∧
      (situacaoDe pos).statusTexto = "Parado — Ignição Ligada") ∨
    ((situacaoDe pos).status = "parado" ∧ (situacaoDe pos).statusCor = "#1436a6" ∧
      (situacaoDe pos).statusTexto = "Parado") ∨
    ((situacaoDe pos).status = "indeterminado" ∧ (situacaoDe pos).statusCor = "#8b5cf6" ∧
      (situacaoDe pos).statusTexto = "Indeterminado") ∨
    ((situacaoDe pos).status = "sem-sinal" ∧ (situacaoDe pos).statusCor = "#6b7280" ∧
      (situacaoDe pos).statusTexto = "Sem Sinal") := by
  have hign : ∀ ign : Option Bool,
      ((situacaoPorIgnicao ign).status = "ign-ligada" ∧
        (situacaoPorIgnicao ign).statusCor = "#f59e0b" ∧
        (situacaoPorIgnicao ign).statusTexto = "Parado — Ignição Ligada") ∨
      ((situacaoPorIgnicao ign).status = "parado" ∧
        (situacaoPorIgnicao ign).statusCor = "#1436a6" ∧
        (situacaoPorIgnicao ign).statusTexto = "Parado") ∨
      ((situacaoPorIgnicao ign).status = "indeterminado" ∧
        (situacaoPorIgnicao ign).statusCor = "#8b5cf6" ∧
        (situacaoPorIgnicao ign).statusTexto = "Indeterminado") := by
    intro ign
    cases ign with
    | none => exact Or.inr (Or.inr ⟨rfl, rfl, rfl⟩)
    | some b =>
      cases b
      · exact Or.inr (Or.inl ⟨rfl, rfl, rfl⟩)
      · exact Or.inl ⟨rfl, rfl, rfl⟩
  unfold situacaoDe
  cases pos with
  | none => exact Or.inr (Or.inr (Or.inr (Or.inr ⟨rfl, rfl, rfl⟩)))
  | some p =>
    dsimp only
    split
    · cases hv : p.velocidade with
      | none =>
        dsimp only
        rcases hign p.ignicao with h | h | h
        · exact Or.inr (Or.inl h)
        · exact Or.inr (Or.inr (Or.inl h))
        · exact Or.inr (Or.inr (Or.inr (Or.inl h)))
      | some vel =>
        dsimp only
        split
        · rename_i hgt
          exact Or.inl ⟨rfl, rfl, vel, by simp [hv], hgt, rfl⟩
        · rcases hign p.ignicao with h | h | h
          · exact Or.inr (Or.inl h)
          · exact Or.inr (Or.inr (Or.inl h))
          · exact Or.inr (Or.inr (Or.inr (Or.inl h)))
    · exact Or.inr (Or.inr (Or.inr (Or.inr ⟨rfl, rfl, rfl⟩)))

/-- Counterexample to C27. Vehicle 7 at speed 45 in one store and at speed 80
in another have the same status, `em-movimento`, and different labels: the
label of that status carries the speed. -/
theorem status_igual_rotulo_diferente :
    ¬ (∀ (db1 db2 : Db) (v1 v2 : VeiculoSaida),
        v1 ∈ (montarDadosFrota porComprimento db1).veiculos →
        v2 ∈ (montarDadosFrota porComprimento db2).veiculos →
        v1.status = v2.status →
        v1.statusTexto = v2.statusTexto ∧ v1.statusCor = v2.statusCor) := by
  intro h
  have h1 : registroDe dbTresVeiculos "7"
      ∈ (montarDadosFrota porComprimento dbTresVeiculos).veiculos :=
    (veiculos_perm porComprimento dbTresVeiculos).mem_iff.mpr
      (List.mem_map.mpr ⟨"7", by decide, rfl⟩)
  have h2 : registroDe dbVelocidadeOitenta "7"
      ∈ (montarDadosFrota porComprimento dbVelocidadeOitenta).veiculos :=
    (veiculos_perm porComprimento dbVelocidadeOitenta).mem_iff.mpr
      (List.mem_map.mpr ⟨"7", by decide, rfl⟩)
  have h3 := (h _ _ _ _ h1 h2 (by decide)).1
  revert h3
  decide

/-- C27, amended. Two vehicles of fleet views (of any two stores) with the
same status have the same `statusCor`, and the same `statusTexto` unless the
status is `em-movimento`; the label of an `em-movimento` vehicle is `Em
Movimento (` followed by its speed and ` km/h)`. -/
theorem status_fixa_cor_e_rotulo (lc1 lc2 : String → String → Int) (db1 db2 : Db)
    (v1 v2 : VeiculoSaida)
    (h1 : v1 ∈ (montarDadosFrota lc1 db1).veiculos)
    (h2 : v2 ∈ (montarDadosFrota lc2 db2).veiculos)
    (hs : v1.status = v2.status) :
    v1.statusCor = v2.statusCor ∧
    (v1.status ≠ "em-movimento" → v1.statusTexto = v2.statusTexto) ∧
    (v1.status = "em-movimento" →
      ∃ vel, v1.velocidade = some vel ∧ vel > 0 ∧
        v1.statusTexto = "Em Movimento (" ++ toString vel ++ " km/h)") := by
  rw [veiculo_da_saida lc1 db1 v1 h1, veiculo_da_saida lc2 db2 v2 h2] at hs ⊢
  have e1 : ∀ (db : Db) (id : String),
      (registroDe db id).status = (situacaoDe (Tabela.obter db.posicoes id)).status ∧
      (registroDe db id).statusCor = (situacaoDe (Tabela.obter db.posicoes id)).statusCor ∧
      (registroDe db id).statusTexto = (situacaoDe (Tabela.obter db.posicoes id)).statusTexto ∧
      (registroDe db id).velocidade = (Tabela.obter db.posicoes id).bind (fun p => p.velocidade) :=
    fun _ _ => ⟨rfl, rfl, rfl, rfl⟩
  obtain ⟨a1, a2, a3, a4⟩ := e1 db1 v1.veiID
  obtain ⟨b1, b2, b3, _⟩ := e1 db2 v2.veiID
  rw [a1, b1] at hs
  rw [a1, a2, a3, a4, b2, b3]
  rcases situacaoDe_casos (Tabela.obter db1.posicoes v1.veiID) with
    ⟨s1, c1, t1⟩ | ⟨s1, c1, t1⟩ | ⟨s1, c1, t1⟩ | ⟨s1, c1, t1⟩ | ⟨s1, c1, t1⟩ <;>
  rcases situacaoDe_casos (Tabela.obter db2.posicoes v2.veiID) with
    ⟨s2, c2, t2⟩ | ⟨s2, c2, t2⟩ | ⟨s2, c2, t2⟩ | ⟨s2, c2, t2⟩ | ⟨s2, c2, t2⟩ <;>
  first
  | (exfalso; rw [s1, s2] at hs; revert hs; decide)
  | (refine ⟨by rw [c1, c2], fun hne => absurd s1 hne, fun _ => t1⟩)
  | (refine ⟨by rw [c1, c2], fun _ => by rw [t1, t2], fun he => ?_⟩
     rw [s1] at he
     exact absurd he (by decide))

/-- Witness of the amended C27: vehicle 7 at speed 45 and vehicle 7 at speed
80 are both `em-movimento`, with the same colour. -/
theorem status_fixa_cor_e_rotulo_witness :
    (registroDe dbTresVeiculos "7").status = (registroDe dbVelocidadeOitenta "7").status ∧
    (registroDe dbTresVeiculos "7").statusCor = (registroDe dbVelocidadeOitenta "7").statusCor ∧
    ∃ vel, (registroDe dbTresVeiculos "7").velocidade = some vel ∧ vel > 0 ∧
      (registroDe dbTresVeiculos "7").statusTexto = "Em Movimento (" ++ toString vel ++ " km/h)" :=
  have h1 : registroDe dbTresVeiculos "7"
      ∈ (montarDadosFrota porComprimento dbTresVeiculos).veiculos :=
    (veiculos_perm porComprimento dbTresVeiculos).mem_iff.mpr
      (List.mem_map.mpr ⟨"7", by decide, rfl⟩)
  have h2 : registroDe dbVelocidadeOitenta "7"
      ∈ (montarDadosFrota porComprimento dbVelocidadeOitenta).veiculos :=
    (veiculos_perm porComprimento dbVelocidadeOitenta).mem_iff.mpr
      (List.mem_map.mpr ⟨"7", by decide, rfl⟩)
  have hs : (registroDe dbTresVeiculos "7").status
      = (registroDe dbVelocidadeOitenta "7").status := by decide
  have h := status_fixa_cor_e_rotulo porComprimento porComprimento dbTresVeiculos
    dbVelocidadeOitenta _ _ h1 h2 hs
  ⟨hs, h.1, h.2.2 (by decide)⟩

/-! ## Field normalisation and batch handling in `buscarMensagens` -/

theorem ehDecimal_nao_sinal (c : Char) (h : ehDecimal c = true) : c ≠ '-' ∧ c ≠ '+' := by
  constructor <;> (rintro rfl; revert h; decide)

theorem lerSinal_digito (c : Char) (r : List Char) (h : ehDecimal c = true) :
    lerSinal (c :: r) = (false, c :: r) := by
  obtain ⟨h1, h2⟩ := ehDecimal_nao_sinal c h
  unfold lerSinal
  split
  · rename_i heq; cases heq; exact absurd rfl h1
  · rename_i heq; cases heq; exact absurd rfl h2
  · rfl

theorem prefixoDigitos_decimal (ds : List Char) (hdig : ∀ c ∈ ds, ehDecimal c = true) :
    prefixoDigitos 10 ds = ds := by
  unfold prefixoDigitos
  rw [List.takeWhile_eq_self_iff]
  intro c hc
  exact ehDecimal_ehDigito c (hdig c hc)

/-- What `parseInt` makes of the digits it reads, once the sign is known. -/
theorem parseInt_corpo (neg : Bool) (ds : List Char) (hne : ds ≠ [])
    (hdig : ∀ c ∈ ds, ehDecimal c = true) (p : Nat × List Char) (hp : p = (10, ds)) :
    (if prefixoDigitos p.1 p.2 = [] then none
      else if neg = true then
        some (-(paraDouble (valorDigitos p.1 (prefixoDigitos p.1 p.2)) : Int))
      else some (paraDouble (valorDigitos p.1 (prefixoDigitos p.1 p.2)) : Int)) =
    (if neg = true then some (-(paraDouble (valorDigitos 10 ds) : Int))
      else some (paraDouble (valorDigitos 10 ds) : Int)) := by
  subst hp
  simp only [prefixoDigitos_decimal ds hdig]
  rw [if_neg hne]

/-- A natural number below `2 ^ 53` is a double. -/
theorem paraDouble_exato (m : Nat) (h : m < 2 ^ 53) : paraDouble m = m := by
  unfold paraDouble
  rw [if_pos h]

/-- The built-in `parseInt` on a decimal integer: the double nearest to its
value. -/
theorem parseInt_de_inteiro_decimal (s : String) (h : soDigitos s = true) :
    parseInt (.str s) = some (paraDouble (valorDigitos 10 s.toList) : Int) := by
  simp only [soDigitos, Bool.and_eq_true, decide_eq_true_eq, List.all_eq_true] at h
  obtain ⟨hne, hdig⟩ := h
  unfold parseInt
  cases hs : s.toList with
  | nil => exact absurd hs hne
  | cons c r =>
    rw [hs] at hdig
    have hc := hdig c (List.mem_cons_self _ _)
    have h1 : (c :: r).dropWhile ehEspaco = c :: r := by
      simp [List.dropWhile, ehDecimal_nao_espaco c hc]
    simp only [hs, h1, lerSinal_digito c r hc]
    refine (parseInt_corpo false (c :: r) (List.cons_ne_nil _ _) hdig _ ?_).trans (by simp)
    split
    · rename_i heq
      exfalso
      cases heq
      exact absurd (hdig 'x' (List.mem_cons_of_mem _ (List.mem_cons_self _ _))) (by decide)
    · rename_i heq
      exfalso
      cases heq
      exact absurd (hdig 'X' (List.mem_cons_of_mem _ (List.mem_cons_self _ _))) (by decide)
    · rfl

/-- The built-in `parseInt` on a minus sign followed by a decimal integer. -/
theorem parseInt_de_inteiro_negativo (s : String) (h : soDigitos s = true) :
    parseInt (.str (String.mk ('-' :: s.toList)))
      = some (-(paraDouble (valorDigitos 10 s.toList) : Int)) := by
  simp only [soDigitos, Bool.and_eq_true, decide_eq_true_eq, List.all_eq_true] at h
  obtain ⟨hne, hdig⟩ := h
  unfold parseInt
  have h0 : ehEspaco '-' = false := by decide
  have h1 : (String.mk ('-' :: s.toList)).toList.dropWhile ehEspaco = '-' :: s.toList := by
    show ('-' :: s.toList).dropWhile ehEspaco = '-' :: s.toList
    simp [List.dropWhile, h0]
  have h2 : lerSinal ('-' :: s.toList) = (true, s.toList) := rfl
  simp only [h1, h2]
  refine (parseInt_corpo true s.toList hne hdig _ ?_).trans (by simp)
  split
  · rename_i heq
    exfalso
    rw [heq] at hdig
    exact absurd (hdig 'x' (List.mem_cons_of_mem _ (List.mem_cons_self _ _))) (by decide)
  · rename_i heq
    exfalso
    rw [heq] at hdig
    exact absurd (hdig 'X' (List.mem_cons_of_mem _ (List.mem_cons_self _ _))) (by decide)
  · rfl

set_option maxRecDepth 20000 in
/-- Counterexample to C13. The raw speed `9007199254740993` is an integer
other than -1, and the speed built from it is 9007199254740992: `parseInt`
gives a double, and this integer is not one. -/
theorem velocidade_acima_de_2_53 :
    msgVelGrande.get "vel" = .str "9007199254740993" ∧
    valorDigitos 10 "9007199254740993".toList = 9007199254740993 ∧
    (montarPosicao msgVelGrande).velocidade = some 9007199254740992 ∧
    ¬ (∀ (msg : Registro) (s : String), soDigitos s = true → msg.get "vel" = .str s →
        (montarPosicao msg).velocidade = some (valorDigitos 10 s.toList : Int)) := by
  have h3 : (montarPosicao msgVelGrande).velocidade = some 9007199254740992 := by decide
  refine ⟨rfl, by decide, h3, ?_⟩
  intro h
  have h4 := h msgVelGrande "9007199254740993" (by decide) rfl
  rw [h3] at h4
  revert h4
  decide

/-- C13, amended. The speed of the position built from a message is never
`-1`; it is `null` when the raw `vel` is absent and when `parseInt` finds no
number in it (`NaN`); a raw `vel` that is a decimal integer gives the double
nearest to that integer, which is the integer itself when it is below
`2 ^ 53`; and a minus sign followed by a decimal integer gives the negated
double, except `-1`, which gives `null`. -/
theorem velocidade_normalizada (msg : Registro) :
    (montarPosicao msg).velocidade ≠ some (-1) ∧
    (msg.get "vel" = .undefined → (montarPosicao msg).velocidade = none) ∧
    (parseInt (msg.get "vel") = none → (montarPosicao msg).velocidade = none) ∧
    (∀ n, parseInt (msg.get "vel") = some n → n ≠ -1 →
      (montarPosicao msg).velocidade = some n) ∧
    (∀ s, soDigitos s = true → msg.get "vel" = .str s →
      (montarPosicao msg).velocidade = some (paraDouble (valorDigitos 10 s.toList) : Int) ∧
      (valorDigitos 10 s.toList < 2 ^ 53 →
        (montarPosicao msg).velocidade = some (valorDigitos 10 s.toList : Int))) ∧
    (∀ s, soDigitos s = true → msg.get "vel" = .str (String.mk ('-' :: s.toList)) →
      ((montarPosicao msg).velocidade =
        if paraDouble (valorDigitos 10 s.toList) = 1 then none
        else some (-(paraDouble (valorDigitos 10 s.toList) : Int))) ∧
      (valorDigitos 10 s.toList < 2 ^ 53 →
        (montarPosicao msg).velocidade =
          if valorDigitos 10 s.toList = 1 then none
          else some (-(valorDigitos 10 s.toList : Int)))) := by
  have hv : (montarPosicao msg).velocidade = normalizarVelocidade (msg.get "vel") := rfl
  rw [hv]
  unfold normalizarVelocidade
  have hpos : ∀ s, soDigitos s = true → msg.get "vel" = .str s →
      (match parseInt (msg.get "vel") with
        | none => none
        | some n => if n = -1 then none else some n)
        = some (paraDouble (valorDigitos 10 s.toList) : Int) := by
    intro s hs h
    rw [h, parseInt_de_inteiro_decimal s hs]
    dsimp only
    rw [if_neg]
    omega
  have hneg : ∀ s, soDigitos s = true → msg.get "vel" = .str (String.mk ('-' :: s.toList)) →
      (match parseInt (msg.get "vel") with
        | none => none
        | some n => if n = -1 then none else some n)
        = if paraDouble (valorDigitos 10 s.toList) = 1 then none
          else some (-(paraDouble (valorDigitos 10 s.toList) : Int)) := by
    intro s hs h
    rw [h, parseInt_de_inteiro_negativo s hs]
    dsimp only
    by_cases h1 : paraDouble (valorDigitos 10 s.toList) = 1
    · rw [if_pos h1, if_pos]
      rw [h1]
      rfl
    · rw [if_neg h1, if_neg]
      omega
  refine ⟨?_, ?_, ?_, ?_, ?_, ?_⟩
  · cases parseInt (msg.get "vel") with
    | none => simp
    | some n =>
      dsimp only
      split
      · simp
      · rename_i hne
        intro h
        cases h
        exact hne rfl
  · intro h
    rw [h]
    rfl
  · intro h
    rw [h]
  · intro n h hne
    rw [h]
    dsimp only
    rw [if_neg hne]
  · intro s hs h
    refine ⟨hpos s hs h, ?_⟩
    intro hb
    rw [hpos s hs h, paraDouble_exato _ hb]
  · intro s hs h
    refine ⟨hneg s hs h, ?_⟩
    intro hb
    rw [hneg s hs h, paraDouble_exato _ hb]

/-- Witness of the amended C13: the raw speed `80` gives 80 and the raw speed
`-1` gives `null`. -/
theorem velocidade_normalizada_witness :
    (montarPosicao msgNova).velocidade = some 80 ∧
    (montarPosicao msgVelMenosUm).velocidade = none :=
  ⟨(((velocidade_normalizada msgNova).2.2.2.2.1 "80" (by decide) rfl).2 (by decide)).trans
     (by decide),
   (((velocidade_normalizada msgVelMenosUm).2.2.2.2.2 "1" (by decide) rfl).2 (by decide)).trans
     (by decide)⟩

/-- Counterexample to C14. The raw value `1.5` is neither `1` nor `0`, and
the ignition it gives is `true`, not `null`: `parseInt` reads the integer at
the start of the text. -/
theorem ignicao_de_texto_fracionado :
    msgIgnicaoFracionada.get "evt4" = .str "1.5" ∧
    (montarPosicao msgIgnicaoFracionada).ignicao = some true ∧
    ¬ (∀ msg : Registro, msg.get "evt4" ≠ .str "1" → msg.get "evt4" ≠ .str "0" →
        (montarPosicao msg).ignicao = none) := by
  refine ⟨rfl, by decide, ?_⟩
  intro h
  have h1 := h msgIgnicaoFracionada (by decide) (by decide)
  revert h1
  decide

/-- C14, amended. The ignition of the position built from a message is
decided by the integer `parseInt` reads at the start of the raw `evt4`: `true`
when it is 1, `false` when it is 0, and `null` when `evt4` is absent, when
`parseInt` finds no integer (`NaN`) and when the integer is any other. In
particular the raw text `1` gives `true` and the raw text `0` gives `false`. -/
theorem ignicao_normalizada (msg : Registro) :
    (msg.get "evt4" = .undefined → (montarPosicao msg).ignicao = none) ∧
    (parseInt (msg.get "evt4") = some 1 → (montarPosicao msg).ignicao = some true) ∧
    (parseInt (msg.get "evt4") = some 0 → (montarPosicao msg).ignicao = some false) ∧
    (parseInt (msg.get "evt4") = none → (montarPosicao msg).ignicao = none) ∧
    (∀ n, parseInt (msg.get "evt4") = some n → n ≠ 1 → n ≠ 0 →
      (montarPosicao msg).ignicao = none) ∧
    (msg.get "evt4" = .str "1" → (montarPosicao msg).ignicao = some true) ∧
    (msg.get "evt4" = .str "0" → (montarPosicao msg).ignicao = some false) := by
  have hv : (montarPosicao msg).ignicao = normalizarIgnicao (msg.get "evt4") := rfl
  rw [hv]
  refine ⟨?_, ?_, ?_, ?_, ?_, ?_, ?_⟩
  · intro h; rw [h]; rfl
  · intro h
    cases hr : msg.get "evt4" with
    | undefined => rw [hr] at h; cases h
    | null => rw [hr] at h; cases h
    | str s => rw [hr] at h; unfold normalizarIgnicao; dsimp only; rw [h]; rfl
  · intro h
    cases hr : msg.get "evt4" with
    | undefined => rw [hr] at h; cases h
    | null => rw [hr] at h; cases h
    | str s => rw [hr] at h; unfold normalizarIgnicao; dsimp only; rw [h]; rfl
  · intro h
    cases hr : msg.get "evt4" with
    | undefined => rfl
    | null => rfl
    | str s => rw [hr] at h; unfold normalizarIgnicao; dsimp only; rw [h]
  · intro n h h1 h0
    cases hr : msg.get "evt4" with
    | undefined => rfl
    | null => rfl
    | str s =>
      rw [hr] at h
      unfold normalizarIgnicao
      dsimp only
      rw [h]
      split
      · rename_i heq; cases heq; exact absurd rfl h1
      · rename_i heq; cases heq; exact absurd rfl h0
      · rfl
  · intro h; rw [h]; decide
  · intro h; rw [h]; decide

/-- Witness of the amended C14: the raw text `1` gives `true`, and the raw
text `1.5`, in which `parseInt` reads 1, gives `true` as well. -/
theorem ignicao_normalizada_witness :
    (montarPosicao msgSemDt).ignicao = some true ∧
    (montarPosicao msgIgnicaoFracionada).ignicao = some true :=
  ⟨(ignicao_normalizada msgSemDt).2.2.2.2.2.1 rfl,
   (ignicao_normalizada msgIgnicaoFracionada).2.1 (by decide)⟩

/-- Counterexample to C15. In the position built from a message with no `lat`
and no `lon` the coordinates are `parseFloat('0')`, the number zero, not
`null`: the source reads `msg.lat || '0'`. -/
theorem coordenada_ausente_e_zero :
    Registro.get [] "lat" = .undefined ∧ Registro.get [] "lon" = .undefined ∧
    (montarPosicao []).lat = parseFloat "0" ∧ (montarPosicao []).lon = parseFloat "0" ∧
    ¬ (∀ msg : Registro, msg.get "lat" = .undefined →
        (montarPosicao msg).lat ≠ parseFloat "0") := by
  refine ⟨rfl, rfl, by decide, by decide, ?_⟩
  intro h
  exact h [] rfl (by decide)

/-- C15, amended. In the position built from a message, each of `velocidade`,
`odometro`, `rpm`, `temperatura1` to `temperatura3`, `umidade1` to `umidade3`,
`carretaBateria`, `fleetDriveBateria`, `origemCod`, `tipoMsg` and
`eventoGerador` is `null` when its raw field is absent, and each of `lat` and
`lon` is `parseFloat('0')` when its raw field is absent. -/
theorem campos_ausentes (msg : Registro) :
    (msg.get "vel" = .undefined → (montarPosicao msg).velocidade = none) ∧
    (msg.get "odm" = .undefined → (montarPosicao msg).odometro = .null) ∧
    (msg.get "rpm" = .undefined → (montarPosicao msg).rpm = .null) ∧
    (msg.get "st1" = .undefined → (montarPosicao msg).temperatura1 = .null) ∧
    (msg.get "st2" = .undefined → (montarPosicao msg).temperatura2 = .null) ∧
    (msg.get "st3" = .undefined → (montarPosicao msg).temperatura3 = .null) ∧
    (msg.get "umd1" = .undefined → (montarPosicao msg).umidade1 = .null) ∧
    (msg.get "umd2" = .undefined → (montarPosicao msg).umidade2 = .null) ∧
    (msg.get "umd3" = .undefined → (montarPosicao msg).umidade3 = .null) ∧
    (msg.get "carretaBateria" = .undefined → (montarPosicao msg).carretaBateria = .null) ∧
    (msg.get "fleetDriveBateria" = .undefined →
      (montarPosicao msg).fleetDriveBateria = .null) ∧
    (msg.get "ori" = .undefined → (montarPosicao msg).origemCod = .null) ∧
    (msg.get "tpMsg" = .undefined → (montarPosicao msg).tipoMsg = .null) ∧
    (msg.get "evtG" = .undefined → (montarPosicao msg).eventoGerador = .null) ∧
    (msg.get "lat" = .undefined → (montarPosicao msg).lat = parseFloat "0") ∧
    (msg.get "lon" = .undefined → (montarPosicao msg).lon = parseFloat "0") := by
  have hopt : ∀ v : JsVal, v = .undefined → parseOpt v = .null := by
    intro v h; rw [h]; rfl
  have hcoord : ∀ v : JsVal, v = .undefined → coordenada v = parseFloat "0" := by
    intro v h; rw [h]; decide
  refine ⟨?_, hopt _, hopt _, hopt _, hopt _, hopt _, hopt _, hopt _, hopt _, hopt _, hopt _,
    hopt _, hopt _, hopt _, hcoord _, hcoord _⟩
  intro h
  show normalizarVelocidade (msg.get "vel") = none
  rw [h]
  rfl

/-- Witness of the amended C15: the message `msgSemDt` has no odometer and no
latitude; the odometer built from it is `null`, the latitude is
`parseFloat('0')`. -/
theorem campos_ausentes_witness :
    (montarPosicao msgSemDt).odometro = .null ∧
    (montarPosicao msgSemDt).lat = parseFloat "0" :=
  ⟨(campos_ausentes msgSemDt).2.1 rfl, (campos_ausentes msgSemDt).2.2.2.2.2.2.2.2.2.2.2.2.2.2.1 rfl⟩

/-- Evaluation for C16. `parseOpt` gives `NaN` for an empty element and for
text with no leading integer, where the sibling speed normalisation gives
`null`; and a message with an empty `odm` element, accepted over a position
with odometer 100, leaves the odometer `NaN`: the sparse-field fallback does
not treat it as unknown. -/
theorem parseOpt_da_nan :
    parseOpt .null = .nan ∧ parseOpt (.str "abc") = .nan ∧
    normalizarVelocidade .null = none ∧ normalizarVelocidade (.str "abc") = none ∧
    (Tabela.obter dbComPosicao.posicoes "7").map (fun p => p.odometro) = some (.int 100) ∧
    (Tabela.obter
      (buscarMensagens dbComPosicao (.itens [msgOdmVazio]) "2024-05-02T10:05:05.000Z").posicoes
      "7").map (fun p => p.odometro) = some .nan := by
  refine ⟨by decide, by decide, by decide, by decide, by decide, by decide⟩

theorem lacoMensagens_relogio (lote : List Registro) :
    ∀ (db : Db) (maior : JsVal),
      (lacoMensagens db maior lote).1.ultimaAtualizacao = db.ultimaAtualizacao ∧
      (lacoMensagens db maior lote).1.contadorCiclos = db.contadorCiclos := by
  induction lote with
  | nil => intro db maior; exact ⟨rfl, rfl⟩
  | cons m r ih =>
    intro db maior
    unfold lacoMensagens processarMensagem
    cases BigInt (m.get "mId") with
    | none => exact ⟨rfl, rfl⟩
    | some a =>
      cases BigInt maior with
      | none => exact ⟨rfl, rfl⟩
      | some b =>
        dsimp only
        exact ih _ _

/-- Counterexample to C17. The batch of a message with no `mId` followed by a
well-formed message for vehicle 7 leaves vehicle 7 without a position and the
cursor at `1`; the well-formed message alone gives vehicle 7 a position and
moves the cursor to `2`. -/
theorem mensagem_malformada_bloqueia_o_lote :
    mIdConverte msgSemMId = false ∧ mIdConverte msgDtZero = true ∧
    (Tabela.obter
      (buscarMensagens dbInicial (.itens [msgSemMId, msgDtZero]) "2024-05-02T10:00:00.000Z").posicoes
      "7").isSome = false ∧
    (buscarMensagens dbInicial (.itens [msgSemMId, msgDtZero])
      "2024-05-02T10:00:00.000Z").ultimoMId = .str "1" ∧
    (Tabela.obter
      (buscarMensagens dbInicial (.itens [msgDtZero]) "2024-05-02T10:00:00.000Z").posicoes
      "7").isSome = true ∧
    (buscarMensagens dbInicial (.itens [msgDtZero]) "2024-05-02T10:00:00.000Z").ultimoMId
      = .str "2" := by
  refine ⟨by decide, by decide, by decide, by decide, by decide, by decide⟩

/-- C17, amended. When the cursor converts with `BigInt`, a batch is
processed up to its first malformed message (one whose `mId` does not
convert): the position table it leaves is the one left by the batch cut
before that message, whatever follows it; and when the batch has a malformed
message the cursor, the time of the last update and the cycle counter are
left as they were. -/
theorem lote_processado_ate_a_primeira_malformada (db : Db) (lote : List Registro)
    (agora : String) (c : Int) (hc : BigInt db.ultimoMId = some c) :
    (buscarMensagens db (.itens lote) agora).posicoes =
      (buscarMensagens db (.itens (lote.takeWhile mIdConverte)) agora).posicoes ∧
    ((∃ m ∈ lote, mIdConverte m = false) →
      (buscarMensagens db (.itens lote) agora).ultimoMId = db.ultimoMId ∧
      (buscarMensagens db (.itens lote) agora).ultimaAtualizacao = db.ultimaAtualizacao ∧
      (buscarMensagens db (.itens lote) agora).contadorCiclos = db.contadorCiclos) := by
  constructor
  · rw [buscarMensagens_posicoes, buscarMensagens_posicoes]
    unfold processadas
    rw [hc]
    dsimp only
    have h : List.takeWhile (fun m => (BigInt (m.get "mId")).isSome)
        (List.takeWhile mIdConverte lote) = List.takeWhile mIdConverte lote := by
      rw [List.takeWhile_eq_self_iff]
      intro m hm
      have hconv : mIdConverte m = true := List.mem_takeWhile_imp hm
      exact hconv
    rw [h]
    rfl
  · rintro ⟨m, hm, hbad⟩
    have hbad1 : ∃ m ∈ lote, BigInt (m.get "mId") = none := by
      refine ⟨m, hm, ?_⟩
      unfold mIdConverte at hbad
      cases hb : BigInt (m.get "mId") with
      | none => rfl
      | some x => rw [hb] at hbad; cases hbad
    have hint := lacoMensagens_interrompido lote db db.ultimoMId c hc hbad1
    have hrel := lacoMensagens_relogio lote db db.ultimoMId
    have hcur := lacoMensagens_ultimoMId lote db db.ultimoMId
    cases lote with
    | nil => cases hm
    | cons x r =>
      simp only [buscarMensagens]
      cases hl : lacoMensagens db db.ultimoMId (x :: r) with
      | mk d o =>
        rw [hl] at hint hrel hcur
        dsimp only at hint hrel hcur
        subst hint
        exact ⟨hcur, hrel.1, hrel.2⟩

/-- Witness of the amended C17: the batch of `msgDtZero`, a message with no
`mId` and `msgDtVazio` leaves the positions of the batch `msgDtZero` alone,
and the cursor at `1`. -/
theorem lote_processado_ate_a_primeira_malformada_witness :
    (buscarMensagens dbInicial (.itens [msgDtZero, msgSemMId, msgDtVazio])
      "2024-05-02T10:00:00.000Z").posicoes =
      (buscarMensagens dbInicial (.itens [msgDtZero]) "2024-05-02T10:00:00.000Z").posicoes ∧
    (buscarMensagens dbInicial (.itens [msgDtZero, msgSemMId, msgDtVazio])
      "2024-05-02T10:00:00.000Z").ultimoMId = .str "1" :=
  have h := lote_processado_ate_a_primeira_malformada dbInicial
    [msgDtZero, msgSemMId, msgDtVazio] "2024-05-02T10:00:00.000Z" 1 (by decide)
  ⟨h.1, (h.2 ⟨msgSemMId, by simp, by decide⟩).1⟩

theorem trocarVirgula_sem_virgula (cs : List Char) (h : ',' ∉ cs) : trocarVirgula cs = cs := by
  induction cs with
  | nil => rfl
  | cons c r ih =>
    have hc : c ≠ ',' := fun e => h (by rw [e]; exact List.mem_cons_self _ _)
    have hr : ',' ∉ r := fun e => h (List.mem_cons_of_mem _ e)
    simp only [trocarVirgula, if_neg hc, ih hr]

theorem trocarVirgula_primeira (a b : List Char) (h : ',' ∉ a) :
    trocarVirgula (a ++ ',' :: b) = a ++ '.' :: b := by
  induction a with
  | nil => simp [trocarVirgula]
  | cons c r ih =>
    have hc : c ≠ ',' := fun e => h (by rw [e]; exact List.mem_cons_self _ _)
    have hr : ',' ∉ r := fun e => h (List.mem_cons_of_mem _ e)
    simp only [List.cons_append, trocarVirgula, if_neg hc]
    show c :: trocarVirgula (r ++ ',' :: b) = c :: (r ++ '.' :: b)
    rw [ih hr]

/-- C18. The latitude and the longitude of the position built from a message
are the coordinate normalisation of the raw `lat` and `lon`; on a non-empty
raw text it is `parseFloat` of the text with its first comma replaced by a
dot: a text `a,b` with no comma in `a` gives `parseFloat` of `a.b`, and a text
with no comma gives `parseFloat` of the text itself. -/
theorem coordenada_com_virgula (msg : Registro) (s : String) (hs : s ≠ "") :
    (montarPosicao msg).lat = coordenada (msg.get "lat") ∧
    (montarPosicao msg).lon = coordenada (msg.get "lon") ∧
    coordenada (.str s) = parseFloat (String.mk (trocarVirgula s.toList)) ∧
    (∀ a b, s.toList = a ++ ',' :: b → ',' ∉ a →
      coordenada (.str s) = parseFloat (String.mk (a ++ '.' :: b))) ∧
    (',' ∉ s.toList → coordenada (.str s) = parseFloat s) := by
  have h0 : coordenada (.str s) = parseFloat (String.mk (trocarVirgula s.toList)) := by
    unfold coordenada
    have ht : (JsVal.str s).truthy = true := by simp [JsVal.truthy, hs]
    rw [if_pos ht]
    rfl
  refine ⟨rfl, rfl, h0, ?_, ?_⟩
  · intro a b hab ha
    rw [h0, hab, trocarVirgula_primeira a b ha]
  · intro h
    rw [h0, trocarVirgula_sem_virgula _ h]
    rfl

/-- Witness of C18: the raw latitude `-19,5` gives `parseFloat('-19.5')` and
the raw longitude `-43.25` gives `parseFloat('-43.25')`. -/
theorem coordenada_com_virgula_witness :
    (montarPosicao msgVirgula).lat = parseFloat "-19.5" ∧
    (montarPosicao msgVirgula).lon = parseFloat "-43.25" :=
  ⟨(coordenada_com_virgula msgVirgula "-19,5" (by decide)).1.trans
     ((coordenada_com_virgula msgVirgula "-19,5" (by decide)).2.2.2.1
        ['-', '1', '9'] ['5'] rfl (by decide)),
   (coordenada_com_virgula msgVirgula "-43.25" (by decide)).2.1.trans
     ((coordenada_com_virgula msgVirgula "-43.25" (by decide)).2.2.2.2 (by decide))⟩

/-- No key occurs twice in the `EVENTOS` table. -/
theorem EVENTOS_chaves_distintas : (EVENTOS.map (fun e => e.1)).Nodup := by
  decide

theorem filterMap_codigos_sublista (f : String × InfoEvento → Option Evento)
    (hf : ∀ e x, f e = some x → x.codigo = e.1) (l : List (String × InfoEvento)) :
    ((l.filterMap f).map (fun x => x.codigo)).Sublist (l.map (fun e => e.1)) := by
  induction l with
  | nil => exact List.Sublist.slnil
  | cons e r ih =>
    cases hfe : f e with
    | none =>
      rw [List.filterMap_cons_none hfe]
      exact List.Sublist.cons _ ih
    | some x =>
      rw [List.filterMap_cons_some hfe, List.map_cons, List.map_cons, hf e x hfe]
      exact List.Sublist.cons₂ _ ih

theorem eventosDe_codigos_distintos (msg : Registro) :
    ((eventosDe msg).map (fun e => e.codigo)).Nodup := by
  unfold eventosDe
  refine List.Nodup.sublist (filterMap_codigos_sublista _ ?_ EVENTOS) EVENTOS_chaves_distintas
  intro e x h
  split at h
  · cases h; rfl
  · cases h

theorem mem_eventosDe (msg : Registro) (e : Evento) :
    e ∈ eventosDe msg ↔
      ∃ info, (e.codigo, info) ∈ EVENTOS ∧
        (msg.get e.codigo = .str "true" ∨ msg.get e.codigo = .str "1") ∧
        e.descricao = info.descricao ∧ e.severity = info.severity ∧ e.icone = info.icone := by
  unfold eventosDe
  rw [List.mem_filterMap]
  constructor
  · rintro ⟨⟨k, info⟩, hmem, h⟩
    dsimp only at h
    split at h
    · rename_i hflag
      cases h
      exact ⟨info, hmem, hflag, rfl, rfl, rfl⟩
    · cases h
  · rintro ⟨info, hmem, hflag, h1, h2, h3⟩
    refine ⟨(e.codigo, info), hmem, ?_⟩
    dsimp only
    rw [if_pos hflag]
    cases e
    simp only at h1 h2 h3
    simp [h1, h2, h3]

theorem passoPosicao_aceita_eventos (s : Option Posicao) (msg : Registro)
    (hac : ∀ existente, s = some existente →
      jsMaiorIgual (msg.get "dt") existente.dataHora = true) :
    (passoPosicao s msg).map (fun p => p.eventos) = some (eventosDe msg) := by
  unfold passoPosicao
  cases s with
  | none => rfl
  | some existente =>
    dsimp only
    rw [if_pos (hac existente rfl)]
    rfl

/-- C19. The `eventos` list of the position built from a message holds an
entry for a code exactly when the code is a key of `EVENTOS` and the message's
field of that name is `'true'` or `'1'`, the entry carrying the `descricao`,
`severity` and `icone` of the table; no code occurs twice in it; and when an
iteration of the loop accepts the message (the vehicle has no position, or
`msg.dt >= existente.dataHora`), the `eventos` list it stores is this list. -/
theorem eventos_do_registro (msg : Registro) :
    (∀ e : Evento, e ∈ (montarPosicao msg).eventos ↔
      ∃ info, (e.codigo, info) ∈ EVENTOS ∧
        (msg.get e.codigo = .str "true" ∨ msg.get e.codigo = .str "1") ∧
        e.descricao = info.descricao ∧ e.severity = info.severity ∧ e.icone = info.icone) ∧
    ((montarPosicao msg).eventos.map (fun e => e.codigo)).Nodup ∧
    (∀ (db : Db) (maior : JsVal) (r : Db × JsVal),
      processarMensagem db maior msg = some r →
      (∀ existente, Tabela.obter db.posicoes (msg.get "veiID").chave = some existente →
        jsMaiorIgual (msg.get "dt") existente.dataHora = true) →
      (Tabela.obter r.1.posicoes (msg.get "veiID").chave).map (fun p => p.eventos)
        = some ((montarPosicao msg).eventos)) := by
  refine ⟨fun e => mem_eventosDe msg e, eventosDe_codigos_distintos msg, ?_⟩
  intro db maior r hr hac
  unfold processarMensagem at hr
  cases ha : BigInt (msg.get "mId") with
  | none => rw [ha] at hr; cases hr
  | some a =>
    cases hb : BigInt maior with
    | none => rw [ha, hb] at hr; cases hr
    | some b =>
      rw [ha, hb] at hr
      cases hr
      dsimp only
      rw [mesclarPosicao_obter, if_pos rfl]
      exact passoPosicao_aceita_eventos _ msg hac

/-- Witness of C19: the message `msgComEventos`, accepted over the position
of `dbComPosicao`, stores the panic button and the cabin alert, in table
order, and not the siren, whose flag is `0`. -/
theorem eventos_do_registro_witness :
    (Tabela.obter
      ({ dbComPosicao with
          carretas := atualizarCarreta dbComPosicao.carretas msgComEventos
          posicoes := mesclarPosicao dbComPosicao.posicoes msgComEventos } : Db).posicoes
      "7").map (fun p => p.eventos) =
      some [⟨"evt5", "Botão de Pânico", "critico", "🆘"⟩,
            ⟨"evt1", "Alerta de Cabine", "medio", "🔔"⟩] :=
  ((eventos_do_registro msgComEventos).2.2 dbComPosicao (.str "1")
    ({ dbComPosicao with
        carretas := atualizarCarreta dbComPosicao.carretas msgComEventos
        posicoes := mesclarPosicao dbComPosicao.posicoes msgComEventos }, .str "9")
    rfl (by
      intro existente h
      cases h
      decide)).trans (by decide)

/-- C29. In an iteration of the message loop the trailer-link write does not
depend on acceptance: the trailer map it leaves is a function of the message
and of the prior map alone; a message carrying a non-empty `carreta` leaves
that name under the message's vehicle id, also when the message is dropped by
the merge (`msg.dt >= existente.dataHora` false), in which case the position
table is left as it was; and a message with no `carreta` (absent, empty
element or empty text) leaves the trailer map as it was. -/
theorem carreta_independe_da_aceitacao (db : Db) (maior : JsVal) (msg : Registro)
    (r : Db × JsVal) (hr : processarMensagem db maior msg = some r) :
    r.1.carretas = atualizarCarreta db.carretas msg ∧
    (∀ nome, msg.get "carreta" = .str nome → nome ≠ "" →
      Tabela.obter r.1.carretas (msg.get "veiID").chave = some nome) ∧
    (∀ existente, Tabela.obter db.posicoes (msg.get "veiID").chave = some existente →
      jsMaiorIgual (msg.get "dt") existente.dataHora = false →
      r.1.posicoes = db.posicoes) ∧
    ((msg.get "carreta").truthy = false → r.1.carretas = db.carretas) := by
  unfold processarMensagem at hr
  cases ha : BigInt (msg.get "mId") with
  | none => rw [ha] at hr; cases hr
  | some a =>
    cases hb : BigInt maior with
    | none => rw [ha, hb] at hr; cases hr
    | some b =>
      rw [ha, hb] at hr
      cases hr
      dsimp only
      refine ⟨rfl, ?_, ?_, ?_⟩
      · intro nome hn hne
        unfold atualizarCarreta
        have ht : (msg.get "carreta").truthy = true := by
          rw [hn]
          simp [JsVal.truthy, hne]
        rw [if_pos ht, Tabela.obter_definir_mesma, hn]
        rfl
      · intro existente hex hdrop
        unfold mesclarPosicao
        rw [hex]
        dsimp only
        rw [hdrop]
        rfl
      · intro hf
        unfold atualizarCarreta
        rw [hf]
        rfl

/-- Witness of C29: the message `msgAntigaComCarreta` is older than the
position stored for vehicle 7 and is dropped by the merge, and the trailer
map holds its trailer name for vehicle 7 afterwards. -/
theorem carreta_independe_da_aceitacao_witness :
    jsMaiorIgual (msgAntigaComCarreta.get "dt") "2024-05-02 10:00:00" = false ∧
    Tabela.obter dbComPosicao.carretas "7" = none ∧
    Tabela.obter (atualizarCarreta dbComPosicao.carretas msgAntigaComCarreta) "7" = some "T9" ∧
    mesclarPosicao dbComPosicao.posicoes msgAntigaComCarreta = dbComPosicao.posicoes :=
  have h := carreta_independe_da_aceitacao dbComPosicao (.str "1") msgAntigaComCarreta
    ({ dbComPosicao with
        carretas := atualizarCarreta dbComPosicao.carretas msgAntigaComCarreta
        posicoes := mesclarPosicao dbComPosicao.posicoes msgAntigaComCarreta }, .str "9") rfl
  ⟨by decide, by decide, h.2.1 "T9" rfl (by decide),
   h.2.2.1 _ rfl (by decide)⟩

/-! ## The cache -/

theorem Tabela.mem_de_obter {α : Type} (t : Tabela α) (k : String) (v : α)
    (h : Tabela.obter t k = some v) : (k, v) ∈ t := by
  induction t with
  | nil => cases h
  | cons e r ih =>
    obtain ⟨k1, v1⟩ := e
    unfold Tabela.obter at h
    by_cases hk : k1 = k
    · rw [if_pos hk] at h
      cases h
      rw [hk]
      exact List.mem_cons_self _ _
    · rw [if_neg hk] at h
      exact List.mem_cons_of_mem _ (ih h)

/-- What the rewrite makes of an event that passes the filter. -/
theorem reclassificar_cons (evt : Evento) (r : List Evento) :
    reclassificar (evt :: r) =
      match Tabela.obter EVENTOS evt.codigo with
      | some ref => ⟨evt.codigo, ref.descricao, ref.severity, ref.icone⟩ :: reclassificar r
      | none => reclassificar r := by
  unfold reclassificar
  cases h : Tabela.obter EVENTOS evt.codigo with
  | none => simp [List.filter_cons, h]
  | some ref => simp [List.filter_cons, h]

theorem reclassificar_codigos (evs : List Evento) :
    (reclassificar evs).map (fun e => e.codigo) =
      (evs.map (fun e => e.codigo)).filter (fun c => decide (c ∈ EVENTOS.map (fun e => e.1))) := by
  induction evs with
  | nil => rfl
  | cons evt r ih =>
    rw [reclassificar_cons, List.map_cons, List.filter_cons]
    cases h : Tabela.obter EVENTOS evt.codigo with
    | none =>
      have hn : ¬ evt.codigo ∈ EVENTOS.map (fun e => e.1) := by
        rw [Tabela.mem_map_sse_obter, h]
        simp
      simp only [hn, decide_False]
      exact ih
    | some ref =>
      have hs : evt.codigo ∈ EVENTOS.map (fun e => e.1) := by
        rw [Tabela.mem_map_sse_obter, h]
        rfl
      simp only [hs, decide_True, if_true, List.map_cons, ih]

theorem reclassificar_da_tabela (evs : List Evento) :
    ∀ e ∈ reclassificar evs, ∃ info, (e.codigo, info) ∈ EVENTOS ∧
      e.descricao = info.descricao ∧ e.severity = info.severity ∧ e.icone = info.icone := by
  induction evs with
  | nil => intro e he; cases he
  | cons evt r ih =>
    intro e he
    rw [reclassificar_cons] at he
    cases h : Tabela.obter EVENTOS evt.codigo with
    | none =>
      rw [h] at he
      exact ih e he
    | some ref =>
      rw [h] at he
      rcases List.mem_cons.mp he with rfl | he
      · exact ⟨ref, Tabela.mem_de_obter _ _ _ h, rfl, rfl, rfl⟩
      · exact ih e he

theorem reclassificar_idempotente (evs : List Evento) :
    reclassificar (reclassificar evs) = reclassificar evs := by
  induction evs with
  | nil => rfl
  | cons evt r ih =>
    rw [reclassificar_cons]
    cases h : Tabela.obter EVENTOS evt.codigo with
    | none => exact ih
    | some ref =>
      dsimp only
      rw [reclassificar_cons]
      dsimp only
      rw [h]
      dsimp only
      rw [ih]

/-- C21. When the cache file holds a position table, `carregarCache` leaves
that table with the `eventos` list of each position rewritten; the rewritten
list holds, in their original order, the codes of the persisted events that
are keys of `EVENTOS`, each event with the `descricao`, `severity` and `icone`
of the table entry of its code, whatever was persisted; and rewriting a
rewritten list changes nothing. -/
theorem carregarCache_reclassifica (db : Db) (dados : Snapshot) (posicoes : Tabela Posicao)
    (h : dados.posicoes = some posicoes) :
    (carregarCache db (.dados dados)).posicoes =
      posicoes.map (fun e => (e.1, { e.2 with eventos := reclassificar e.2.eventos })) ∧
    (∀ evs : List Evento,
      (reclassificar evs).map (fun e => e.codigo) =
        (evs.map (fun e => e.codigo)).filter
          (fun c => decide (c ∈ EVENTOS.map (fun e => e.1))) ∧
      (∀ e ∈ reclassificar evs, ∃ info, (e.codigo, info) ∈ EVENTOS ∧
        e.descricao = info.descricao ∧ e.severity = info.severity ∧ e.icone = info.icone) ∧
      reclassificar (reclassificar evs) = reclassificar evs) := by
  constructor
  · unfold carregarCache
    dsimp only
    rw [h]
    rfl
  · intro evs
    exact ⟨reclassificar_codigos evs, reclassificar_da_tabela evs, reclassificar_idempotente evs⟩

/-- Witness of C21: loading `cacheAntigo` drops `evt26` from the position of
vehicle 7 and gives `evt5` the description, severity and icon of the current
table. -/
theorem carregarCache_reclassifica_witness :
    (Tabela.obter (carregarCache dbInicial (.dados cacheAntigo)).posicoes "7").map
      (fun p => p.eventos) = some [⟨"evt5", "Botão de Pânico", "critico", "🆘"⟩] := by
  rw [(carregarCache_reclassifica dbInicial cacheAntigo _ rfl).1]
  decide

theorem Tabela.mem_definir {α : Type} (t : Tabela α) (k : String) (v : α) (e : String × α)
    (h : e ∈ Tabela.definir t k v) : e ∈ t ∨ e = (k, v) := by
  induction t with
  | nil =>
    simp only [Tabela.definir, List.mem_singleton] at h
    exact Or.inr h
  | cons e1 r ih =>
    obtain ⟨k1, v1⟩ := e1
    unfold Tabela.definir at h
    by_cases hk : k1 = k
    · rw [if_pos hk] at h
      rcases List.mem_cons.mp h with h | h
      · exact Or.inr h
      · exact Or.inl (List.mem_cons_of_mem _ h)
    · rw [if_neg hk] at h
      rcases List.mem_cons.mp h with h | h
      · exact Or.inl (by rw [h]; exact List.mem_cons_self _ _)
      · rcases ih h with h | h
        · exact Or.inl (List.mem_cons_of_mem _ h)
        · exact Or.inr h

/-- Every entry of `EVENTOS` has one of the four severities. -/
theorem EVENTOS_severidades :
    ∀ e ∈ EVENTOS, e.2.severity = "critico" ∨ e.2.severity = "alto" ∨
      e.2.severity = "medio" ∨ e.2.severity = "info" := by
  decide

/-- The code `evt26` is not a key of `EVENTOS`. -/
theorem evt26_fora_da_tabela : "evt26" ∉ EVENTOS.map (fun e => e.1) := by
  decide

theorem eventosDaTabela_montada (msg : Registro) :
    ∀ evt ∈ (montarPosicao msg).eventos,
      ∃ info, (evt.codigo, info) ∈ EVENTOS ∧ evt.severity = info.severity := by
  intro evt hevt
  obtain ⟨info, hmem, _, _, hsev, _⟩ := (mem_eventosDe msg evt).mp hevt
  exact ⟨info, hmem, hsev⟩

theorem mesclarPosicao_eventosDaTabela (P : Tabela Posicao) (msg : Registro)
    (h : EventosDaTabela P) : EventosDaTabela (mesclarPosicao P msg) := by
  unfold mesclarPosicao
  cases hex : Tabela.obter P (msg.get "veiID").chave with
  | none =>
    dsimp only
    intro e he
    rcases Tabela.mem_definir _ _ _ _ he with he | he
    · exact h e he
    · rw [he]
      exact eventosDaTabela_montada msg
  | some existente =>
    dsimp only
    split
    · intro e he
      rcases Tabela.mem_definir _ _ _ _ he with he | he
      · exact h e he
      · rw [he]
        exact eventosDaTabela_montada msg
    · exact h

theorem foldl_mesclarPosicao_eventosDaTabela (L : List Registro) :
    ∀ P : Tabela Posicao, EventosDaTabela P → EventosDaTabela (L.foldl mesclarPosicao P) := by
  induction L with
  | nil => intro P h; exact h
  | cons m r ih =>
    intro P h
    exact ih _ (mesclarPosicao_eventosDaTabela P m h)

theorem buscarMensagens_eventosDaTabela (db : Db) (resultado : Resultado Registro)
    (agora : String) (h : EventosDaTabela db.posicoes) :
    EventosDaTabela (buscarMensagens db resultado agora).posicoes := by
  cases resultado with
  | falha => exact h
  | nulo => exact h
  | semContainer => exact h
  | itens lote =>
    rw [buscarMensagens_posicoes]
    exact foldl_mesclarPosicao_eventosDaTabela _ _ h

theorem carregarCache_eventosDaTabela (leitura : Leitura) :
    EventosDaTabela (carregarCache dbInicial leitura).posicoes := by
  cases leitura with
  | ausente => intro e he; cases he
  | invalida => intro e he; cases he
  | dados dados =>
    unfold carregarCache
    dsimp only
    intro e he evt hevt
    obtain ⟨e0, _, rfl⟩ := List.mem_map.mp he
    obtain ⟨info, hmem, _, hsev, _⟩ := reclassificar_da_tabela _ evt hevt
    exact ⟨info, hmem, hsev⟩

theorem lotes_eventosDaTabela (lotes : List (Resultado Registro × String)) :
    ∀ db : Db, EventosDaTabela db.posicoes →
      EventosDaTabela (lotes.foldl (fun d l => buscarMensagens d l.1 l.2) db).posicoes := by
  induction lotes with
  | nil => intro db h; exact h
  | cons l r ih =>
    intro db h
    exact ih _ (buscarMensagens_eventosDaTabela db l.1 l.2 h)

/-- C20. Every entry of `EVENTOS` has one of the severities `critico`,
`alto`, `medio`, `info`; and in the store that `carregarCache` makes of the
initial store, after any sequence of runs of `buscarMensagens` (whatever the
outcome of each protocol call), every event of every stored position has a
key of `EVENTOS` as `codigo` and one of the four severities, so that the
`evt26` filter of `montarDadosFrota` removes nothing from any stored list. -/
theorem eventos_sempre_da_tabela (leitura : Leitura)
    (lotes : List (Resultado Registro × String)) :
    (∀ e ∈ EVENTOS, e.2.severity = "critico" ∨ e.2.severity = "alto" ∨
      e.2.severity = "medio" ∨ e.2.severity = "info") ∧
    (∀ e ∈ (lotes.foldl (fun d l => buscarMensagens d l.1 l.2)
        (carregarCache dbInicial leitura)).posicoes,
      ∀ evt ∈ e.2.eventos,
        evt.codigo ∈ EVENTOS.map (fun x => x.1) ∧
        (evt.severity = "critico" ∨ evt.severity = "alto" ∨
          evt.severity = "medio" ∨ evt.severity = "info")) ∧
    (∀ k pos, Tabela.obter (lotes.foldl (fun d l => buscarMensagens d l.1 l.2)
        (carregarCache dbInicial leitura)).posicoes k = some pos →
      alertasDe (some pos) = pos.eventos) := by
  have hinv := lotes_eventosDaTabela lotes _ (carregarCache_eventosDaTabela leitura)
  refine ⟨EVENTOS_severidades, ?_, ?_⟩
  · intro e he evt hevt
    obtain ⟨info, hmem, hsev⟩ := hinv e he evt hevt
    refine ⟨List.mem_map.mpr ⟨(evt.codigo, info), hmem, rfl⟩, ?_⟩
    rw [hsev]
    exact EVENTOS_severidades _ hmem
  · intro k pos hpos
    unfold alertasDe
    simp only [Option.map_some', Option.getD_some]
    rw [List.filter_eq_self]
    intro evt hevt
    obtain ⟨info, hmem, _⟩ := hinv (k, pos) (Tabela.mem_de_obter _ _ _ hpos) evt hevt
    have hne : evt.codigo ≠ "evt26" := by
      intro heq
      apply evt26_fora_da_tabela
      rw [← heq]
      exact List.mem_map.mpr ⟨(evt.codigo, info), hmem, rfl⟩
    simpa using hne

theorem jsonTabela_id {α : Type} (t : Tabela α) : jsonTabela id t = Tabela.entradas t := by
  unfold jsonTabela
  simp

/-- What the round trip through the cache file gives, from the initial
store: the vehicles, drivers and trailer names in enumeration order, a truthy
cursor as it was, and each position written, read back and with its `eventos`
rewritten. -/
theorem ida_e_volta_tabelas (db : Db) (agora : String) (h : db.ultimoMId.truthy = true) :
    (carregarCache dbInicial (.dados (salvarCache db agora))).veiculos
      = Tabela.entradas db.veiculos ∧
    (carregarCache dbInicial (.dados (salvarCache db agora))).motoristas
      = Tabela.entradas db.motoristas ∧
    (carregarCache dbInicial (.dados (salvarCache db agora))).carretas
      = Tabela.entradas db.carretas ∧
    (carregarCache dbInicial (.dados (salvarCache db agora))).ultimoMId = db.ultimoMId ∧
    (carregarCache dbInicial (.dados (salvarCache db agora))).posicoes =
      (Tabela.entradas db.posicoes).map
        (fun e => (e.1, { jsonPosicao e.2 with eventos := reclassificar e.2.eventos })) := by
  unfold carregarCache salvarCache
  simp only [Option.getD_some, jsonTabela_id, h, if_true]
  refine ⟨trivial, trivial, trivial, trivial, ?_⟩
  unfold jsonTabela
  rw [List.map_map]
  rfl

/-- Evaluation for C22. The store left by a fetch that brought a message with
an empty `odm` element holds the odometer `NaN` for vehicle 7; after
`salvarCache` and `carregarCache` into the initial store the odometer of
vehicle 7 is `null`: the position table is not the same. -/
theorem ida_e_volta_perde_nan :
    (Tabela.obter dbOdmVazio.posicoes "7").map (fun p => p.odometro) = some .nan ∧
    (Tabela.obter
      (carregarCache dbInicial
        (.dados (salvarCache dbOdmVazio "2024-05-02T10:05:06.000Z"))).posicoes
      "7").map (fun p => p.odometro) = some .null := by
  refine ⟨by decide, by decide⟩

/-! ## Protocol client, reference tables and fault isolation -/

/-- C28. The function `paraArray` gives a list for every value: a list is
returned as it is, a record as the one-element list holding it, an absent
value and an empty element as the empty list; and applying it to its own
result changes nothing. -/
theorem paraArray_lista_ou_unico :
    (∀ itens, paraArray (.lista itens) = itens) ∧
    (∀ campos, paraArray (.objeto campos) = [.objeto campos]) ∧
    paraArray .undefined = [] ∧ paraArray .null = [] ∧
    (∀ x, paraArray (.lista (paraArray x)) = paraArray x) :=
  ⟨fun _ => rfl, fun _ => rfl, rfl, rfl, fun _ => rfl⟩

/-- Counterexample to C25. The origin code 9 is not a key of `ORIGENS`, and
the origin name resolved for it is `null`, not a placeholder label. -/
theorem origem_desconhecida_e_nula :
    (montarPosicao msgOrigemDesconhecida).origemCod = .int 9 ∧
    (∀ e ∈ ORIGENS, e.1 ≠ 9) ∧
    (montarPosicao msgOrigemDesconhecida).origem = none := by
  refine ⟨by decide, by decide, by decide⟩

theorem find_none_de_ausente {α : Type} (t : List (Int × α)) (n : Int)
    (h : ∀ e ∈ t, e.1 ≠ n) : t.find? (fun e => e.1 = n) = none := by
  rw [List.find?_eq_none]
  intro e he
  simpa using h e he

/-- C25, amended. For a vehicle element whose equipment code
(`parseInt(v.eqp) || 0`) is not a key of `EQUIPAMENTOS`, the equipment name is
`Tipo` followed by the raw `eqp` field; for a message whose origin code is not
a key of `ORIGENS`, the origin name is `null`. -/
theorem tabelas_de_referencia_com_padrao (v msg : Registro)
    (heqp : ∀ e ∈ EQUIPAMENTOS, e.1 ≠ codigoEquipamento v)
    (hori : ∀ n, (montarPosicao msg).origemCod = .int n → ∀ e ∈ ORIGENS, e.1 ≠ n) :
    (montarVeiculo v).equipamento = "Tipo " ++ (v.get "eqp").emTexto ∧
    (montarPosicao msg).origem = none := by
  constructor
  · show equipamentoDe v = _
    unfold equipamentoDe
    rw [find_none_de_ausente _ _ heqp]
    rfl
  · show origemDe (parseOpt (msg.get "ori")) = none
    have hcod : (montarPosicao msg).origemCod = parseOpt (msg.get "ori") := rfl
    rw [hcod] at hori
    cases hp : parseOpt (msg.get "ori") with
    | null => rfl
    | nan => rfl
    | int n =>
      unfold origemDe
      dsimp only
      rw [find_none_de_ausente _ _ (hori n hp)]
      rfl

/-- Witness of the amended C25: the equipment code 99 resolves to `Tipo 99`
and the origin code 9 resolves to `null`. -/
theorem tabelas_de_referencia_com_padrao_witness :
    (montarVeiculo veiculoTipoDesconhecido).equipamento = "Tipo 99" ∧
    (montarPosicao msgOrigemDesconhecida).origem = none :=
  have h := tabelas_de_referencia_com_padrao veiculoTipoDesconhecido msgOrigemDesconhecida
    (by decide)
    (by
      intro n hn
      have h9 : (montarPosicao msgOrigemDesconhecida).origemCod = .int 9 := by decide
      rw [h9] at hn
      cases hn
      decide)
  ⟨h.1.trans (by decide), h.2⟩

/-- C26. With an archive reader and a gzip decompressor that succeed only on
payloads longer than two bytes (as every ZIP archive and gzip stream is), the
function `descompactar` dispatches on the first two bytes: a payload beginning
with `50 4B` whose archive has a first entry decodes to the text of that
entry; a payload beginning with `1F 8B` decodes to the text of its
decompressed data; a payload beginning with `50 4B` whose archive has no
entry, and a payload beginning with neither signature, decode to the text of
the payload itself. Hence a ZIP payload and a gzip payload that hold the same
data decode to the same text. -/
theorem descompactar_por_assinatura (entradasZip : List Nat → Option (List (List Nat)))
    (gunzipSync : List Nat → Option (List Nat)) (utf8 : List Nat → String)
    (hzip : ∀ b e r, entradasZip b = some (e :: r) → b.length > 2)
    (hgz : ∀ b d, gunzipSync b = some d → b.length > 2) :
    (∀ resto primeiro outras,
      entradasZip (0x50 :: 0x4B :: resto) = some (primeiro :: outras) →
      descompactar entradasZip gunzipSync utf8 (0x50 :: 0x4B :: resto) = some (utf8 primeiro)) ∧
    (∀ resto dados, gunzipSync (0x1F :: 0x8B :: resto) = some dados →
      descompactar entradasZip gunzipSync utf8 (0x1F :: 0x8B :: resto) = some (utf8 dados)) ∧
    (∀ resto, entradasZip (0x50 :: 0x4B :: resto) = some [] →
      descompactar entradasZip gunzipSync utf8 (0x50 :: 0x4B :: resto)
        = some (utf8 (0x50 :: 0x4B :: resto))) ∧
    (∀ buffer,
      ¬ (buffer.head? = some 0x50 ∧ buffer.tail.head? = some 0x4B) →
      ¬ (buffer.head? = some 0x1F ∧ buffer.tail.head? = some 0x8B) →
      descompactar entradasZip gunzipSync utf8 buffer = some (utf8 buffer)) ∧
    (∀ r1 r2 dados outras,
      entradasZip (0x50 :: 0x4B :: r1) = some (dados :: outras) →
      gunzipSync (0x1F :: 0x8B :: r2) = some dados →
      descompactar entradasZip gunzipSync utf8 (0x50 :: 0x4B :: r1) =
        descompactar entradasZip gunzipSync utf8 (0x1F :: 0x8B :: r2)) := by
  have h1 : ∀ resto primeiro outras,
      entradasZip (0x50 :: 0x4B :: resto) = some (primeiro :: outras) →
      descompactar entradasZip gunzipSync utf8 (0x50 :: 0x4B :: resto)
        = some (utf8 primeiro) := by
    intro resto primeiro outras h
    have hlen := hzip _ _ _ h
    unfold descompactar
    dsimp only
    rw [if_pos ⟨hlen, rfl, rfl⟩, h]
  have h2 : ∀ resto dados, gunzipSync (0x1F :: 0x8B :: resto) = some dados →
      descompactar entradasZip gunzipSync utf8 (0x1F :: 0x8B :: resto) = some (utf8 dados) := by
    intro resto dados h
    have hlen := hgz _ _ h
    unfold descompactar
    dsimp only
    rw [if_neg (by simp), if_pos ⟨hlen, rfl, rfl⟩, h]
    rfl
  refine ⟨h1, h2, ?_, ?_, ?_⟩
  · intro resto h
    unfold descompactar
    dsimp only
    by_cases hlen : (0x50 :: 0x4B :: resto).length > 2
    · rw [if_pos ⟨hlen, rfl, rfl⟩, h]
      dsimp only
      rw [if_neg (by simp)]
    · rw [if_neg (fun hc => hlen hc.1), if_neg (by simp)]
  · intro buffer hz hg
    unfold descompactar
    dsimp only
    rw [if_neg (fun hc => hz hc.2), if_neg (fun hc => hg hc.2)]
  · intro r1 r2 dados outras hz hg
    rw [h1 _ _ _ hz, h2 _ _ hg]

/-- Witness of C26: with the stand-in readers, the archive of one entry
holding `<a/>` and the gzip stream holding `<a/>` both decode to `<a/>`. -/
theorem descompactar_por_assinatura_witness :
    descompactar zipDeExemplo gunzipDeExemplo textoAscii (0x50 :: 0x4B :: 1 :: bytesDe "<a/>")
      = some "<a/>" ∧
    descompactar zipDeExemplo gunzipDeExemplo textoAscii (0x1F :: 0x8B :: 8 :: bytesDe "<a/>")
      = some "<a/>" :=
  have hzip : ∀ b e r, zipDeExemplo b = some (e :: r) → b.length > 2 := by
    intro b e r h
    unfold zipDeExemplo at h
    split at h
    · cases h
    · simp
    · cases h
  have hgz : ∀ b d, gunzipDeExemplo b = some d → b.length > 2 := by
    intro b d h
    unfold gunzipDeExemplo at h
    split at h
    · simp
    · cases h
  have h := descompactar_por_assinatura zipDeExemplo gunzipDeExemplo textoAscii hzip hgz
  ⟨(h.1 (1 :: bytesDe "<a/>") (bytesDe "<a/>") [] (by decide)).trans (by decide),
   (h.2.1 (8 :: bytesDe "<a/>") (bytesDe "<a/>") (by decide)).trans (by decide)⟩

/-- Counterexample to C24. The body `<ErrorRequest/>` is well-formed XML
whose root is the error envelope; it parses to an object whose `ErrorRequest`
is `null` (`emptyTag: null`), which is falsy, and `enviarXML` returns that
object, not `null`. An envelope with content gives `null`. -/
theorem envelope_vazio_nao_e_nulo :
    analisadorDeExemplo "<ErrorRequest/>" = some (.objeto [("ErrorRequest", .null)]) ∧
    enviarXML zipDeExemplo gunzipDeExemplo textoAscii analisadorDeExemplo
      (some (bytesDe "<ErrorRequest/>")) = .ok (some (.objeto [("ErrorRequest", .null)])) ∧
    enviarXML zipDeExemplo gunzipDeExemplo textoAscii analisadorDeExemplo
      (some (bytesDe "<ErrorRequest><codigo>7</codigo><erro>Login</erro></ErrorRequest>"))
      = .ok none := by
  refine ⟨rfl, rfl, rfl⟩

/-- C24, amended. For a response whose body decodes to the text `xmlTexto`:
`enviarXML` throws when the trimmed text does not start with `<` and when the
parser rejects the text; when the parser gives an object, `enviarXML` returns
`null` if the `ErrorRequest` of the object is truthy (an envelope with
content) and the object itself if it is not (no envelope, or an empty one);
so it returns `null` exactly when the trimmed text starts with `<` and parses
to an object with a truthy `ErrorRequest`. -/
theorem enviarXML_desfechos (entradasZip : List Nat → Option (List (List Nat)))
    (gunzipSync : List Nat → Option (List Nat)) (utf8 : List Nat → String)
    (parseStringPromise : String → Option Valor) (buffer : List Nat) (xmlTexto : String)
    (hdec : descompactar entradasZip gunzipSync utf8 buffer = some xmlTexto) :
    ((aparar xmlTexto.toList).head? ≠ some '<' →
      enviarXML entradasZip gunzipSync utf8 parseStringPromise (some buffer)
        = .error .respostaInesperada) ∧
    ((aparar xmlTexto.toList).head? = some '<' → parseStringPromise xmlTexto = none →
      enviarXML entradasZip gunzipSync utf8 parseStringPromise (some buffer)
        = .error .analise) ∧
    (∀ resultado erro, (aparar xmlTexto.toList).head? = some '<' →
      parseStringPromise xmlTexto = some resultado →
      resultado.prop "ErrorRequest" = some erro →
      (erro.truthy = true →
        enviarXML entradasZip gunzipSync utf8 parseStringPromise (some buffer) = .ok none) ∧
      (erro.truthy = false →
        enviarXML entradasZip gunzipSync utf8 parseStringPromise (some buffer)
          = .ok (some resultado))) ∧
    (enviarXML entradasZip gunzipSync utf8 parseStringPromise (some buffer) = .ok none ↔
      ((aparar xmlTexto.toList).head? = some '<' ∧
        ∃ resultado erro, parseStringPromise xmlTexto = some resultado ∧
          resultado.prop "ErrorRequest" = some erro ∧ erro.truthy = true)) := by
  have hun : enviarXML entradasZip gunzipSync utf8 parseStringPromise (some buffer) =
      if (aparar xmlTexto.toList).head? ≠ some '<' then .error .respostaInesperada
      else
        match parseStringPromise xmlTexto with
        | none => .error .analise
        | some resultado =>
          match resultado.prop "ErrorRequest" with
          | none => .error .semObjeto
          | some erro => if erro.truthy then .ok none else .ok (some resultado) := by
    unfold enviarXML
    dsimp only
    rw [hdec]
  rw [hun]
  refine ⟨?_, ?_, ?_, ?_⟩
  · intro h
    rw [if_pos h]
  · intro h hp
    rw [if_neg (not_not.mpr h), hp]
  · intro resultado erro h hp he
    rw [if_neg (not_not.mpr h), hp]
    dsimp only
    rw [he]
    dsimp only
    constructor
    · intro ht; rw [if_pos ht]
    · intro hf; rw [if_neg (by rw [hf]; simp)]
  · constructor
    · intro hres
      by_cases h : (aparar xmlTexto.toList).head? = some '<'
      · refine ⟨h, ?_⟩
        rw [if_neg (not_not.mpr h)] at hres
        cases hp : parseStringPromise xmlTexto with
        | none => rw [hp] at hres; cases hres
        | some resultado =>
          rw [hp] at hres
          dsimp only at hres
          cases he : resultado.prop "ErrorRequest" with
          | none => rw [he] at hres; cases hres
          | some erro =>
            rw [he] at hres
            dsimp only at hres
            by_cases ht : erro.truthy = true
            · exact ⟨resultado, erro, rfl, he, ht⟩
            · rw [if_neg ht] at hres
              cases hres
      · rw [if_pos h] at hres
        cases hres
    · rintro ⟨h, resultado, erro, hp, he, ht⟩
      rw [if_neg (not_not.mpr h), hp]
      dsimp only
      rw [he]
      dsimp only
      rw [if_pos ht]

/-- Witness of the amended C24: with the stand-in parser, an error envelope
with a code and a message gives `null`. -/
theorem enviarXML_desfechos_witness :
    enviarXML zipDeExemplo gunzipDeExemplo textoAscii analisadorDeExemplo
      (some (bytesDe "<ErrorRequest><codigo>7</codigo><erro>Login</erro></ErrorRequest>"))
      = .ok none :=
  ((enviarXML_desfechos zipDeExemplo gunzipDeExemplo textoAscii analisadorDeExemplo
    (bytesDe "<ErrorRequest><codigo>7</codigo><erro>Login</erro></ErrorRequest>")
    "<ErrorRequest><codigo>7</codigo><erro>Login</erro></ErrorRequest>" (by decide)).2.2.1
    (.objeto [("ErrorRequest", .objeto [("codigo", .texto "7"), ("erro", .texto "Login")])])
    (.objeto [("codigo", .texto "7"), ("erro", .texto "Login")])
    (by decide) rfl rfl).1 rfl

theorem lacoVeiculos_ate_nulo (antes : List Registro) (depois : List (Option Registro)) :
    ∀ t : Tabela Veiculo,
      (lacoVeiculos t (antes.map some ++ none :: depois)).1
        = (lacoVeiculos t (antes.map some)).1 := by
  induction antes with
  | nil => intro t; rfl
  | cons v r ih =>
    intro t
    simp only [List.map_cons, List.cons_append, lacoVeiculos]
    exact ih _

theorem lacoMotoristas_ate_nulo (antes : List Registro) (depois : List (Option Registro)) :
    ∀ t : Tabela Motorista,
      (lacoMotoristas t (antes.map some ++ none :: depois)).1
        = (lacoMotoristas t (antes.map some)).1 := by
  induction antes with
  | nil => intro t; rfl
  | cons v r ih =>
    intro t
    simp only [List.map_cons, List.cons_append, lacoMotoristas]
    exact ih _

/-- C23. Each fetch body gives a store for every outcome of the protocol
call and every record content; an exception raised inside it is caught
there. When the call throws or returns `null`, `buscarVeiculos`,
`buscarMotoristas` and `buscarMensagens` return the store as it was, and so
does `buscarCarretas` when every attempt fails; a `null` element in the
response of `buscarVeiculos` or `buscarMotoristas` ends the loop with the
writes of the elements before it, and a first message whose `mId` does not
convert with `BigInt` leaves the store of `buscarMensagens` as it was. -/
theorem falhas_ficam_no_corpo (up : String → String) (db : Db) (agora : String) :
    (buscarVeiculos db .falha = db ∧ buscarVeiculos db .nulo = db) ∧
    (buscarMotoristas db .falha = db ∧ buscarMotoristas db .nulo = db) ∧
    (buscarMensagens db .falha agora = db ∧ buscarMensagens db .nulo agora = db) ∧
    (∀ tentativas respostas, (∀ fmt i, TentativaFalha (respostas fmt i)) →
      buscarCarretas up db tentativas respostas = db) ∧
    (∀ (antes : List Registro) (depois : List (Option Registro)),
      buscarVeiculos db (.itens (antes.map some ++ none :: depois))
        = buscarVeiculos db (.itens (antes.map some))) ∧
    (∀ (antes : List Registro) (depois : List (Option Registro)),
      buscarMotoristas db (.itens (antes.map some ++ none :: depois))
        = buscarMotoristas db (.itens (antes.map some))) ∧
    (∀ m resto, BigInt (m.get "mId") = none →
      buscarMensagens db (.itens (m :: resto)) agora = db) := by
  refine ⟨⟨rfl, rfl⟩, ⟨rfl, rfl⟩, ⟨rfl, rfl⟩, ?_, ?_, ?_, ?_⟩
  · intro tentativas respostas h
    unfold buscarCarretas
    have hall : ∀ r ∈ tentativasEmOrdem tentativas respostas, TentativaFalha r := by
      intro r hr
      unfold tentativasEmOrdem at hr
      simp only [List.mem_flatMap, List.mem_map] at hr
      obtain ⟨fmt, _, i, _, rfl⟩ := hr
      exact h fmt i
    have := lacoCarretas_apos_falhas up db (tentativasEmOrdem tentativas respostas) [] hall
    rw [List.append_nil] at this
    rw [this]
    rfl
  · intro antes depois
    unfold buscarVeiculos
    dsimp only
    rw [lacoVeiculos_ate_nulo]
  · intro antes depois
    unfold buscarMotoristas
    dsimp only
    rw [lacoMotoristas_ate_nulo]
  · intro m resto hm
    unfold buscarMensagens
    simp only [lacoMensagens, processarMensagem, hm]

/-! ## Timestamps written day first -/

/-- Evaluation for C2. With the timestamps written as `helpers.js` documents
them (day, month, year), the message of 31 December 2024 is older than the
position stored for vehicle 7, of 5 January 2025, and `buscarMensagens`
stores it over that position: the guard compares the texts, and `31/12/2024`
is not below `05/01/2025`. The message of 1 February 2025, which is newer, is
dropped. -/
theorem mensagem_mais_antiga_sobrescreve :
    instanteDe "31/12/2024 10:00:00" = "2024-12-31T10:00:00" ∧
    instanteDe "05/01/2025 14:30:00" = "2025-01-05T14:30:00" ∧
    (Tabela.obter dbDiaMesAno.posicoes "7").map (fun p => (p.dataHora, p.velocidade))
      = some ("05/01/2025 14:30:00", some 60) ∧
    maisAntiga "31/12/2024 10:00:00" "05/01/2025 14:30:00" = true ∧
    (Tabela.obter
      (buscarMensagens dbDiaMesAno (.itens [msgAnoAnterior]) "2025-01-05T14:31:00.000Z").posicoes
      "7").map (fun p => (p.dataHora, p.velocidade)) = some ("31/12/2024 10:00:00", some 0) ∧
    maisAntiga "01/02/2025 08:00:00" "05/01/2025 14:30:00" = false ∧
    (Tabela.obter
      (buscarMensagens dbDiaMesAno (.itens [msgMesSeguinte]) "2025-02-01T08:01:00.000Z").posicoes
      "7").map (fun p => (p.dataHora, p.velocidade)) = some ("05/01/2025 14:30:00", some 60) := by
  refine ⟨by decide, by decide, by decide, by decide, by decide, by decide, by decide⟩

/-- For timestamps without a slash, which `helpers.js` reads as they are, a
message older than the position stored for its vehicle leaves the position
table as it was. -/
theorem mensagem_antiga_sem_barra (db : Db) (maior : JsVal) (msg : Registro) (dt : String)
    (existente : Posicao)
    (hex : Tabela.obter db.posicoes (msg.get "veiID").chave = some existente)
    (hdt : msg.get "dt" = .str dt)
    (h1 : '/' ∉ dt.toList) (h2 : '/' ∉ existente.dataHora.toList)
    (hantiga : maisAntiga dt existente.dataHora = true) :
    (lacoMensagens db maior [msg]).1.posicoes = db.posicoes := by
  have hm : jsMenor (msg.get "dt") existente.dataHora = true := by
    rw [hdt]
    unfold maisAntiga instanteDe at hantiga
    rw [if_neg h1, if_neg h2] at hantiga
    exact hantiga
  exact (mensagem_antiga_preserva_registro db maior msg existente hex hm).1

end PainelFrotas
